import Mathlib

/-!
Tatum static timing analysis: a verification development.

A shallow embedding of parts of the `tatum` sources

* `libtatum/tags/TimingTag.inl`: the per-tag folds `max_arr`, `min_arr`, `min_req`, `max_req`;
* `libtatum/analyzers/FullHoldTimingAnalyzer.hpp` and
  `libtatum/analyzers/FullSetupHoldTimingAnalyzer.hpp`: the constructors, `update_timing` and
  the pass sequence of `update_timing_impl`;
* `libtatum/tatum/TimingConstraints.cpp`: the constraint store, its look-ups and its mutators,
  `remap_nodes` among them;
* `libtatum/constraints/TimingConstraints.cpp`: the legacy constraint store, with the look-ups
  and mutators it shares with the newer one;
* `libtatum/graph_visitors/SetupHoldAnalysis.hpp`: the hooks and the result accessors of the
  composite visitor;
* `libtatum/base/echo_writer.cpp`: `write_timing_graph`, `write_timing_constraints`,
  `write_analysis_result`, `write_tags` and `write_slacks`;

followed by theorems about them.
-/

namespace Tatum

/-! ## Strong ids -/

/-- Modelled from the spec: `NodeId` is `StrongId<node_id_tag>` (tatum_strong_id.hpp is not among
the sources), a typed index over `int`; the sentinel `INVALID()` is `-1`. -/
structure NodeId where
  id : Int
  deriving DecidableEq, Repr

/-- The sentinel `NodeId::INVALID()`. -/
def NodeId.INVALID : NodeId := ⟨-1⟩

/-- Modelled from the spec: `DomainId` is `StrongId<domain_id_tag, unsigned char>`
(timing_graph_fwd.hpp), a typed index that fits in a byte; the sentinel `INVALID()` is
`(unsigned char)(-1) = 255`. -/
structure DomainId where
  id : Nat
  deriving DecidableEq, Repr

/-- The sentinel `DomainId::INVALID()`. -/
def DomainId.INVALID : DomainId := ⟨255⟩

/-! ## Time -/

/-- Modelled from the spec: the `float` (IEEE-754 binary32) that `Time` wraps, given by its 32-bit
pattern `bits % 2^32`: bit 31 is the sign, bits 30..23 the exponent, bits 22..0 the mantissa.
Only classification and comparison are modelled (no arithmetic, hence no rounding). -/
structure F32 where
  bits : Nat
  deriving DecidableEq, Repr

namespace F32

/-- Sign bit (bit 31). -/
def sign (x : F32) : Nat := x.bits / 2147483648 % 2

/-- Biased exponent (bits 30..23). -/
def exponent (x : F32) : Nat := x.bits / 8388608 % 256

/-- Mantissa (bits 22..0). -/
def mantissa (x : F32) : Nat := x.bits % 8388608

/-- The C library `isnan`: exponent all ones and a non-zero mantissa. -/
def isnan (x : F32) : Bool := x.exponent == 255 && x.mantissa != 0

/-- Exponent and mantissa read as one 31-bit number; for non-NaN floats the absolute value is
strictly increasing in it (denormals, normals, then infinity). -/
def magnitude (x : F32) : Nat := x.bits % 2147483648

/-- Position of a non-NaN float on the number line: sign-magnitude read as an integer.
Both zeros (`+0.0` and `-0.0`) are at position `0`. -/
def key (x : F32) : Int := if x.sign = 1 then -(x.magnitude : Int) else (x.magnitude : Int)

/-- The C operator `a > b` on floats: false when either operand is NaN. -/
def gt (a b : F32) : Bool := !a.isnan && !b.isnan && decide (b.key < a.key)

/-- The C operator `a < b` on floats: false when either operand is NaN. -/
def lt (a b : F32) : Bool := !a.isnan && !b.isnan && decide (a.key < b.key)

/-- The C operator `a >= b` on floats: false when either operand is NaN. -/
def ge (a b : F32) : Bool := !a.isnan && !b.isnan && decide (b.key ≤ a.key)

/-- The C operator `a <= b` on floats: false when either operand is NaN. -/
def le (a b : F32) : Bool := !a.isnan && !b.isnan && decide (a.key ≤ b.key)

/-- The C operator `a == b` on floats: false when either operand is NaN, true for `+0.0 == -0.0`. -/
def eq (a b : F32) : Bool := !a.isnan && !b.isnan && decide (a.key = b.key)

/-- The quiet NaN `NAN` (pattern `0x7FC00000`). -/
def NAN : F32 := ⟨2143289344⟩

end F32

/-- Modelled from the spec: `Time` (Time.hpp is not among the sources) is a single-field wrapper
over a float, with `valid()` false exactly for NaN and `value()` the wrapped float. -/
structure Time where
  time_ : F32
  deriving DecidableEq, Repr

/-- The accessor `Time::value()`. -/
def Time.value (t : Time) : F32 := t.time_

/-- The accessor `Time::valid()`: false iff the value is NaN. -/
def Time.valid (t : Time) : Bool := !t.time_.isnan

/-- The tag kinds the legacy `TimingTag` distinguishes (the cases of `operator<<`). -/
inductive TagType
  | DATA
  | CLOCK_LAUNCH
  | CLOCK_CAPTURE
  deriving DecidableEq, Repr

/-- The data members of `TimingTag` set by its constructors. -/
structure TimingTag where
  arr_time : Time
  req_time : Time
  clock_domain : DomainId
  launch_node : NodeId
  type : TagType
  deriving DecidableEq, Repr

namespace TimingTag

/-- The default constructor `TimingTag::TimingTag()` (named `ctor`, the type's own name being
taken). Its initialiser list sets the two times to
`NAN` and the two ids to their sentinels; `type_` is not in the list, so its value is a parameter
here. -/
def ctor (type : TagType) : TimingTag :=
  { arr_time := ⟨F32.NAN⟩
    req_time := ⟨F32.NAN⟩
    clock_domain := DomainId.INVALID
    launch_node := NodeId.INVALID
    type := type }

/-- The method `TimingTag::update_arr`. `TATUM_ASSERT(clock_domain() == base_tag.clock_domain())` aborts the
call (`none`) when the domains differ; otherwise the arrival time and the launch node are set. -/
def update_arr (t : TimingTag) (new_arr_time : Time) (base_tag : TimingTag) : Option TimingTag :=
  if t.clock_domain = base_tag.clock_domain then
    some { t with arr_time := new_arr_time, launch_node := base_tag.launch_node }
  else
    none

/-- The method `TimingTag::update_req`. Same assertion as `update_arr`; only the required time is set. -/
def update_req (t : TimingTag) (new_req_time : Time) (base_tag : TimingTag) : Option TimingTag :=
  if t.clock_domain = base_tag.clock_domain then
    some { t with req_time := new_req_time }
  else
    none

/-- The fold `TimingTag::max_arr`. -/
def max_arr (t : TimingTag) (new_arr_time : Time) (base_tag : TimingTag) : Option TimingTag :=
  if !t.arr_time.valid || F32.gt new_arr_time.value t.arr_time.value then
    t.update_arr new_arr_time base_tag
  else
    some t

/-- The fold `TimingTag::min_req`. -/
def min_req (t : TimingTag) (new_req_time : Time) (base_tag : TimingTag) : Option TimingTag :=
  if !t.req_time.valid || F32.lt new_req_time.value t.req_time.value then
    t.update_req new_req_time base_tag
  else
    some t

/-- The fold `TimingTag::min_arr`. -/
def min_arr (t : TimingTag) (new_arr_time : Time) (base_tag : TimingTag) : Option TimingTag :=
  if !t.arr_time.valid || F32.lt new_arr_time.value t.arr_time.value then
    t.update_arr new_arr_time base_tag
  else
    some t

/-- The fold `TimingTag::max_req`. -/
def max_req (t : TimingTag) (new_req_time : Time) (base_tag : TimingTag) : Option TimingTag :=
  if !t.req_time.valid || F32.gt new_req_time.value t.req_time.value then
    t.update_req new_req_time base_tag
  else
    some t

end TimingTag

/-! ## Analyzer facades (libtatum/analyzers) -/

/-- The `GraphWalker` template parameter of the analyzers: the six passes an analyzer requests.
Each pass receives the visitor by reference, so here it maps the visitor `V` and the walker's own
state `W` to their new values. `TG`, `TC`, `DC` are the graph, constraints and delay calculator. -/
structure GraphWalker (TG TC DC V W : Type) where
  do_reset : TG → V → W → V × W
  do_arrival_pre_traversal : TG → TC → V → W → V × W
  do_arrival_traversal : TG → TC → DC → V → W → V × W
  do_required_pre_traversal : TG → TC → V → W → V × W
  do_required_traversal : TG → TC → DC → V → W → V × W
  do_update_slack : TG → DC → V → W → V × W

/-- The method `FullHoldTimingAnalyzer::update_timing_impl`, on the members `hold_visitor_` (`v`) and
`graph_walker_` (state `s`). -/
def FullHoldTimingAnalyzer.update_timing_impl {TG TC DC V W : Type}
    (graph_walker_ : GraphWalker TG TC DC V W) (timing_graph_ : TG) (timing_constraints_ : TC)
    (delay_calculator_ : DC) (hold_visitor_ : V) (s : W) : V × W :=
  let (v, s) := graph_walker_.do_reset timing_graph_ hold_visitor_ s
  let (v, s) := graph_walker_.do_arrival_pre_traversal timing_graph_ timing_constraints_ v s
  let (v, s) := graph_walker_.do_arrival_traversal timing_graph_ timing_constraints_
    delay_calculator_ v s
  let (v, s) := graph_walker_.do_required_pre_traversal timing_graph_ timing_constraints_ v s
  let (v, s) := graph_walker_.do_required_traversal timing_graph_ timing_constraints_
    delay_calculator_ v s
  graph_walker_.do_update_slack timing_graph_ delay_calculator_ v s

/-- The method `FullSetupHoldTimingAnalyzer::update_timing_impl`, on the members `setup_hold_visitor_` (`v`)
and `graph_walker_` (state `s`). -/
def FullSetupHoldTimingAnalyzer.update_timing_impl {TG TC DC V W : Type}
    (graph_walker_ : GraphWalker TG TC DC V W) (timing_graph_ : TG) (timing_constraints_ : TC)
    (delay_calculator_ : DC) (setup_hold_visitor_ : V) (s : W) : V × W :=
  let (v, s) := graph_walker_.do_reset timing_graph_ setup_hold_visitor_ s
  let (v, s) := graph_walker_.do_arrival_pre_traversal timing_graph_ timing_constraints_ v s
  let (v, s) := graph_walker_.do_arrival_traversal timing_graph_ timing_constraints_
    delay_calculator_ v s
  let (v, s) := graph_walker_.do_required_pre_traversal timing_graph_ timing_constraints_ v s
  graph_walker_.do_required_traversal timing_graph_ timing_constraints_ delay_calculator_ v s

/-- One invocation of a walker pass, with the arguments it was given. -/
inductive WalkerCall (TG TC DC V : Type)
  | do_reset (tg : TG) (visitor : V)
  | do_arrival_pre_traversal (tg : TG) (tc : TC) (visitor : V)
  | do_arrival_traversal (tg : TG) (tc : TC) (dc : DC) (visitor : V)
  | do_required_pre_traversal (tg : TG) (tc : TC) (visitor : V)
  | do_required_traversal (tg : TG) (tc : TC) (dc : DC) (visitor : V)
  | do_update_slack (tg : TG) (dc : DC) (visitor : V)
  deriving DecidableEq, Repr

/-- The six passes of a walker. -/
inductive WalkerPass
  | do_reset
  | do_arrival_pre_traversal
  | do_arrival_traversal
  | do_required_pre_traversal
  | do_required_traversal
  | do_update_slack
  deriving DecidableEq, Repr

/-- The pass a call invoked. -/
def WalkerCall.pass {TG TC DC V : Type} : WalkerCall TG TC DC V → WalkerPass
  | .do_reset .. => .do_reset
  | .do_arrival_pre_traversal .. => .do_arrival_pre_traversal
  | .do_arrival_traversal .. => .do_arrival_traversal
  | .do_required_pre_traversal .. => .do_required_pre_traversal
  | .do_required_traversal .. => .do_required_traversal
  | .do_update_slack .. => .do_update_slack

/-- The effect each of the six passes has on the visitor it is handed. -/
structure PassEffects (V : Type) where
  reset : V → V
  arrival_pre : V → V
  arrival : V → V
  required_pre : V → V
  required : V → V
  slack : V → V

/-- An instrumented walker: each pass applies its effect to the visitor and appends the call,
with the arguments it received, to the walker's log. -/
def recordingWalker {TG TC DC V : Type} (eff : PassEffects V) :
    GraphWalker TG TC DC V (List (WalkerCall TG TC DC V)) where
  do_reset tg v log := (eff.reset v, log ++ [.do_reset tg v])
  do_arrival_pre_traversal tg tc v log :=
    (eff.arrival_pre v, log ++ [.do_arrival_pre_traversal tg tc v])
  do_arrival_traversal tg tc dc v log := (eff.arrival v, log ++ [.do_arrival_traversal tg tc dc v])
  do_required_pre_traversal tg tc v log :=
    (eff.required_pre v, log ++ [.do_required_pre_traversal tg tc v])
  do_required_traversal tg tc dc v log :=
    (eff.required v, log ++ [.do_required_traversal tg tc dc v])
  do_update_slack tg dc v log := (eff.slack v, log ++ [.do_update_slack tg dc v])

/-! ## Sample values -/

/-- The time `0.0`. -/
def time0 : Time := ⟨⟨0⟩⟩

/-- The time `-0.0` (pattern `0x80000000`). -/
def timeNeg0 : Time := ⟨⟨2147483648⟩⟩

/-- The time `1.0` (pattern `0x3F800000`). -/
def time1 : Time := ⟨⟨1065353216⟩⟩

/-- The time `2.0` (pattern `0x40000000`). -/
def time2 : Time := ⟨⟨1073741824⟩⟩

/-- The invalid time `NAN`. -/
def timeNaN : Time := ⟨F32.NAN⟩

/-- A data tag of domain 0 with arrival and required time `1.0`, launched from node 7. -/
def tagA : TimingTag :=
  { arr_time := time1, req_time := time1, clock_domain := ⟨0⟩, launch_node := ⟨7⟩, type := .DATA }

/-- A base tag of domain 0 launched from node 1. -/
def base1 : TimingTag :=
  { arr_time := time0, req_time := timeNaN, clock_domain := ⟨0⟩, launch_node := ⟨1⟩, type := .DATA }

/-- A base tag of domain 0 launched from node 2. -/
def base2 : TimingTag :=
  { arr_time := time0, req_time := timeNaN, clock_domain := ⟨0⟩, launch_node := ⟨2⟩, type := .DATA }

/-- A base tag of domain 1 launched from node 3. -/
def baseOther : TimingTag :=
  { arr_time := time0, req_time := timeNaN, clock_domain := ⟨1⟩, launch_node := ⟨3⟩, type := .DATA }

/-! ## Containers used by TimingConstraints -/

/-- The conversion `StrongId::operator bool` on a node id: true iff it is not the sentinel. -/
def NodeId.toBool (n : NodeId) : Bool := n != NodeId.INVALID

/-- The conversion `StrongId::operator bool` on a domain id: true iff it is not the sentinel. -/
def DomainId.toBool (d : DomainId) : Bool := d != DomainId.INVALID

/-- Modelled from the spec: the constructor call `DomainId(n)` on a `size_t`; the id is stored in
an `unsigned char`, so the value is narrowed modulo 256. -/
def DomainId.ofSize (n : Nat) : DomainId := ⟨n % 256⟩

/-- The comparison of two domain ids by their values (`operator<` of `StrongId`). -/
def DomainId.lt (a b : DomainId) : Bool := decide (a.id < b.id)

/-- The comparison of two node ids by their values (`operator<` of `StrongId`). -/
def NodeId.lt (a b : NodeId) : Bool := decide (a.id < b.id)

/-- The key of the setup/hold constraint and uncertainty maps: an ordered pair of domains. -/
structure DomainPair where
  src_domain_id : DomainId
  sink_domain_id : DomainId
  deriving DecidableEq, Repr

/-- Modelled from the spec: `operator<` of `DomainPair` (TimingConstraints.hpp is not among the
sources), the lexicographic order on (source domain, sink domain). It only fixes the iteration
order of the maps keyed by `DomainPair`. -/
def DomainPair.lt (a b : DomainPair) : Bool :=
  a.src_domain_id.lt b.src_domain_id ||
    (a.src_domain_id == b.src_domain_id && a.sink_domain_id.lt b.sink_domain_id)

/-- The value type of the I/O constraint multimaps. -/
structure IoConstraint where
  domain : DomainId
  constraint : F32
  deriving DecidableEq, Repr

/-- A `std::map<K, V>` given by its entries in iteration order. -/
abbrev StdMap (K V : Type) := List (K × V)

namespace StdMap

/-- The lookup `std::map::find`: the value of the entry with key `k`, `none` for `end()`. -/
def find {K V : Type} [DecidableEq K] (m : StdMap K V) (k : K) : Option V :=
  (List.find? (fun p => decide (p.1 = k)) m).map Prod.snd

/-- The member `std::map::count`: 1 if an entry with key `k` exists, else 0. -/
def count {K V : Type} [DecidableEq K] (m : StdMap K V) (k : K) : Nat :=
  if (m.find k).isSome then 1 else 0

/-- Where a new entry goes: after the entries with a smaller key, before the others. -/
def place {K V : Type} (lt : K → K → Bool) (m : StdMap K V) (k : K) (v : V) : StdMap K V :=
  m.takeWhile (fun p => lt p.1 k) ++ (k, v) :: m.dropWhile (fun p => lt p.1 k)

/-- The member `std::map::insert(make_pair(k, v))`: when an entry with key `k` exists the map is
left as it is and the flag (`.second` of the returned pair) is false; otherwise the entry is
added at its place in key order and the flag is true. -/
def insert {K V : Type} [DecidableEq K] (lt : K → K → Bool) (m : StdMap K V) (k : K) (v : V) :
    StdMap K V × Bool :=
  if (m.find k).isSome then (m, false) else (place lt m k v, true)

/-- The assignment `m[k] = v`: the value of the entry with key `k` is replaced, or the entry is
added at its place in key order. -/
def assign {K V : Type} [DecidableEq K] (lt : K → K → Bool) (m : StdMap K V) (k : K) (v : V) :
    StdMap K V :=
  if (m.find k).isSome then m.map (fun p => if p.1 = k then (p.1, v) else p) else place lt m k v

end StdMap

/-- The member `std::multimap::insert(make_pair(k, v))`: the entry is added after the last entry
whose key is not greater than `k` (the upper bound of the equal range). -/
def StdMultimap.insert {K V : Type} (lt : K → K → Bool) (m : List (K × V)) (k : K) (v : V) :
    List (K × V) :=
  m.takeWhile (fun p => !lt k p.1) ++ (k, v) :: m.dropWhile (fun p => !lt k p.1)

/-! ## std::unordered_set -/

/-- The iteration order of a `std::unordered_set<NodeId>` after the insertion of a new element.
The library does not specify it (it follows from the hash function and from the bucket array,
which an insertion may rebuild): `order`, applied to the elements in the iteration order before
the insertion followed by the new element, gives the elements in the iteration order after it,
and the library guarantees only that they are the same elements (`perm`). -/
structure UnorderedSetOrder where
  order : List NodeId → List NodeId
  perm : ∀ l : List NodeId, (order l).Perm l

/-- The member `insert` of `std::unordered_set<NodeId>`, on the list of the elements in iteration
order: an element that is present leaves the set as it is, a new element is added and the
library orders the result. -/
def unordered_set_insert (layout : UnorderedSetOrder) (s : List NodeId) (x : NodeId) :
    List NodeId :=
  if x ∈ s then s else layout.order (s ++ [x])

/-- The member `erase` of `std::unordered_set<NodeId>`: the element is unlinked, and the other
elements keep their relative order. -/
def unordered_set_erase (s : List NodeId) (x : NodeId) : List NodeId :=
  s.filter (· ≠ x)

/-- An order of iteration in which a new element comes last. -/
def insertionOrder : UnorderedSetOrder :=
  { order := fun l => l
    perm := fun l => List.Perm.refl l }

/-- An order of iteration in which a new element comes first. -/
def newestFirst : UnorderedSetOrder :=
  { order := fun l => l.getLast?.toList ++ l.dropLast
    perm := fun l => by
      rcases List.eq_nil_or_concat l with h | ⟨s, x, h⟩
      · subst h
        simp
      · subst h
        simpa using (List.perm_append_singleton x s).symm }

/-! ## TimingConstraints (libtatum/tatum/TimingConstraints.cpp) -/

/-- The data members of `TimingConstraints`. The vectors indexed by domain id and the ordered
maps are lists in iteration order; the `std::unordered_set` of constant generators is the list
of its elements in iteration order, which the library decides at each insertion
(`UnorderedSetOrder`). -/
structure TimingConstraints where
  domain_ids_ : List DomainId
  domain_names_ : List String
  domain_sources_ : List NodeId
  constant_generators_ : List NodeId
  setup_constraints_ : StdMap DomainPair F32
  hold_constraints_ : StdMap DomainPair F32
  setup_clock_uncertainties_ : StdMap DomainPair F32
  hold_clock_uncertainties_ : StdMap DomainPair F32
  input_constraints_ : List (NodeId × IoConstraint)
  output_constraints_ : List (NodeId × IoConstraint)
  source_latencies_ : StdMap DomainId F32
  deriving DecidableEq, Repr

/-- How a call on a store `σ` ends: normally, with a value and the store it leaves; on a failed
`TATUM_ASSERT`, with the store as it is when the assertion fails; or on an index outside a
vector, where the behaviour is undefined. -/
inductive Outcome (σ α : Type)
  | ok (value : α) (state : σ)
  | assertion_failed (state : σ)
  | out_of_range
  deriving DecidableEq, Repr

/-- The value a call returned, if it returned. -/
def Outcome.value? {σ α : Type} : Outcome σ α → Option α
  | .ok v _ => some v
  | _ => none

/-- The store a call left, if it returned. -/
def Outcome.store? {σ α : Type} : Outcome σ α → Option σ
  | .ok _ s => some s
  | _ => none

namespace TimingConstraints

/-- A default-constructed store: no domains, no constraints. -/
def empty : TimingConstraints :=
  { domain_ids_ := [], domain_names_ := [], domain_sources_ := [], constant_generators_ := [],
    setup_constraints_ := [], hold_constraints_ := [], setup_clock_uncertainties_ := [],
    hold_clock_uncertainties_ := [], input_constraints_ := [], output_constraints_ := [],
    source_latencies_ := [] }

/-- The value `std::numeric_limits<float>::quiet_NaN()`. -/
def quiet_NaN : F32 := F32.NAN

/-- The float `0.` returned for unspecified uncertainties and latencies (pattern `0x00000000`). -/
def zero : F32 := ⟨0⟩

/-- The range `clock_domains()`. -/
def clock_domains (tc : TimingConstraints) : List DomainId := tc.domain_ids_

/-- The look-up `clock_domain_name(id)`, `domain_names_[id]`; `none` when `id` is outside the
vector. -/
def clock_domain_name (tc : TimingConstraints) (id : DomainId) : Option String :=
  tc.domain_names_[id.id]?

/-- The look-up `clock_domain_source_node(id)`, `domain_sources_[id]`; `none` when `id` is
outside the vector. -/
def clock_domain_source_node (tc : TimingConstraints) (id : DomainId) : Option NodeId :=
  tc.domain_sources_[id.id]?

/-- The query `is_virtual_clock(id)`: no source node indicates a virtual clock. -/
def is_virtual_clock (tc : TimingConstraints) (id : DomainId) : Option Bool :=
  (tc.clock_domain_source_node id).map (fun n => !n.toBool)

/-- The loop of `find_clock_domain` over the remaining domain ids. -/
def find_clock_domain_loop (tc : TimingConstraints) (name : String) :
    List DomainId → Option DomainId
  | [] => some DomainId.INVALID
  | id :: ids =>
    match tc.clock_domain_name id with
    | none => none
    | some n => if n = name then some id else find_clock_domain_loop tc name ids

/-- The linear search `find_clock_domain(name)`; `none` when a name look-up leaves the vector. -/
def find_clock_domain (tc : TimingConstraints) (name : String) : Option DomainId :=
  find_clock_domain_loop tc name tc.clock_domains

/-- The query `should_analyze(src_domain, sink_domain)`. -/
def should_analyze (tc : TimingConstraints) (src_domain sink_domain : DomainId) : Bool :=
  tc.setup_constraints_.count ⟨src_domain, sink_domain⟩ != 0 ||
    tc.hold_constraints_.count ⟨src_domain, sink_domain⟩ != 0

/-- The look-up `hold_constraint(src_domain, sink_domain)`. -/
def hold_constraint (tc : TimingConstraints) (src_domain sink_domain : DomainId) : F32 :=
  match tc.hold_constraints_.find ⟨src_domain, sink_domain⟩ with
  | none => quiet_NaN
  | some v => v

/-- The look-up `setup_constraint(src_domain, sink_domain)`. -/
def setup_constraint (tc : TimingConstraints) (src_domain sink_domain : DomainId) : F32 :=
  match tc.setup_constraints_.find ⟨src_domain, sink_domain⟩ with
  | none => quiet_NaN
  | some v => v

/-- The look-up `setup_clock_uncertainty(src_domain, sink_domain)`. -/
def setup_clock_uncertainty (tc : TimingConstraints) (src_domain sink_domain : DomainId) : F32 :=
  match tc.setup_clock_uncertainties_.find ⟨src_domain, sink_domain⟩ with
  | none => zero
  | some v => v

/-- The look-up `hold_clock_uncertainty(src_domain, sink_domain)`. -/
def hold_clock_uncertainty (tc : TimingConstraints) (src_domain sink_domain : DomainId) : F32 :=
  match tc.hold_clock_uncertainties_.find ⟨src_domain, sink_domain⟩ with
  | none => zero
  | some v => v

/-- The look-up `source_latency(domain)`. -/
def source_latency (tc : TimingConstraints) (domain : DomainId) : F32 :=
  match tc.source_latencies_.find domain with
  | none => zero
  | some v => v

/-- The search `find_io_constraint(node_id, domain_id, io_constraints)`: the position of the first
entry of the equal range of `node_id` whose domain is `domain_id`, `none` for `end()`. -/
def find_io_constraint (node_id : NodeId) (domain_id : DomainId) :
    List (NodeId × IoConstraint) → Option Nat
  | [] => none
  | p :: ps =>
    if p.1 = node_id ∧ p.2.domain = domain_id then some 0
    else (find_io_constraint node_id domain_id ps).map (· + 1)

/-- The look-up `input_constraint(node_id, domain_id)`. -/
def input_constraint (tc : TimingConstraints) (node_id : NodeId) (domain_id : DomainId) : F32 :=
  match (find_io_constraint node_id domain_id tc.input_constraints_).bind
      (fun i => tc.input_constraints_[i]?) with
  | some p => p.2.constraint
  | none => quiet_NaN

/-- The look-up `output_constraint(node_id, domain_id)`. -/
def output_constraint (tc : TimingConstraints) (node_id : NodeId) (domain_id : DomainId) : F32 :=
  match (find_io_constraint node_id domain_id tc.output_constraints_).bind
      (fun i => tc.output_constraints_[i]?) with
  | some p => p.2.constraint
  | none => quiet_NaN

/-- The mutator `create_clock_domain(name)`: the id found for `name`, or a new domain with the
id `DomainId(domain_ids_.size())`, no source node, and the two assertions checked on the store
after the three vectors have grown. -/
def create_clock_domain (tc : TimingConstraints) (name : String) : Outcome TimingConstraints DomainId :=
  match tc.find_clock_domain name with
  | none => .out_of_range
  | some found =>
    if !found.toBool then
      let id := DomainId.ofSize tc.domain_ids_.length
      let tc1 : TimingConstraints :=
        { tc with
          domain_ids_ := tc.domain_ids_ ++ [id]
          domain_names_ := tc.domain_names_ ++ [name]
          domain_sources_ := tc.domain_sources_ ++ [NodeId.INVALID] }
      match tc1.clock_domain_name id with
      | none => .out_of_range
      | some n =>
        if n = name then
          match tc1.find_clock_domain name with
          | none => .out_of_range
          | some id2 => if id2 = id then .ok id tc1 else .assertion_failed tc1
        else .assertion_failed tc1
    else .ok found tc

/-- The mutator `set_setup_constraint(src_domain, sink_domain, constraint)`: the map insertion,
then the assertion on the insertion flag. -/
def set_setup_constraint (tc : TimingConstraints) (src_domain sink_domain : DomainId)
    (constraint : F32) : Outcome TimingConstraints Unit :=
  let key : DomainPair := ⟨src_domain, sink_domain⟩
  let iter := tc.setup_constraints_.insert DomainPair.lt key constraint
  let tc1 := { tc with setup_constraints_ := iter.1 }
  if iter.2 then .ok () tc1 else .assertion_failed tc1

/-- The mutator `set_hold_constraint(src_domain, sink_domain, constraint)`. -/
def set_hold_constraint (tc : TimingConstraints) (src_domain sink_domain : DomainId)
    (constraint : F32) : Outcome TimingConstraints Unit :=
  let key : DomainPair := ⟨src_domain, sink_domain⟩
  let iter := tc.hold_constraints_.insert DomainPair.lt key constraint
  let tc1 := { tc with hold_constraints_ := iter.1 }
  if iter.2 then .ok () tc1 else .assertion_failed tc1

/-- The mutator `set_setup_clock_uncertainty(src_domain, sink_domain, uncertainty)`. -/
def set_setup_clock_uncertainty (tc : TimingConstraints) (src_domain sink_domain : DomainId)
    (uncertainty : F32) : Outcome TimingConstraints Unit :=
  let key : DomainPair := ⟨src_domain, sink_domain⟩
  let iter := tc.setup_clock_uncertainties_.insert DomainPair.lt key uncertainty
  let tc1 := { tc with setup_clock_uncertainties_ := iter.1 }
  if iter.2 then .ok () tc1 else .assertion_failed tc1

/-- The mutator `set_hold_clock_uncertainty(src_domain, sink_domain, uncertainty)`. -/
def set_hold_clock_uncertainty (tc : TimingConstraints) (src_domain sink_domain : DomainId)
    (uncertainty : F32) : Outcome TimingConstraints Unit :=
  let key : DomainPair := ⟨src_domain, sink_domain⟩
  let iter := tc.hold_clock_uncertainties_.insert DomainPair.lt key uncertainty
  let tc1 := { tc with hold_clock_uncertainties_ := iter.1 }
  if iter.2 then .ok () tc1 else .assertion_failed tc1

/-- The body shared by `set_input_constraint` and `set_output_constraint`, on the multimap
concerned: the constraint of the entry found is overwritten, or a new entry is inserted. -/
def set_io_constraint (node_id : NodeId) (domain_id : DomainId) (constraint : F32)
    (io_constraints : List (NodeId × IoConstraint)) : List (NodeId × IoConstraint) :=
  match find_io_constraint node_id domain_id io_constraints with
  | some i => io_constraints.modify (fun p => (p.1, { p.2 with constraint := constraint })) i
  | none => StdMultimap.insert NodeId.lt io_constraints node_id ⟨domain_id, constraint⟩

/-- The mutator `set_input_constraint(node_id, domain_id, constraint)`. -/
def set_input_constraint (tc : TimingConstraints) (node_id : NodeId) (domain_id : DomainId)
    (constraint : F32) : TimingConstraints :=
  { tc with
    input_constraints_ := set_io_constraint node_id domain_id constraint tc.input_constraints_ }

/-- The mutator `set_output_constraint(node_id, domain_id, constraint)`. -/
def set_output_constraint (tc : TimingConstraints) (node_id : NodeId) (domain_id : DomainId)
    (constraint : F32) : TimingConstraints :=
  { tc with
    output_constraints_ := set_io_constraint node_id domain_id constraint tc.output_constraints_ }

/-- The mutator `set_source_latency(domain, latency)`: `source_latencies_[domain] = latency`. -/
def set_source_latency (tc : TimingConstraints) (domain : DomainId) (latency : F32) :
    TimingConstraints :=
  { tc with source_latencies_ := tc.source_latencies_.assign DomainId.lt domain latency }

/-- The mutator `set_clock_domain_source(node_id, domain_id)`:
`domain_sources_[domain_id] = node_id`, undefined when `domain_id` is outside the vector. -/
def set_clock_domain_source (tc : TimingConstraints) (node_id : NodeId) (domain_id : DomainId) :
    Outcome TimingConstraints Unit :=
  if domain_id.id < tc.domain_sources_.length then
    .ok () { tc with domain_sources_ := tc.domain_sources_.set domain_id.id node_id }
  else .out_of_range

/-- The mutator `set_constant_generator(node_id, is_constant_generator)`: set insertion or
erasure; `layout` is the order of iteration the library gives the set at an insertion. -/
def set_constant_generator (tc : TimingConstraints) (node_id : NodeId)
    (is_constant_generator : Bool) (layout : UnorderedSetOrder) : TimingConstraints :=
  if is_constant_generator then
    { tc with
      constant_generators_ := unordered_set_insert layout tc.constant_generators_ node_id }
  else { tc with constant_generators_ := unordered_set_erase tc.constant_generators_ node_id }

/-- The query `node_is_constant_generator(id)`. -/
def node_is_constant_generator (tc : TimingConstraints) (id : NodeId) : Bool :=
  decide (id ∈ tc.constant_generators_)

/-- The domain vectors are consistent: the i-th domain has id `i`, and there is one name and one
source entry per domain. -/
def WF (tc : TimingConstraints) : Prop :=
  tc.domain_ids_ = (List.range tc.domain_ids_.length).map DomainId.mk ∧
  tc.domain_names_.length = tc.domain_ids_.length ∧
  tc.domain_sources_.length = tc.domain_ids_.length

end TimingConstraints

/-! ## The legacy TimingConstraints (libtatum/constraints/TimingConstraints.cpp) -/

namespace Legacy

/-- One item written to `std::cout` with `<<`. -/
inductive CoutItem
  | text (s : String)
  | domain (d : DomainId)
  | number (x : F32)
  | endl
  deriving DecidableEq, Repr

/-- The data members of the legacy `TimingConstraints`, which has no clock uncertainties and no
source latencies. -/
structure TimingConstraints where
  domain_ids_ : List DomainId
  domain_names_ : List String
  domain_sources_ : List NodeId
  constant_generators_ : List NodeId
  setup_constraints_ : StdMap DomainPair F32
  hold_constraints_ : StdMap DomainPair F32
  input_constraints_ : List (NodeId × IoConstraint)
  output_constraints_ : List (NodeId × IoConstraint)
  deriving DecidableEq, Repr

/-- The legacy `set_setup_constraint`: a line on `std::cout`, the map insertion, then the
assertion on the insertion flag. The state is the store and what has been written to
`std::cout`. -/
def TimingConstraints.set_setup_constraint (tc : TimingConstraints) (cout : List CoutItem)
    (src_domain sink_domain : DomainId) (constraint : F32) :
    Outcome (TimingConstraints × List CoutItem) Unit :=
  let cout1 := cout ++ [.text "SRC: ", .domain src_domain, .text " SINK: ", .domain sink_domain,
    .text " Constraint: ", .number constraint, .endl]
  let key : DomainPair := ⟨src_domain, sink_domain⟩
  let iter := tc.setup_constraints_.insert DomainPair.lt key constraint
  let tc1 := { tc with setup_constraints_ := iter.1 }
  if iter.2 then .ok () (tc1, cout1) else .assertion_failed (tc1, cout1)

/-- The legacy `set_hold_constraint`. -/
def TimingConstraints.set_hold_constraint (tc : TimingConstraints) (cout : List CoutItem)
    (src_domain sink_domain : DomainId) (constraint : F32) :
    Outcome (TimingConstraints × List CoutItem) Unit :=
  let cout1 := cout ++ [.text "SRC: ", .domain src_domain, .text " SINK: ", .domain sink_domain,
    .text " Constraint: ", .number constraint, .endl]
  let key : DomainPair := ⟨src_domain, sink_domain⟩
  let iter := tc.hold_constraints_.insert DomainPair.lt key constraint
  let tc1 := { tc with hold_constraints_ := iter.1 }
  if iter.2 then .ok () (tc1, cout1) else .assertion_failed (tc1, cout1)

end Legacy

/-! ## Sample constraint stores -/

/-- The store after `set_setup_constraint(0, 1, 1.0)` on an empty store. -/
def tcSetup01 : TimingConstraints :=
  { TimingConstraints.empty with setup_constraints_ := [(⟨⟨0⟩, ⟨1⟩⟩, time1.value)] }

/-- The store after `set_hold_constraint(0, 1, 1.0)` on an empty store. -/
def tcHold01 : TimingConstraints :=
  { TimingConstraints.empty with hold_constraints_ := [(⟨⟨0⟩, ⟨1⟩⟩, time1.value)] }

/-- The legacy store holding the setup and the hold constraint `1.0` for the pair (0, 1). -/
def legacySetupHold01 : Legacy.TimingConstraints :=
  { domain_ids_ := [], domain_names_ := [], domain_sources_ := [], constant_generators_ := [],
    setup_constraints_ := [(⟨⟨0⟩, ⟨1⟩⟩, time1.value)],
    hold_constraints_ := [(⟨⟨0⟩, ⟨1⟩⟩, time1.value)],
    input_constraints_ := [], output_constraints_ := [] }

/-- The store after `set_input_constraint(node 3, domain 5, 1.0)` and
`set_output_constraint(node 4, domain 5, 1.0)` on an empty store: domain 5 was never created. -/
def tcIo : TimingConstraints :=
  { TimingConstraints.empty with
    input_constraints_ := [(⟨3⟩, ⟨⟨5⟩, time1.value⟩)]
    output_constraints_ := [(⟨4⟩, ⟨⟨5⟩, time1.value⟩)] }

/-- The name of the i-th sample domain: `i + 1` letters `c`. -/
def sampleName (i : Nat) : String := String.mk (List.replicate (i + 1) 'c')

/-- The store with the `k` domains `c`, `cc`, `ccc`, ... created in this order, none of them
with a source node. -/
def tcDomains (k : Nat) : TimingConstraints :=
  { TimingConstraints.empty with
    domain_ids_ := (List.range k).map DomainId.mk
    domain_names_ := (List.range k).map sampleName
    domain_sources_ := List.replicate k NodeId.INVALID }

/-- The store with the 255 domains of `tcDomains 255` and a domain named `x` with the id 255 at
the end. -/
def tcOverflow : TimingConstraints :=
  { tcDomains 255 with
    domain_ids_ := (tcDomains 255).domain_ids_ ++ [⟨255⟩]
    domain_names_ := (tcDomains 255).domain_names_ ++ ["x"]
    domain_sources_ := (tcDomains 255).domain_sources_ ++ [NodeId.INVALID] }

/-! ## SetupHoldAnalysis (libtatum/graph_visitors/SetupHoldAnalysis.hpp) -/

/-- Modelled from the spec: `EdgeId` is `StrongId<edge_id_tag>` (tatum_strong_id.hpp is not among
the sources), a typed index over `int`; the sentinel `INVALID()` is `-1`. -/
structure EdgeId where
  id : Int
  deriving DecidableEq, Repr

/-- The seven hooks of an analysis visitor, as `SetupHoldAnalysis` calls them on its members
(SetupAnalysis.hpp and HoldAnalysis.hpp are not among the sources). A hook acts on the visitor's
own state `S` and on `Ω`, whatever else it can touch outside the visitor. -/
structure AnalysisVisitor (TG TC DC S Ω : Type) where
  do_reset_node : NodeId → S → Ω → S × Ω
  do_reset_edge : EdgeId → S → Ω → S × Ω
  do_arrival_pre_traverse_node : TG → TC → NodeId → S → Ω → S × Ω
  do_required_pre_traverse_node : TG → TC → NodeId → S → Ω → S × Ω
  do_arrival_traverse_node : TG → TC → DC → NodeId → S → Ω → S × Ω
  do_required_traverse_node : TG → TC → DC → NodeId → S → Ω → S × Ω
  do_slack_traverse_edge : TG → DC → EdgeId → S → Ω → S × Ω

/-- The data members of `SetupHoldAnalysis`. -/
structure SetupHoldAnalysis (S H : Type) where
  setup_visitor_ : S
  hold_visitor_ : H
  deriving DecidableEq, Repr

namespace SetupHoldAnalysis

variable {TG TC DC S H Ω : Type}

/-- The hook `SetupHoldAnalysis::do_reset_node`. -/
def do_reset_node (sv : AnalysisVisitor TG TC DC S Ω) (hv : AnalysisVisitor TG TC DC H Ω)
    (node_id : NodeId) (self : SetupHoldAnalysis S H) (w : Ω) : SetupHoldAnalysis S H × Ω :=
  let (s, w) := sv.do_reset_node node_id self.setup_visitor_ w
  let (h, w) := hv.do_reset_node node_id self.hold_visitor_ w
  (⟨s, h⟩, w)

/-- The hook `SetupHoldAnalysis::do_reset_edge`. -/
def do_reset_edge (sv : AnalysisVisitor TG TC DC S Ω) (hv : AnalysisVisitor TG TC DC H Ω)
    (edge_id : EdgeId) (self : SetupHoldAnalysis S H) (w : Ω) : SetupHoldAnalysis S H × Ω :=
  let (s, w) := sv.do_reset_edge edge_id self.setup_visitor_ w
  let (h, w) := hv.do_reset_edge edge_id self.hold_visitor_ w
  (⟨s, h⟩, w)

/-- The hook `SetupHoldAnalysis::do_arrival_pre_traverse_node`. -/
def do_arrival_pre_traverse_node (sv : AnalysisVisitor TG TC DC S Ω)
    (hv : AnalysisVisitor TG TC DC H Ω) (tg : TG) (tc : TC) (node_id : NodeId)
    (self : SetupHoldAnalysis S H) (w : Ω) : SetupHoldAnalysis S H × Ω :=
  let (s, w) := sv.do_arrival_pre_traverse_node tg tc node_id self.setup_visitor_ w
  let (h, w) := hv.do_arrival_pre_traverse_node tg tc node_id self.hold_visitor_ w
  (⟨s, h⟩, w)

/-- The hook `SetupHoldAnalysis::do_required_pre_traverse_node`. -/
def do_required_pre_traverse_node (sv : AnalysisVisitor TG TC DC S Ω)
    (hv : AnalysisVisitor TG TC DC H Ω) (tg : TG) (tc : TC) (node_id : NodeId)
    (self : SetupHoldAnalysis S H) (w : Ω) : SetupHoldAnalysis S H × Ω :=
  let (s, w) := sv.do_required_pre_traverse_node tg tc node_id self.setup_visitor_ w
  let (h, w) := hv.do_required_pre_traverse_node tg tc node_id self.hold_visitor_ w
  (⟨s, h⟩, w)

/-- The hook `SetupHoldAnalysis::do_arrival_traverse_node`. -/
def do_arrival_traverse_node (sv : AnalysisVisitor TG TC DC S Ω)
    (hv : AnalysisVisitor TG TC DC H Ω) (tg : TG) (tc : TC) (dc : DC) (node_id : NodeId)
    (self : SetupHoldAnalysis S H) (w : Ω) : SetupHoldAnalysis S H × Ω :=
  let (s, w) := sv.do_arrival_traverse_node tg tc dc node_id self.setup_visitor_ w
  let (h, w) := hv.do_arrival_traverse_node tg tc dc node_id self.hold_visitor_ w
  (⟨s, h⟩, w)

/-- The hook `SetupHoldAnalysis::do_required_traverse_node`. -/
def do_required_traverse_node (sv : AnalysisVisitor TG TC DC S Ω)
    (hv : AnalysisVisitor TG TC DC H Ω) (tg : TG) (tc : TC) (dc : DC) (node_id : NodeId)
    (self : SetupHoldAnalysis S H) (w : Ω) : SetupHoldAnalysis S H × Ω :=
  let (s, w) := sv.do_required_traverse_node tg tc dc node_id self.setup_visitor_ w
  let (h, w) := hv.do_required_traverse_node tg tc dc node_id self.hold_visitor_ w
  (⟨s, h⟩, w)

/-- The hook `SetupHoldAnalysis::do_slack_traverse_edge`. -/
def do_slack_traverse_edge (sv : AnalysisVisitor TG TC DC S Ω)
    (hv : AnalysisVisitor TG TC DC H Ω) (tg : TG) (dc : DC) (edge : EdgeId)
    (self : SetupHoldAnalysis S H) (w : Ω) : SetupHoldAnalysis S H × Ω :=
  let (s, w) := sv.do_slack_traverse_edge tg dc edge self.setup_visitor_ w
  let (h, w) := hv.do_slack_traverse_edge tg dc edge self.hold_visitor_ w
  (⟨s, h⟩, w)

end SetupHoldAnalysis

/-- Which of the two member visitors of `SetupHoldAnalysis` received a call. -/
inductive Member
  | setup_visitor_
  | hold_visitor_
  deriving DecidableEq, Repr

/-- One call of a visitor hook, with the arguments it was given. -/
inductive HookCall (TG TC DC : Type)
  | do_reset_node (node_id : NodeId)
  | do_reset_edge (edge_id : EdgeId)
  | do_arrival_pre_traverse_node (tg : TG) (tc : TC) (node_id : NodeId)
  | do_required_pre_traverse_node (tg : TG) (tc : TC) (node_id : NodeId)
  | do_arrival_traverse_node (tg : TG) (tc : TC) (dc : DC) (node_id : NodeId)
  | do_required_traverse_node (tg : TG) (tc : TC) (dc : DC) (node_id : NodeId)
  | do_slack_traverse_edge (tg : TG) (dc : DC) (edge : EdgeId)
  deriving DecidableEq, Repr

/-- An instrumented visitor for the member `m`: its state counts the calls it received, and each
hook appends the call, with the member and the arguments, to a log shared by both members. -/
def recordingVisitor {TG TC DC : Type} (m : Member) :
    AnalysisVisitor TG TC DC Nat (List (Member × HookCall TG TC DC)) where
  do_reset_node n s log := (s + 1, log ++ [(m, .do_reset_node n)])
  do_reset_edge e s log := (s + 1, log ++ [(m, .do_reset_edge e)])
  do_arrival_pre_traverse_node tg tc n s log :=
    (s + 1, log ++ [(m, .do_arrival_pre_traverse_node tg tc n)])
  do_required_pre_traverse_node tg tc n s log :=
    (s + 1, log ++ [(m, .do_required_pre_traverse_node tg tc n)])
  do_arrival_traverse_node tg tc dc n s log :=
    (s + 1, log ++ [(m, .do_arrival_traverse_node tg tc dc n)])
  do_required_traverse_node tg tc dc n s log :=
    (s + 1, log ++ [(m, .do_required_traverse_node tg tc dc n)])
  do_slack_traverse_edge tg dc e s log := (s + 1, log ++ [(m, .do_slack_traverse_edge tg dc e)])

/-- Pass effects on a visitor that is a number: the reset pass sets it to 0 whatever it was, and
every later pass adds a constant of its own. -/
def resettingEffects : PassEffects Nat where
  reset _ := 0
  arrival_pre n := n + 1
  arrival n := n + 10
  required_pre n := n + 100
  required n := n + 1000
  slack n := n + 10000

/-! ## Echo writer (libtatum/base/echo_writer.cpp) -/

/-- The conversion `size_t(id)` of a node or edge id: the `int` value converted to a 64-bit
unsigned number. -/
def to_size_t (id : Int) : Nat := (id % 18446744073709551616).toNat

namespace Echo

/-- Modelled from the spec: the tag kinds of the split-tag model that the echo writer names
(TimingTag.hpp of that model is not among the sources). -/
inductive TagType
  | DATA_ARRIVAL
  | DATA_REQUIRED
  | CLOCK_LAUNCH
  | CLOCK_CAPTURE
  | SLACK
  deriving DecidableEq, Repr

/-- Modelled from the spec: a tag of the split-tag model, the record
`(time, launch_domain, capture_domain, origin_node, kind)`, of which the echo writer reads
`time()`, `launch_clock_domain()`, `capture_clock_domain()` and `type()`. -/
structure TimingTag where
  time : Time
  launch_clock_domain : DomainId
  capture_clock_domain : DomainId
  origin_node : NodeId
  type : TagType
  deriving DecidableEq, Repr

/-- The text that `write_tags` writes for one tag whose time is not NaN: one line, ended by a
newline. `show_float` stands for the stream's formatting of a `float`. -/
def tag_line (show_float : F32 → String) (type : String) (node_id : NodeId) (tag : TimingTag) :
    String :=
  " type: " ++ type ++ " node: " ++ toString (to_size_t node_id.id) ++ " launch_domain: " ++
    (if tag.launch_clock_domain.toBool then toString tag.launch_clock_domain.id else "-1") ++
    " capture_domain: " ++
    (if tag.capture_clock_domain.toBool then toString tag.capture_clock_domain.id else "-1") ++
    " time: " ++ show_float tag.time.value ++ "\n"

/-- The text that `write_slacks` writes for one tag whose time is not NaN. -/
def slack_line (show_float : F32 → String) (type : String) (edge : EdgeId) (tag : TimingTag) :
    String :=
  " type: " ++ type ++ " edge: " ++ toString (to_size_t edge.id) ++ " launch_domain: " ++
    (if tag.launch_clock_domain.toBool then toString tag.launch_clock_domain.id else "-1") ++
    " capture_domain: " ++
    (if tag.capture_clock_domain.toBool then toString tag.capture_clock_domain.id else "-1") ++
    " slack: " ++ show_float tag.time.value ++ "\n"

/-- The function `write_tags(os, type, tags, node_id)`: `os` is the text written to the stream so
far, the result the text after the call, `none` when `TATUM_ASSERT(tag.type() != SLACK)` fails.
`show_float` stands for the stream's formatting of a `float`. -/
def write_tags (show_float : F32 → String) (os : String) (type : String) :
    List TimingTag → NodeId → Option String
  | [], _ => some os
  | tag :: tags, node_id =>
    if tag.type = TagType.SLACK then none
    else
      let time := tag.time.value
      if !time.isnan then
        let os := os ++ " type: " ++ type
        let os := os ++ " node: " ++ toString (to_size_t node_id.id)
        let os := os ++ " launch_domain: "
        let os :=
          if tag.launch_clock_domain.toBool then os ++ toString tag.launch_clock_domain.id
          else os ++ "-1"
        let os := os ++ " capture_domain: "
        let os :=
          if tag.capture_clock_domain.toBool then os ++ toString tag.capture_clock_domain.id
          else os ++ "-1"
        let os := os ++ " time: " ++ show_float time
        let os := os ++ "\n"
        write_tags show_float os type tags node_id
      else write_tags show_float os type tags node_id

/-- The function `write_slacks(os, type, tags, edge)`: as `write_tags`, with the assertion
`TATUM_ASSERT(tag.type() == SLACK)`. -/
def write_slacks (show_float : F32 → String) (os : String) (type : String) :
    List TimingTag → EdgeId → Option String
  | [], _ => some os
  | tag :: tags, edge =>
    if tag.type ≠ TagType.SLACK then none
    else
      let time := tag.time.value
      if !time.isnan then
        let os := os ++ " type: " ++ type
        let os := os ++ " edge: " ++ toString (to_size_t edge.id)
        let os := os ++ " launch_domain: "
        let os :=
          if tag.launch_clock_domain.toBool then os ++ toString tag.launch_clock_domain.id
          else os ++ "-1"
        let os := os ++ " capture_domain: "
        let os :=
          if tag.capture_clock_domain.toBool then os ++ toString tag.capture_clock_domain.id
          else os ++ "-1"
        let os := os ++ " slack: " ++ show_float time
        let os := os ++ "\n"
        write_slacks show_float os type tags edge
      else write_slacks show_float os type tags edge

end Echo

/-- A formatting of floats for the samples: the bit pattern in decimal. -/
def showBits (x : F32) : String := toString x.bits

/-- Three arrival tags: time `1.0` launched by domain 0, time NaN, time `2.0` without domains. -/
def echoTags : List Echo.TimingTag :=
  [ { time := time1, launch_clock_domain := ⟨0⟩, capture_clock_domain := DomainId.INVALID,
      origin_node := ⟨7⟩, type := .DATA_ARRIVAL },
    { time := timeNaN, launch_clock_domain := ⟨0⟩, capture_clock_domain := DomainId.INVALID,
      origin_node := ⟨7⟩, type := .DATA_ARRIVAL },
    { time := time2, launch_clock_domain := DomainId.INVALID,
      capture_clock_domain := DomainId.INVALID, origin_node := ⟨7⟩, type := .DATA_ARRIVAL } ]

/-- Two slack tags: slack `1.0` for the domain pair (0, 1), and slack NaN. -/
def echoSlacks : List Echo.TimingTag :=
  [ { time := time1, launch_clock_domain := ⟨0⟩, capture_clock_domain := ⟨1⟩,
      origin_node := ⟨7⟩, type := .SLACK },
    { time := timeNaN, launch_clock_domain := ⟨0⟩, capture_clock_domain := ⟨1⟩,
      origin_node := ⟨7⟩, type := .SLACK } ]

/-- The text of a domain field as the echo format describes it: the id in decimal for a valid
domain, `-1` for the invalid one. -/
def Echo.domain_field (d : DomainId) : String :=
  if d = DomainId.INVALID then "-1" else toString d.id

/-- Two tags with a valid time: capture domain 1 without launch domain, and launch domain 0 with
capture domain 1. -/
def echoTagsCapture : List Echo.TimingTag :=
  [ { time := time1, launch_clock_domain := DomainId.INVALID, capture_clock_domain := ⟨1⟩,
      origin_node := ⟨7⟩, type := .CLOCK_CAPTURE },
    { time := time2, launch_clock_domain := ⟨0⟩, capture_clock_domain := ⟨1⟩,
      origin_node := ⟨7⟩, type := .DATA_REQUIRED } ]

/-- Four updates of domain 0: times `1.0`, `2.0`, `2.0`, `0.0` from the launch nodes 1, 2, 3, 1.
The maximum `2.0` is first attained by the second update (launch node 2), the minimum `0.0` by
the last one. -/
def foldUpdates : List (Time × TimingTag) :=
  [(time1, base1), (time2, base2), (time2, { base2 with launch_node := ⟨3⟩ }), (time0, base1)]

/-- A data tag of domain 0 that has no times yet (both NaN), launched from node 7. -/
def tagFresh : TimingTag :=
  { arr_time := timeNaN, req_time := timeNaN, clock_domain := ⟨0⟩, launch_node := ⟨7⟩,
    type := .DATA }

/-! ## Construction of the analyzers (libtatum/analyzers) -/

/-- The data members of `FullHoldTimingAnalyzer`: the three borrowed inputs, the visitor and the
walker. -/
structure FullHoldTimingAnalyzer (TG TC DC V W : Type) where
  timing_graph_ : TG
  timing_constraints_ : TC
  delay_calculator_ : DC
  hold_visitor_ : V
  graph_walker_ : W

/-- The data members of `FullSetupHoldTimingAnalyzer`. -/
structure FullSetupHoldTimingAnalyzer (TG TC DC V W : Type) where
  timing_graph_ : TG
  timing_constraints_ : TC
  delay_calculator_ : DC
  setup_hold_visitor_ : V
  graph_walker_ : W

/-- The constructor of `FullHoldTimingAnalyzer`: the members are initialised from the arguments
(the visitor with the numbers of nodes and edges of the graph), then the body calls
`validate_timing_graph_constraints(timing_graph_, timing_constraints_)`. The validator, the
visitor's constructor, the walker's initial state and the two size queries are not among the
sources and are parameters; `Ω` is the world outside the analyzer, which the validator acts on. -/
def FullHoldTimingAnalyzer.ctor {TG TC DC V W Ω : Type}
    (validate_timing_graph_constraints : TG → TC → Ω → Ω) (HoldAnalysis : Nat → Nat → V)
    (GraphWalker_init : W) (nodes_size edges_size : TG → Nat)
    (timing_graph : TG) (timing_constraints : TC) (delay_calculator : DC) (world : Ω) :
    FullHoldTimingAnalyzer TG TC DC V W × Ω :=
  let self : FullHoldTimingAnalyzer TG TC DC V W :=
    { timing_graph_ := timing_graph
      timing_constraints_ := timing_constraints
      delay_calculator_ := delay_calculator
      hold_visitor_ := HoldAnalysis (nodes_size timing_graph) (edges_size timing_graph)
      graph_walker_ := GraphWalker_init }
  (self, validate_timing_graph_constraints self.timing_graph_ self.timing_constraints_ world)

/-- The constructor of `FullSetupHoldTimingAnalyzer`: as for `FullHoldTimingAnalyzer`, with the
visitor constructed from the number of nodes alone. -/
def FullSetupHoldTimingAnalyzer.ctor {TG TC DC V W Ω : Type}
    (validate_timing_graph_constraints : TG → TC → Ω → Ω) (SetupHoldAnalysis : Nat → V)
    (GraphWalker_init : W) (nodes_size : TG → Nat)
    (timing_graph : TG) (timing_constraints : TC) (delay_calculator : DC) (world : Ω) :
    FullSetupHoldTimingAnalyzer TG TC DC V W × Ω :=
  let self : FullSetupHoldTimingAnalyzer TG TC DC V W :=
    { timing_graph_ := timing_graph
      timing_constraints_ := timing_constraints
      delay_calculator_ := delay_calculator
      setup_hold_visitor_ := SetupHoldAnalysis (nodes_size timing_graph)
      graph_walker_ := GraphWalker_init }
  (self, validate_timing_graph_constraints self.timing_graph_ self.timing_constraints_ world)

/-- The call `update_timing()` on a `FullHoldTimingAnalyzer`: `update_timing_impl` on the
object's members. A walker pass acts on the walker's state and on the world. -/
def FullHoldTimingAnalyzer.update_timing {TG TC DC V W Ω : Type}
    (walker : GraphWalker TG TC DC V (W × Ω)) (self : FullHoldTimingAnalyzer TG TC DC V W)
    (world : Ω) : FullHoldTimingAnalyzer TG TC DC V W × Ω :=
  let r := FullHoldTimingAnalyzer.update_timing_impl walker self.timing_graph_
    self.timing_constraints_ self.delay_calculator_ self.hold_visitor_
    (self.graph_walker_, world)
  ({ self with hold_visitor_ := r.1, graph_walker_ := r.2.1 }, r.2.2)

/-- The call `update_timing()` on a `FullSetupHoldTimingAnalyzer`. -/
def FullSetupHoldTimingAnalyzer.update_timing {TG TC DC V W Ω : Type}
    (walker : GraphWalker TG TC DC V (W × Ω)) (self : FullSetupHoldTimingAnalyzer TG TC DC V W)
    (world : Ω) : FullSetupHoldTimingAnalyzer TG TC DC V W × Ω :=
  let r := FullSetupHoldTimingAnalyzer.update_timing_impl walker self.timing_graph_
    self.timing_constraints_ self.delay_calculator_ self.setup_hold_visitor_
    (self.graph_walker_, world)
  ({ self with setup_hold_visitor_ := r.1, graph_walker_ := r.2.1 }, r.2.2)

/-- A call an analyzer makes: of the validator, or of a walker pass. -/
inductive AnalyzerEvent (TG TC DC V : Type)
  | validate_timing_graph_constraints (tg : TG) (tc : TC)
  | walker (call : WalkerCall TG TC DC V)
  deriving DecidableEq, Repr

/-- Whether an event is a call of the validator. -/
def AnalyzerEvent.is_validate {TG TC DC V : Type} : AnalyzerEvent TG TC DC V → Bool
  | .validate_timing_graph_constraints .. => true
  | .walker _ => false

/-- An instrumented validator: it appends its call, with its arguments, to the log that is the
world. -/
def recordingValidate {TG TC DC V : Type} (tg : TG) (tc : TC)
    (log : List (AnalyzerEvent TG TC DC V)) : List (AnalyzerEvent TG TC DC V) :=
  log ++ [.validate_timing_graph_constraints tg tc]

/-- An instrumented walker without state of its own: each pass applies its effect to the visitor
and appends its call to the log that is the world. -/
def eventWalker {TG TC DC V : Type} (eff : PassEffects V) :
    GraphWalker TG TC DC V (Unit × List (AnalyzerEvent TG TC DC V)) where
  do_reset tg v s := (eff.reset v, (), s.2 ++ [.walker (.do_reset tg v)])
  do_arrival_pre_traversal tg tc v s :=
    (eff.arrival_pre v, (), s.2 ++ [.walker (.do_arrival_pre_traversal tg tc v)])
  do_arrival_traversal tg tc dc v s :=
    (eff.arrival v, (), s.2 ++ [.walker (.do_arrival_traversal tg tc dc v)])
  do_required_pre_traversal tg tc v s :=
    (eff.required_pre v, (), s.2 ++ [.walker (.do_required_pre_traversal tg tc v)])
  do_required_traversal tg tc dc v s :=
    (eff.required v, (), s.2 ++ [.walker (.do_required_traversal tg tc dc v)])
  do_update_slack tg dc v s :=
    (eff.slack v, (), s.2 ++ [.walker (.do_update_slack tg dc v)])

/-! ## Echo writer: graph, constraints and analysis result -/

/-- The node kinds (timing_graph_fwd.hpp). -/
inductive NodeType
  | SOURCE
  | SINK
  | IPIN
  | OPIN
  | CPIN
  deriving DecidableEq, Repr

/-- The conversion of a `size_t` to the `int` an id stores: the value modulo 2^32, read as a
signed 32-bit number. -/
def int_of_size_t (n : Nat) : Int := ((n : Int) + 2147483648) % 4294967296 - 2147483648

/-- The constructor call `NodeId(node_idx)` on a `size_t`. -/
def NodeId.ofSize (n : Nat) : NodeId := ⟨int_of_size_t n⟩

/-- The constructor call `EdgeId(edge_idx)` on a `size_t`. -/
def EdgeId.ofSize (n : Nat) : EdgeId := ⟨int_of_size_t n⟩

/-- The order of edge ids, by their values (`operator<` of `StrongId`, as `<=`). -/
def EdgeId.le (a b : EdgeId) : Prop := a.id ≤ b.id

instance : DecidableRel EdgeId.le := fun a b => inferInstanceAs (Decidable (a.id ≤ b.id))

instance : IsTotal EdgeId EdgeId.le := ⟨fun a b => Int.le_total a.id b.id⟩

instance : IsTrans EdgeId EdgeId.le := ⟨fun _ _ _ h1 h2 => Int.le_trans h1 h2⟩

instance : IsAntisymm EdgeId EdgeId.le :=
  ⟨fun a b h1 h2 => by cases a; cases b; simp only [EdgeId.mk.injEq]; exact Int.le_antisymm h1 h2⟩

/-- The call `std::sort(edges.begin(), edges.end())` on a vector of edge ids. The order is total
and equal ids are the same id, so the result is the one ascending arrangement of the elements,
whatever algorithm the library uses. -/
def sort_edges (edges : List EdgeId) : List EdgeId := edges.insertionSort EdgeId.le

/-- Modelled from the spec: the read contract of `TimingGraph` (TimingGraph.hpp is not among the
sources) as far as the echo writer uses it: the numbers of nodes and edges (`nodes().size()`,
`edges().size()`) and the per-node and per-edge queries. -/
structure TimingGraph where
  nodes_size : Nat
  edges_size : Nat
  node_type : NodeId → NodeType
  node_in_edges : NodeId → List EdgeId
  node_out_edges : NodeId → List EdgeId
  edge_src_node : EdgeId → NodeId
  edge_sink_node : EdgeId → NodeId
  edge_disabled : EdgeId → Bool

namespace Echo

/-- The function `write_timing_graph(os, tg)`: `os` is the text written to the stream so far, the
result the text after the call. `show_node_type` stands for `operator<<` of `NodeType`, which is
declared in timing_graph_fwd.hpp and defined elsewhere. -/
def write_timing_graph (show_node_type : NodeType → String) (os : String) (tg : TimingGraph) :
    String :=
  let os := os ++ "timing_graph:" ++ "\n"
  let os := (List.range tg.nodes_size).foldl (fun os node_idx =>
    let node_id := NodeId.ofSize node_idx
    let os := os ++ " node: " ++ toString (to_size_t node_id.id) ++ "\n"
    let os := os ++ "  type: " ++ show_node_type (tg.node_type node_id)
    let os := os ++ "\n"
    let os := os ++ "  in_edges: "
    let in_edges := tg.node_in_edges node_id
    let edges := sort_edges in_edges
    let os := edges.foldl (fun os edge_id => os ++ toString (to_size_t edge_id.id) ++ " ") os
    let os := os ++ "\n"
    let os := os ++ "  out_edges: "
    let out_edges := tg.node_out_edges node_id
    let edges := sort_edges out_edges
    let os := edges.foldl (fun os edge_id => os ++ toString (to_size_t edge_id.id) ++ " ") os
    let os := os ++ "\n"
    os) os
  let os := (List.range tg.edges_size).foldl (fun os edge_idx =>
    let edge_id := EdgeId.ofSize edge_idx
    let os := os ++ " edge: " ++ toString (to_size_t edge_id.id) ++ "\n"
    let os := os ++ "  src_node: " ++ toString (to_size_t (tg.edge_src_node edge_id).id) ++ "\n"
    let os := os ++ "  sink_node: " ++ toString (to_size_t (tg.edge_sink_node edge_id).id) ++ "\n"
    let os := os ++ "  disabled: "
    let os := if tg.edge_disabled edge_id then os ++ "true" else os ++ "false"
    let os := os ++ "\n"
    os) os
  os ++ "\n"

/-- The function `write_timing_constraints(os, tc)`; `none` when a look-up of a domain's name or
source leaves its vector. -/
def write_timing_constraints (show_float : F32 → String) (os : String) (tc : TimingConstraints) :
    Option String := do
  let os := os ++ "timing_constraints:\n"
  let os ← tc.clock_domains.foldlM (fun os domain_id => do
    let name ← tc.clock_domain_name domain_id
    pure (os ++ " type: CLOCK domain: " ++ toString domain_id.id ++ " name: \"" ++ name ++
      "\"\n")) os
  let os ← tc.clock_domains.foldlM (fun os domain_id => do
    let source_node_id ← tc.clock_domain_source_node domain_id
    if source_node_id.toBool then
      pure (os ++ " type: CLOCK_SOURCE node: " ++ toString (to_size_t source_node_id.id) ++
        " domain: " ++ toString domain_id.id ++ "\n")
    else pure os) os
  let os := tc.constant_generators_.foldl (fun os node_id =>
    os ++ " type: CONSTANT_GENERATOR node: " ++ toString (to_size_t node_id.id) ++ "\n") os
  let os := tc.input_constraints_.foldl (fun os kv =>
    let node_id := kv.1
    let domain_id := kv.2.domain
    let constraint := kv.2.constraint
    if !constraint.isnan then
      os ++ " type: INPUT_CONSTRAINT node: " ++ toString (to_size_t node_id.id) ++ " domain: " ++
        toString domain_id.id ++ " constraint: " ++ show_float constraint ++ "\n"
    else os) os
  let os := tc.output_constraints_.foldl (fun os kv =>
    let node_id := kv.1
    let domain_id := kv.2.domain
    let constraint := kv.2.constraint
    if !constraint.isnan then
      os ++ " type: OUTPUT_CONSTRAINT node: " ++ toString (to_size_t node_id.id) ++ " domain: " ++
        toString domain_id.id ++ " constraint: " ++ show_float constraint ++ "\n"
    else os) os
  let os := tc.setup_constraints_.foldl (fun os kv =>
    let key := kv.1
    let constraint := kv.2
    if !constraint.isnan then
      let os := os ++ " type: SETUP_CONSTRAINT"
      let os := os ++ " launch_domain: " ++ toString key.src_domain_id.id
      let os := os ++ " capture_domain: " ++ toString key.sink_domain_id.id
      let os := os ++ " constraint: " ++ show_float constraint
      os ++ "\n"
    else os) os
  let os := tc.hold_constraints_.foldl (fun os kv =>
    let key := kv.1
    let constraint := kv.2
    if !constraint.isnan then
      let os := os ++ " type: HOLD_CONSTRAINT"
      let os := os ++ " launch_domain: " ++ toString key.src_domain_id.id
      let os := os ++ " capture_domain: " ++ toString key.sink_domain_id.id
      let os := os ++ " constraint: " ++ show_float constraint
      os ++ "\n"
    else os) os
  pure (os ++ "\n")

/-- Modelled from the spec: the queries of a `SetupTimingAnalyzer` that the echo writer calls
(timing_analyzers.hpp is not among the sources). -/
structure SetupTimingAnalyzer where
  setup_tags : NodeId → TagType → List TimingTag
  setup_slacks : EdgeId → List TimingTag

/-- Modelled from the spec: the queries of a `HoldTimingAnalyzer` that the echo writer calls. -/
structure HoldTimingAnalyzer where
  hold_tags : NodeId → TagType → List TimingTag
  hold_slacks : EdgeId → List TimingTag

/-- Modelled from the spec: a `TimingAnalyzer` as the echo writer sees it, through the results of
`dynamic_pointer_cast<SetupTimingAnalyzer>` and `dynamic_pointer_cast<HoldTimingAnalyzer>`
(`none` for a null pointer). -/
structure TimingAnalyzer where
  setup_analyzer : Option SetupTimingAnalyzer
  hold_analyzer : Option HoldTimingAnalyzer

/-- One loop of `write_analysis_result` over the nodes: `write_tags` on the tags of the given
kind at each node, for node indices from 0 up. -/
def write_node_tags (show_float : F32 → String) (type : String)
    (tags : NodeId → TagType → List TimingTag) (kind : TagType) (nodes_size : Nat) (os : String) :
    Option String :=
  (List.range nodes_size).foldlM (fun os node_idx =>
    let node_id := NodeId.ofSize node_idx
    write_tags show_float os type (tags node_id kind) node_id) os

/-- One loop of `write_analysis_result` over the edges: `write_slacks` on the slacks of each
edge, for edge indices from 0 up. -/
def write_edge_slacks (show_float : F32 → String) (type : String)
    (slacks : EdgeId → List TimingTag) (edges_size : Nat) (os : String) : Option String :=
  (List.range edges_size).foldlM (fun os edge_idx =>
    let edge_id := EdgeId.ofSize edge_idx
    write_slacks show_float os type (slacks edge_id) edge_id) os

/-- The function `write_analysis_result(os, tg, analyzer)`; `none` when an assertion of
`write_tags` or `write_slacks` fails. -/
def write_analysis_result (show_float : F32 → String) (os : String) (tg : TimingGraph)
    (analyzer : TimingAnalyzer) : Option String := do
  let os := os ++ "analysis_result:\n"
  let os ← match analyzer.setup_analyzer with
    | some setup_analyzer => do
      let os ← write_node_tags show_float "SETUP_DATA_ARRIVAL" setup_analyzer.setup_tags
        .DATA_ARRIVAL tg.nodes_size os
      let os ← write_node_tags show_float "SETUP_DATA_REQUIRED" setup_analyzer.setup_tags
        .DATA_REQUIRED tg.nodes_size os
      let os ← write_node_tags show_float "SETUP_LAUNCH_CLOCK" setup_analyzer.setup_tags
        .CLOCK_LAUNCH tg.nodes_size os
      let os ← write_node_tags show_float "SETUP_CAPTURE_CLOCK" setup_analyzer.setup_tags
        .CLOCK_CAPTURE tg.nodes_size os
      write_edge_slacks show_float "SETUP_SLACK" setup_analyzer.setup_slacks tg.edges_size os
    | none => pure os
  let os ← match analyzer.hold_analyzer with
    | some hold_analyzer => do
      let os ← write_node_tags show_float "HOLD_DATA_ARRIVAL" hold_analyzer.hold_tags
        .DATA_ARRIVAL tg.nodes_size os
      let os ← write_node_tags show_float "HOLD_DATA_REQUIRED" hold_analyzer.hold_tags
        .DATA_REQUIRED tg.nodes_size os
      let os ← write_node_tags show_float "HOLD_LAUNCH_CLOCK" hold_analyzer.hold_tags
        .CLOCK_LAUNCH tg.nodes_size os
      let os ← write_node_tags show_float "HOLD_CAPTURE_CLOCK" hold_analyzer.hold_tags
        .CLOCK_CAPTURE tg.nodes_size os
      write_edge_slacks show_float "HOLD_SLACK" hold_analyzer.hold_slacks tg.edges_size os
    | none => pure os
  pure (os ++ "\n")

end Echo

namespace Echo

/-- The text of a list of edge ids in a node block: each id in decimal, followed by a blank. -/
def edge_ids_text (edges : List EdgeId) : String :=
  String.join (edges.map (fun e => toString (to_size_t e.id) ++ " "))

/-- The block of the node `node_id`, printed under the number `n`: its number, its type, its
in-edges in ascending order and its out-edges in ascending order. -/
def node_block (show_node_type : NodeType → String) (tg : TimingGraph) (n : Nat)
    (node_id : NodeId) : String :=
  " node: " ++ toString n ++ "\n" ++
  "  type: " ++ show_node_type (tg.node_type node_id) ++ "\n" ++
  "  in_edges: " ++ edge_ids_text (sort_edges (tg.node_in_edges node_id)) ++ "\n" ++
  "  out_edges: " ++ edge_ids_text (sort_edges (tg.node_out_edges node_id)) ++ "\n"

/-- The block of the edge `edge_id`, printed under the number `n`: its number, its source node,
its sink node and whether it is disabled. -/
def edge_block (tg : TimingGraph) (n : Nat) (edge_id : EdgeId) : String :=
  " edge: " ++ toString n ++ "\n" ++
  "  src_node: " ++ toString (to_size_t (tg.edge_src_node edge_id).id) ++ "\n" ++
  "  sink_node: " ++ toString (to_size_t (tg.edge_sink_node edge_id).id) ++ "\n" ++
  "  disabled: " ++ (if tg.edge_disabled edge_id then "true" else "false") ++ "\n"

end Echo

/-- A sample node-type formatting: the name of the kind. -/
def showNodeType : NodeType → String
  | .SOURCE => "SOURCE"
  | .SINK => "SINK"
  | .IPIN => "IPIN"
  | .OPIN => "OPIN"
  | .CPIN => "CPIN"

/-- A graph with the two nodes 0 (a source) and 1 (a sink) and the three parallel edges 0, 1, 2
from node 0 to node 1, edge 1 disabled; the edge lists are stored in the orders 2, 0, 1 (out) and
1, 2, 0 (in). -/
def echoGraph : TimingGraph :=
  { nodes_size := 2
    edges_size := 3
    node_type := fun n => if n.id = 0 then .SOURCE else .SINK
    node_in_edges := fun n => if n.id = 1 then [⟨1⟩, ⟨2⟩, ⟨0⟩] else []
    node_out_edges := fun n => if n.id = 0 then [⟨2⟩, ⟨0⟩, ⟨1⟩] else []
    edge_src_node := fun _ => ⟨0⟩
    edge_sink_node := fun _ => ⟨1⟩
    edge_disabled := fun e => decide (e.id = 1) }

/-- The graph `echoGraph` with its edge lists stored in ascending order. -/
def echoGraphSorted : TimingGraph :=
  { echoGraph with
    node_in_edges := fun n => if n.id = 1 then [⟨0⟩, ⟨1⟩, ⟨2⟩] else []
    node_out_edges := fun n => if n.id = 0 then [⟨0⟩, ⟨1⟩, ⟨2⟩] else [] }

/-- A store with the domains 0 (`clk`, source node 5) and 1 (`virt`, virtual), the constant
generator 9, input constraints at node 3 (`1.0` for domain 0, NaN for domain 1), an output
constraint `2.0` at node 4, the setup constraints `1.0` for (0, 0) and NaN for (0, 1), and the
hold constraint `0.0` for (1, 0). -/
def tcEcho : TimingConstraints :=
  { TimingConstraints.empty with
    domain_ids_ := [⟨0⟩, ⟨1⟩]
    domain_names_ := ["clk", "virt"]
    domain_sources_ := [⟨5⟩, NodeId.INVALID]
    constant_generators_ := [⟨9⟩]
    input_constraints_ := [(⟨3⟩, ⟨⟨0⟩, time1.value⟩), (⟨3⟩, ⟨⟨1⟩, F32.NAN⟩)]
    output_constraints_ := [(⟨4⟩, ⟨⟨0⟩, time2.value⟩)]
    setup_constraints_ := [(⟨⟨0⟩, ⟨0⟩⟩, time1.value), (⟨⟨0⟩, ⟨1⟩⟩, F32.NAN)]
    hold_constraints_ := [(⟨⟨1⟩, ⟨0⟩⟩, time0.value)] }

namespace Echo

/-- The lines of a range of tags at a node: one line (`tag_line`) for each tag whose time is not
NaN, in the range's order. -/
def tags_text (show_float : F32 → String) (type : String) (node_id : NodeId)
    (tags : List TimingTag) : String :=
  String.join ((tags.filter (fun t => !t.time.value.isnan)).map (tag_line show_float type node_id))

/-- The lines of a range of slack tags at an edge: one line (`slack_line`) for each tag whose
time is not NaN, in the range's order. -/
def slacks_text (show_float : F32 → String) (type : String) (edge : EdgeId)
    (tags : List TimingTag) : String :=
  String.join ((tags.filter (fun t => !t.time.value.isnan)).map (slack_line show_float type edge))

/-- A section over the nodes: the lines of the tags at node 0, then at node 1, and so on up to
the last node. -/
def node_section (show_float : F32 → String) (type : String) (tags : NodeId → List TimingTag)
    (nodes_size : Nat) : String :=
  String.join ((List.range nodes_size).map (fun (i : Nat) =>
    tags_text show_float type ⟨(i : Int)⟩ (tags ⟨(i : Int)⟩)))

/-- A section over the edges: the lines of the slacks at edge 0, then at edge 1, and so on up to
the last edge. -/
def edge_section (show_float : F32 → String) (type : String) (slacks : EdgeId → List TimingTag)
    (edges_size : Nat) : String :=
  String.join ((List.range edges_size).map (fun (i : Nat) =>
    slacks_text show_float type ⟨(i : Int)⟩ (slacks ⟨(i : Int)⟩)))

end Echo

/-- An arrival tag of domain 0 with the given time. -/
def echoArrival (t : Time) : Echo.TimingTag :=
  { time := t, launch_clock_domain := ⟨0⟩, capture_clock_domain := DomainId.INVALID,
    origin_node := ⟨0⟩, type := .DATA_ARRIVAL }

/-- A slack tag of the domain pair (0, 0) with the given time. -/
def echoSlack (t : Time) : Echo.TimingTag :=
  { time := t, launch_clock_domain := ⟨0⟩, capture_clock_domain := ⟨0⟩, origin_node := ⟨0⟩,
    type := .SLACK }

/-- A setup analyzer result on `echoGraph`: arrival `1.0` at node 0 and `2.0` at node 1, no other
tags, and slack `1.0` on edge 2. -/
def echoSetupAnalyzer : Echo.SetupTimingAnalyzer :=
  { setup_tags := fun n kind =>
      if kind = .DATA_ARRIVAL then
        (if n.id = 0 then [echoArrival time1] else if n.id = 1 then [echoArrival time2] else [])
      else []
    setup_slacks := fun e => if e.id = 2 then [echoSlack time1] else [] }

/-- A hold analyzer result on `echoGraph`: arrival `0.0` at node 1 and a NaN slack on edge 0. -/
def echoHoldAnalyzer : Echo.HoldTimingAnalyzer :=
  { hold_tags := fun n kind =>
      if kind = .DATA_ARRIVAL ∧ n.id = 1 then [echoArrival time0] else []
    hold_slacks := fun e => if e.id = 0 then [echoSlack timeNaN] else [] }

/-- A writer that only appends: what it leaves on a stream holding `os` is `os` followed by what
it leaves on an empty stream, and it fails on one stream iff it fails on every stream. -/
def Echo.Appends (W : String → Option String) : Prop :=
  ∀ os, W os = (W "").map (fun text => os ++ text)

/-! ## TimingConstraints::remap_nodes (libtatum/tatum/TimingConstraints.cpp) -/

namespace TimingConstraints

/-- The first loop of `remap_nodes`, over the domain sources. Modelled from the spec:
`linear_map` (tatum_linear_map.hpp is not among the sources) is a vector indexed by the value of
its key; `linear_map<DomainId,NodeId>(n)` holds `n` default-constructed (invalid) node ids, and
`node_map[id]` is the partial function `node_map`, `none` where the id is outside the map. The
result is `none` when a look-up leaves its vector. -/
def remap_domain_sources (domain_sources : List NodeId) (node_map : NodeId → Option NodeId) :
    Option (List NodeId) :=
  (List.range domain_sources.length).foldlM (fun remapped_domain_sources domain_idx => do
    let domain_id := DomainId.ofSize domain_idx
    let old_node_id ← domain_sources[domain_id.id]?
    if old_node_id.toBool then do
      let new_node_id ← node_map old_node_id
      if domain_id.id < remapped_domain_sources.length then
        pure (remapped_domain_sources.set domain_id.id new_node_id)
      else none
    else pure remapped_domain_sources) (List.replicate domain_sources.length NodeId.INVALID)

/-- The second loop of `remap_nodes`: the images of the constant generators are inserted, in
the iteration order of the set, into an empty set; `layout` is the order of iteration the
library gives the new set at an insertion. -/
def remap_constant_generators (constant_generators : List NodeId)
    (node_map : NodeId → Option NodeId) (layout : UnorderedSetOrder) : Option (List NodeId) :=
  constant_generators.foldlM (fun remapped_constant_generators node_id => do
    let new_node_id ← node_map node_id
    pure (unordered_set_insert layout remapped_constant_generators new_node_id)) []

/-- The third and fourth loop of `remap_nodes`: the entries of an I/O constraint multimap are
inserted, in its iteration order, under the images of their nodes into an empty multimap. -/
def remap_io_constraints (io_constraints : List (NodeId × IoConstraint))
    (node_map : NodeId → Option NodeId) : Option (List (NodeId × IoConstraint)) :=
  io_constraints.foldlM (fun remapped_constraints kv => do
    let new_node_id ← node_map kv.1
    pure (StdMultimap.insert NodeId.lt remapped_constraints new_node_id kv.2)) []

/-- The mutator `remap_nodes(node_map)`: the domain sources, the constant generators and the
input and output constraints are rebuilt under the images of their nodes; `none` when a look-up
leaves `node_map` or a vector; `layout` is the order of iteration the library gives the new set
of constant generators at an insertion. -/
def remap_nodes (tc : TimingConstraints) (node_map : NodeId → Option NodeId)
    (layout : UnorderedSetOrder) : Option TimingConstraints := do
  let remapped_domain_sources ← remap_domain_sources tc.domain_sources_ node_map
  let tc := { tc with domain_sources_ := remapped_domain_sources }
  let remapped_constant_generators ←
    remap_constant_generators tc.constant_generators_ node_map layout
  let tc := { tc with constant_generators_ := remapped_constant_generators }
  let remapped_input_constraints ← remap_io_constraints tc.input_constraints_ node_map
  let tc := { tc with input_constraints_ := remapped_input_constraints }
  let remapped_output_constraints ← remap_io_constraints tc.output_constraints_ node_map
  let tc := { tc with output_constraints_ := remapped_output_constraints }
  pure tc

end TimingConstraints

/-- A node map of size 10 that reverses the ids: node `i` becomes node `9 - i`. -/
def nodeMapReverse (n : NodeId) : Option NodeId :=
  if 0 ≤ n.id ∧ n.id < 10 then some ⟨9 - n.id⟩ else none

/-- A store with the domains 0 (source node 5) and 1 (virtual), the constant generator 9, the
input constraints `1.0` (domain 0) and `2.0` (domain 1) at node 3 and `0.0` (domain 0) at node 4,
the output constraint `2.0` (domain 0) at node 4, and the setup constraint `1.0` for (0, 0). -/
def tcRemap : TimingConstraints :=
  { TimingConstraints.empty with
    domain_ids_ := [⟨0⟩, ⟨1⟩]
    domain_names_ := ["clk", "virt"]
    domain_sources_ := [⟨5⟩, NodeId.INVALID]
    constant_generators_ := [⟨9⟩]
    input_constraints_ :=
      [(⟨3⟩, ⟨⟨0⟩, time1.value⟩), (⟨3⟩, ⟨⟨1⟩, time2.value⟩), (⟨4⟩, ⟨⟨0⟩, time0.value⟩)]
    output_constraints_ := [(⟨4⟩, ⟨⟨0⟩, time2.value⟩)]
    setup_constraints_ := [(⟨⟨0⟩, ⟨0⟩⟩, time1.value)] }

/-- The store `tcRemap` after `remap_nodes(nodeMapReverse)`: the source of domain 0 is node 4,
the constant generator is node 0, the input constraints are at the nodes 5 and 6, the output
constraint is at node 5. -/
def tcRemapped : TimingConstraints :=
  { tcRemap with
    domain_sources_ := [⟨4⟩, NodeId.INVALID]
    constant_generators_ := [⟨0⟩]
    input_constraints_ :=
      [(⟨5⟩, ⟨⟨0⟩, time0.value⟩), (⟨6⟩, ⟨⟨0⟩, time1.value⟩), (⟨6⟩, ⟨⟨1⟩, time2.value⟩)]
    output_constraints_ := [(⟨5⟩, ⟨⟨0⟩, time2.value⟩)] }

/-- The store `tcEcho` with a source latency for domain 1 and a setup and a hold clock
uncertainty for the pair (0, 0). -/
def tcEchoLatency : TimingConstraints :=
  { tcEcho with
    source_latencies_ := [(⟨1⟩, time1.value)]
    setup_clock_uncertainties_ := [(⟨⟨0⟩, ⟨0⟩⟩, time2.value)]
    hold_clock_uncertainties_ := [(⟨⟨0⟩, ⟨0⟩⟩, time1.value)] }

/-- A setup analyzer result that breaks the slack-kind invariant: it returns a SLACK tag as a tag
of node 0. -/
def echoSetupAnalyzerBad : Echo.SetupTimingAnalyzer :=
  { setup_tags := fun n kind =>
      if kind = .DATA_ARRIVAL ∧ n.id = 0 then [echoSlack time1] else []
    setup_slacks := fun _ => [] }

/-! ## TimingConstraints: the clock domain of a node -/

namespace TimingConstraints

/-- The loop of `find_node_source_clock_domain` over the remaining domain ids. -/
def find_node_source_clock_domain_loop (tc : TimingConstraints) (node_id : NodeId) :
    List DomainId → Option DomainId
  | [] => some DomainId.INVALID
  | domain_id :: ids =>
    match tc.clock_domain_source_node domain_id with
    | none => none
    | some source =>
      if source = node_id then some domain_id
      else find_node_source_clock_domain_loop tc node_id ids

/-- The linear search `find_node_source_clock_domain(node_id)`; `none` when a source look-up
leaves the vector. -/
def find_node_source_clock_domain (tc : TimingConstraints) (node_id : NodeId) :
    Option DomainId :=
  find_node_source_clock_domain_loop tc node_id tc.clock_domains

/-- The query `node_clock_domain(id)`: the domain the node is a source of, else the domain of
the first input constraint of the node, else that of its first output constraint, else the
invalid domain. -/
def node_clock_domain (tc : TimingConstraints) (id : NodeId) : Option DomainId := do
  let source_domain ← tc.find_node_source_clock_domain id
  if source_domain.toBool then pure source_domain
  else
    match tc.input_constraints_.find? (fun kv => decide (kv.1 = id)) with
    | some kv => pure kv.2.domain
    | none =>
      match tc.output_constraints_.find? (fun kv => decide (kv.1 = id)) with
      | some kv => pure kv.2.domain
      | none => pure DomainId.INVALID

/-- The query `node_is_clock_source(id)`. -/
def node_is_clock_source (tc : TimingConstraints) (id : NodeId) : Option Bool :=
  (tc.find_node_source_clock_domain id).map DomainId.toBool

end TimingConstraints

/-- One hook call on a visitor: the hook named by the call, with the call's arguments. -/
def AnalysisVisitor.call {TG TC DC S Ω : Type} (v : AnalysisVisitor TG TC DC S Ω) :
    HookCall TG TC DC → S → Ω → S × Ω
  | .do_reset_node node_id => v.do_reset_node node_id
  | .do_reset_edge edge_id => v.do_reset_edge edge_id
  | .do_arrival_pre_traverse_node tg tc node_id => v.do_arrival_pre_traverse_node tg tc node_id
  | .do_required_pre_traverse_node tg tc node_id => v.do_required_pre_traverse_node tg tc node_id
  | .do_arrival_traverse_node tg tc dc node_id => v.do_arrival_traverse_node tg tc dc node_id
  | .do_required_traverse_node tg tc dc node_id => v.do_required_traverse_node tg tc dc node_id
  | .do_slack_traverse_edge tg dc edge => v.do_slack_traverse_edge tg dc edge

/-- A sequence of hook calls on a stand-alone visitor, from the first call on. -/
def AnalysisVisitor.run {TG TC DC S Ω : Type} (v : AnalysisVisitor TG TC DC S Ω)
    (calls : List (HookCall TG TC DC)) (s : S) (w : Ω) : S × Ω :=
  calls.foldl (fun p c => v.call c p.1 p.2) (s, w)

namespace SetupHoldAnalysis

variable {TG TC DC S H Ω R : Type}

/-- One hook call on a `SetupHoldAnalysis`: the hook of `SetupHoldAnalysis` named by the call. -/
def call (sv : AnalysisVisitor TG TC DC S Ω) (hv : AnalysisVisitor TG TC DC H Ω) :
    HookCall TG TC DC → SetupHoldAnalysis S H → Ω → SetupHoldAnalysis S H × Ω
  | .do_reset_node node_id => do_reset_node sv hv node_id
  | .do_reset_edge edge_id => do_reset_edge sv hv edge_id
  | .do_arrival_pre_traverse_node tg tc node_id => do_arrival_pre_traverse_node sv hv tg tc node_id
  | .do_required_pre_traverse_node tg tc node_id =>
    do_required_pre_traverse_node sv hv tg tc node_id
  | .do_arrival_traverse_node tg tc dc node_id => do_arrival_traverse_node sv hv tg tc dc node_id
  | .do_required_traverse_node tg tc dc node_id =>
    do_required_traverse_node sv hv tg tc dc node_id
  | .do_slack_traverse_edge tg dc edge => do_slack_traverse_edge sv hv tg dc edge

/-- A sequence of hook calls on a `SetupHoldAnalysis`, from the first call on. -/
def run (sv : AnalysisVisitor TG TC DC S Ω) (hv : AnalysisVisitor TG TC DC H Ω)
    (calls : List (HookCall TG TC DC)) (self : SetupHoldAnalysis S H) (w : Ω) :
    SetupHoldAnalysis S H × Ω :=
  calls.foldl (fun p c => call sv hv c p.1 p.2) (self, w)

/-- The accessor `setup_tags(node_id)`: that of the setup visitor, which is the parameter. -/
def setup_tags (member_setup_tags : S → NodeId → R) (self : SetupHoldAnalysis S H)
    (node_id : NodeId) : R :=
  member_setup_tags self.setup_visitor_ node_id

/-- The accessor `setup_tags(node_id, type)`. -/
def setup_tags_of_type (member_setup_tags : S → NodeId → Echo.TagType → R)
    (self : SetupHoldAnalysis S H) (node_id : NodeId) (type : Echo.TagType) : R :=
  member_setup_tags self.setup_visitor_ node_id type

/-- The accessor `setup_slacks(edge_id)`. -/
def setup_slacks (member_setup_slacks : S → EdgeId → R) (self : SetupHoldAnalysis S H)
    (edge_id : EdgeId) : R :=
  member_setup_slacks self.setup_visitor_ edge_id

/-- The accessor `hold_tags(node_id)`: that of the hold visitor, which is the parameter. -/
def hold_tags (member_hold_tags : H → NodeId → R) (self : SetupHoldAnalysis S H)
    (node_id : NodeId) : R :=
  member_hold_tags self.hold_visitor_ node_id

/-- The accessor `hold_tags(node_id, type)`. -/
def hold_tags_of_type (member_hold_tags : H → NodeId → Echo.TagType → R)
    (self : SetupHoldAnalysis S H) (node_id : NodeId) (type : Echo.TagType) : R :=
  member_hold_tags self.hold_visitor_ node_id type

/-- The accessor `hold_slacks(edge_id)`. -/
def hold_slacks (member_hold_slacks : H → EdgeId → R) (self : SetupHoldAnalysis S H)
    (edge_id : EdgeId) : R :=
  member_hold_slacks self.hold_visitor_ edge_id

end SetupHoldAnalysis

/-- A visitor whose state is the list of the calls it received, and which also counts in the
outside state the calls made on any visitor: its own state does not depend on the outside
state, which it shares with the other member. -/
def listingVisitor {TG TC DC : Type} :
    AnalysisVisitor TG TC DC (List (HookCall TG TC DC)) Nat where
  do_reset_node n s w := (s ++ [.do_reset_node n], w + 1)
  do_reset_edge e s w := (s ++ [.do_reset_edge e], w + 1)
  do_arrival_pre_traverse_node tg tc n s w := (s ++ [.do_arrival_pre_traverse_node tg tc n], w + 1)
  do_required_pre_traverse_node tg tc n s w :=
    (s ++ [.do_required_pre_traverse_node tg tc n], w + 1)
  do_arrival_traverse_node tg tc dc n s w := (s ++ [.do_arrival_traverse_node tg tc dc n], w + 1)
  do_required_traverse_node tg tc dc n s w :=
    (s ++ [.do_required_traverse_node tg tc dc n], w + 1)
  do_slack_traverse_edge tg dc e s w := (s ++ [.do_slack_traverse_edge tg dc e], w + 1)

/-- A visitor that copies the outside state into its own state at every call and then changes
the outside state: what it holds depends on who else wrote to the outside state. -/
def leakingVisitor {TG TC DC : Type} : AnalysisVisitor TG TC DC Nat Nat where
  do_reset_node _ _ w := (w, w + 1)
  do_reset_edge _ _ w := (w, w + 1)
  do_arrival_pre_traverse_node _ _ _ _ w := (w, w + 1)
  do_required_pre_traverse_node _ _ _ _ w := (w, w + 1)
  do_arrival_traverse_node _ _ _ _ _ w := (w, w + 1)
  do_required_traverse_node _ _ _ _ _ w := (w, w + 1)
  do_slack_traverse_edge _ _ _ _ w := (w, w + 1)

/-! ## TimingConstraints: the states the public mutators reach -/

/-- A call of a public mutator of `TimingConstraints`, with its arguments and, where the call
inserts into the set of constant generators, with the order of iteration the library gives the
set. -/
inductive Mutator
  | create_clock_domain (name : String)
  | set_setup_constraint (src_domain sink_domain : DomainId) (constraint : F32)
  | set_hold_constraint (src_domain sink_domain : DomainId) (constraint : F32)
  | set_setup_clock_uncertainty (src_domain sink_domain : DomainId) (uncertainty : F32)
  | set_hold_clock_uncertainty (src_domain sink_domain : DomainId) (uncertainty : F32)
  | set_input_constraint (node_id : NodeId) (domain_id : DomainId) (constraint : F32)
  | set_output_constraint (node_id : NodeId) (domain_id : DomainId) (constraint : F32)
  | set_source_latency (domain : DomainId) (latency : F32)
  | set_clock_domain_source (node_id : NodeId) (domain_id : DomainId)
  | set_constant_generator (node_id : NodeId) (is_constant_generator : Bool)
    (layout : UnorderedSetOrder)
  | remap_nodes (node_map : NodeId → Option NodeId) (layout : UnorderedSetOrder)

/-- The store a mutator call leaves when it returns; `none` when it does not return (a failed
assertion, or a look-up outside a vector). -/
def TimingConstraints.apply (tc : TimingConstraints) : Mutator → Option TimingConstraints
  | .create_clock_domain name => (tc.create_clock_domain name).store?
  | .set_setup_constraint a b x => (tc.set_setup_constraint a b x).store?
  | .set_hold_constraint a b x => (tc.set_hold_constraint a b x).store?
  | .set_setup_clock_uncertainty a b x => (tc.set_setup_clock_uncertainty a b x).store?
  | .set_hold_clock_uncertainty a b x => (tc.set_hold_clock_uncertainty a b x).store?
  | .set_input_constraint n d x => some (tc.set_input_constraint n d x)
  | .set_output_constraint n d x => some (tc.set_output_constraint n d x)
  | .set_source_latency d x => some (tc.set_source_latency d x)
  | .set_clock_domain_source n d => (tc.set_clock_domain_source n d).store?
  | .set_constant_generator n b layout => some (tc.set_constant_generator n b layout)
  | .remap_nodes node_map layout => tc.remap_nodes node_map layout

/-- The condition on a mutator call under which the reachable states are considered: a node map
given to `remap_nodes` is injective. -/
def Mutator.injective : Mutator → Prop
  | .remap_nodes node_map _ => ∀ a b c, node_map a = some c → node_map b = some c → a = b
  | _ => True

/-- The stores reachable from the default-constructed store by mutator calls that return, with
injective node maps and fewer than 256 domains. -/
inductive TimingConstraints.Reachable : TimingConstraints → Prop
  | empty : TimingConstraints.Reachable TimingConstraints.empty
  | step (tc tc2 : TimingConstraints) (m : Mutator) :
    TimingConstraints.Reachable tc → m.injective → tc.apply m = some tc2 →
    tc2.domain_ids_.length < 256 → TimingConstraints.Reachable tc2

/-- The pair of node and domain an I/O constraint is stored under. -/
def io_key (kv : NodeId × IoConstraint) : NodeId × DomainId := (kv.1, kv.2.domain)

/-- The store after `create_clock_domain("c")`, `set_input_constraint(node 3, domain 0, 1.0)` and
`remap_nodes(nodeMapReverse)` on an empty store: one domain, and the input constraint at
node 6. -/
def tcReached : TimingConstraints :=
  { tcDomains 1 with input_constraints_ := [(⟨6⟩, ⟨⟨0⟩, time1.value⟩)] }

/-! ## The legacy TimingConstraints: the rest of the interface shared with the newer one -/

namespace Legacy

namespace TimingConstraints

/-- A default-constructed legacy store. -/
def empty : TimingConstraints :=
  { domain_ids_ := [], domain_names_ := [], domain_sources_ := [], constant_generators_ := [],
    setup_constraints_ := [], hold_constraints_ := [], input_constraints_ := [],
    output_constraints_ := [] }

/-- The range `clock_domains()`. -/
def clock_domains (tc : TimingConstraints) : List DomainId := tc.domain_ids_

/-- The look-up `clock_domain_name(id)`; `none` when `id` is outside the vector. -/
def clock_domain_name (tc : TimingConstraints) (id : DomainId) : Option String :=
  tc.domain_names_[id.id]?

/-- The look-up `clock_domain_source_node(id)`; `none` when `id` is outside the vector. -/
def clock_domain_source_node (tc : TimingConstraints) (id : DomainId) : Option NodeId :=
  tc.domain_sources_[id.id]?

/-- The loop of `find_node_source_clock_domain` over the remaining domain ids. -/
def find_node_source_clock_domain_loop (tc : TimingConstraints) (node_id : NodeId) :
    List DomainId → Option DomainId
  | [] => some DomainId.INVALID
  | domain_id :: ids =>
    match tc.clock_domain_source_node domain_id with
    | none => none
    | some source =>
      if source = node_id then some domain_id
      else find_node_source_clock_domain_loop tc node_id ids

/-- The linear search `find_node_source_clock_domain(node_id)`. -/
def find_node_source_clock_domain (tc : TimingConstraints) (node_id : NodeId) :
    Option DomainId :=
  find_node_source_clock_domain_loop tc node_id tc.clock_domains

/-- The query `node_clock_domain(id)`. -/
def node_clock_domain (tc : TimingConstraints) (id : NodeId) : Option DomainId := do
  let source_domain ← tc.find_node_source_clock_domain id
  if source_domain.toBool then pure source_domain
  else
    match tc.input_constraints_.find? (fun kv => decide (kv.1 = id)) with
    | some kv => pure kv.2.domain
    | none =>
      match tc.output_constraints_.find? (fun kv => decide (kv.1 = id)) with
      | some kv => pure kv.2.domain
      | none => pure DomainId.INVALID

/-- The query `node_is_clock_source(id)`. -/
def node_is_clock_source (tc : TimingConstraints) (id : NodeId) : Option Bool :=
  (tc.find_node_source_clock_domain id).map DomainId.toBool

/-- The query `node_is_constant_generator(id)`. -/
def node_is_constant_generator (tc : TimingConstraints) (id : NodeId) : Bool :=
  decide (id ∈ tc.constant_generators_)

/-- The loop of `find_clock_domain` over the remaining domain ids. -/
def find_clock_domain_loop (tc : TimingConstraints) (name : String) :
    List DomainId → Option DomainId
  | [] => some DomainId.INVALID
  | id :: ids =>
    match tc.clock_domain_name id with
    | none => none
    | some n => if n = name then some id else find_clock_domain_loop tc name ids

/-- The linear search `find_clock_domain(name)`. -/
def find_clock_domain (tc : TimingConstraints) (name : String) : Option DomainId :=
  find_clock_domain_loop tc name tc.clock_domains

/-- The query `should_analyze(src_domain, sink_domain)`. -/
def should_analyze (tc : TimingConstraints) (src_domain sink_domain : DomainId) : Bool :=
  tc.setup_constraints_.count ⟨src_domain, sink_domain⟩ != 0 ||
    tc.hold_constraints_.count ⟨src_domain, sink_domain⟩ != 0

/-- The look-up `hold_constraint(src_domain, sink_domain)`. -/
def hold_constraint (tc : TimingConstraints) (src_domain sink_domain : DomainId) : F32 :=
  match tc.hold_constraints_.find ⟨src_domain, sink_domain⟩ with
  | none => F32.NAN
  | some v => v

/-- The look-up `setup_constraint(src_domain, sink_domain)`. -/
def setup_constraint (tc : TimingConstraints) (src_domain sink_domain : DomainId) : F32 :=
  match tc.setup_constraints_.find ⟨src_domain, sink_domain⟩ with
  | none => F32.NAN
  | some v => v

/-- The search `find_io_constraint(node_id, domain_id, io_constraints)` of the legacy tree. -/
def find_io_constraint (node_id : NodeId) (domain_id : DomainId) :
    List (NodeId × IoConstraint) → Option Nat
  | [] => none
  | p :: ps =>
    if p.1 = node_id ∧ p.2.domain = domain_id then some 0
    else (find_io_constraint node_id domain_id ps).map (· + 1)

/-- The look-up `input_constraint(node_id, domain_id)`. -/
def input_constraint (tc : TimingConstraints) (node_id : NodeId) (domain_id : DomainId) : F32 :=
  match (find_io_constraint node_id domain_id tc.input_constraints_).bind
      (fun i => tc.input_constraints_[i]?) with
  | some p => p.2.constraint
  | none => F32.NAN

/-- The look-up `output_constraint(node_id, domain_id)`. -/
def output_constraint (tc : TimingConstraints) (node_id : NodeId) (domain_id : DomainId) : F32 :=
  match (find_io_constraint node_id domain_id tc.output_constraints_).bind
      (fun i => tc.output_constraints_[i]?) with
  | some p => p.2.constraint
  | none => F32.NAN

/-- The legacy mutator `create_clock_domain(name)`. -/
def create_clock_domain (tc : TimingConstraints) (name : String) :
    Outcome TimingConstraints DomainId :=
  match tc.find_clock_domain name with
  | none => .out_of_range
  | some found =>
    if !found.toBool then
      let id := DomainId.ofSize tc.domain_ids_.length
      let tc1 : TimingConstraints :=
        { tc with
          domain_ids_ := tc.domain_ids_ ++ [id]
          domain_names_ := tc.domain_names_ ++ [name]
          domain_sources_ := tc.domain_sources_ ++ [NodeId.INVALID] }
      match tc1.clock_domain_name id with
      | none => .out_of_range
      | some n =>
        if n = name then
          match tc1.find_clock_domain name with
          | none => .out_of_range
          | some id2 => if id2 = id then .ok id tc1 else .assertion_failed tc1
        else .assertion_failed tc1
    else .ok found tc

/-- The body shared by the legacy `set_input_constraint` and `set_output_constraint`. -/
def set_io_constraint (node_id : NodeId) (domain_id : DomainId) (constraint : F32)
    (io_constraints : List (NodeId × IoConstraint)) : List (NodeId × IoConstraint) :=
  match find_io_constraint node_id domain_id io_constraints with
  | some i => io_constraints.modify (fun p => (p.1, { p.2 with constraint := constraint })) i
  | none => StdMultimap.insert NodeId.lt io_constraints node_id ⟨domain_id, constraint⟩

/-- The legacy mutator `set_input_constraint(node_id, domain_id, constraint)`. -/
def set_input_constraint (tc : TimingConstraints) (node_id : NodeId) (domain_id : DomainId)
    (constraint : F32) : TimingConstraints :=
  { tc with
    input_constraints_ := set_io_constraint node_id domain_id constraint tc.input_constraints_ }

/-- The legacy mutator `set_output_constraint(node_id, domain_id, constraint)`. -/
def set_output_constraint (tc : TimingConstraints) (node_id : NodeId) (domain_id : DomainId)
    (constraint : F32) : TimingConstraints :=
  { tc with
    output_constraints_ := set_io_constraint node_id domain_id constraint tc.output_constraints_ }

/-- The legacy mutator `set_clock_domain_source(node_id, domain_id)`. -/
def set_clock_domain_source (tc : TimingConstraints) (node_id : NodeId) (domain_id : DomainId) :
    Outcome TimingConstraints Unit :=
  if domain_id.id < tc.domain_sources_.length then
    .ok () { tc with domain_sources_ := tc.domain_sources_.set domain_id.id node_id }
  else .out_of_range

/-- The legacy mutator `set_constant_generator(node_id, is_constant_generator)`; `layout` is the
order of iteration the library gives the set at an insertion. -/
def set_constant_generator (tc : TimingConstraints) (node_id : NodeId)
    (is_constant_generator : Bool) (layout : UnorderedSetOrder) : TimingConstraints :=
  if is_constant_generator then
    { tc with
      constant_generators_ := unordered_set_insert layout tc.constant_generators_ node_id }
  else { tc with constant_generators_ := unordered_set_erase tc.constant_generators_ node_id }

end TimingConstraints

end Legacy

/-- A call of a mutator that the legacy and the newer `TimingConstraints` share, with its
arguments (`remap_nodes` left out) and, for `set_constant_generator`, with the order of iteration
the library gives the set at an insertion. -/
inductive SharedMutator
  | create_clock_domain (name : String)
  | set_setup_constraint (src_domain sink_domain : DomainId) (constraint : F32)
  | set_hold_constraint (src_domain sink_domain : DomainId) (constraint : F32)
  | set_input_constraint (node_id : NodeId) (domain_id : DomainId) (constraint : F32)
  | set_output_constraint (node_id : NodeId) (domain_id : DomainId) (constraint : F32)
  | set_clock_domain_source (node_id : NodeId) (domain_id : DomainId)
  | set_constant_generator (node_id : NodeId) (is_constant_generator : Bool)
    (layout : UnorderedSetOrder)

/-- The call of the newer store that a shared call is. -/
def SharedMutator.toMutator : SharedMutator → Mutator
  | .create_clock_domain name => .create_clock_domain name
  | .set_setup_constraint a b x => .set_setup_constraint a b x
  | .set_hold_constraint a b x => .set_hold_constraint a b x
  | .set_input_constraint n d x => .set_input_constraint n d x
  | .set_output_constraint n d x => .set_output_constraint n d x
  | .set_clock_domain_source n d => .set_clock_domain_source n d
  | .set_constant_generator n b layout => .set_constant_generator n b layout

/-- The legacy store and the content of `std::cout` that a shared mutator call leaves when it
returns; `none` when it does not return. -/
def Legacy.TimingConstraints.apply (s : Legacy.TimingConstraints × List Legacy.CoutItem) :
    SharedMutator → Option (Legacy.TimingConstraints × List Legacy.CoutItem)
  | .create_clock_domain name => ((s.1.create_clock_domain name).store?).map (fun tc => (tc, s.2))
  | .set_setup_constraint a b x => (s.1.set_setup_constraint s.2 a b x).store?
  | .set_hold_constraint a b x => (s.1.set_hold_constraint s.2 a b x).store?
  | .set_input_constraint n d x => some (s.1.set_input_constraint n d x, s.2)
  | .set_output_constraint n d x => some (s.1.set_output_constraint n d x, s.2)
  | .set_clock_domain_source n d =>
    ((s.1.set_clock_domain_source n d).store?).map (fun tc => (tc, s.2))
  | .set_constant_generator n b layout => some (s.1.set_constant_generator n b layout, s.2)

/-- A legacy and a newer store hold the same data in the members they share. -/
def Legacy.TimingConstraints.Agree (l : Legacy.TimingConstraints)
    (n : Tatum.TimingConstraints) :
    Prop :=
  l.domain_ids_ = n.domain_ids_ ∧ l.domain_names_ = n.domain_names_ ∧
  l.domain_sources_ = n.domain_sources_ ∧ l.constant_generators_ = n.constant_generators_ ∧
  l.setup_constraints_ = n.setup_constraints_ ∧ l.hold_constraints_ = n.hold_constraints_ ∧
  l.input_constraints_ = n.input_constraints_ ∧ l.output_constraints_ = n.output_constraints_

/-- A sequence of shared mutator calls on a legacy store, from the first call on; `none` as soon
as a call does not return. -/
def Legacy.TimingConstraints.run (s : Legacy.TimingConstraints × List Legacy.CoutItem)
    (calls : List SharedMutator) : Option (Legacy.TimingConstraints × List Legacy.CoutItem) :=
  calls.foldlM Legacy.TimingConstraints.apply s

/-- A sequence of shared mutator calls on a newer store, from the first call on; `none` as soon
as a call does not return. -/
def TimingConstraints.run_shared (tc : TimingConstraints) (calls : List SharedMutator) :
    Option TimingConstraints :=
  calls.foldlM (fun tc m => tc.apply m.toMutator) tc

/-- A sequence of shared calls: two domains, a source for the first, a setup constraint, an
input constraint set twice, an output constraint and two constant generators, of which the
library puts the newer one first. -/
def sharedCalls : List SharedMutator :=
  [ .create_clock_domain "clk", .create_clock_domain "virt", .create_clock_domain "clk",
    .set_clock_domain_source ⟨5⟩ ⟨0⟩, .set_setup_constraint ⟨0⟩ ⟨1⟩ time1.value,
    .set_input_constraint ⟨3⟩ ⟨0⟩ time1.value, .set_input_constraint ⟨3⟩ ⟨0⟩ time2.value,
    .set_output_constraint ⟨4⟩ ⟨1⟩ time0.value,
    .set_constant_generator ⟨9⟩ true newestFirst, .set_constant_generator ⟨2⟩ true newestFirst ]

/-! ## Facts about float comparison -/

theorem F32.gt_eq_false_of_isnan_left {a b : F32} (h : a.isnan = true) : F32.gt a b = false := by
  simp [F32.gt, h]

theorem F32.lt_eq_false_of_isnan_left {a b : F32} (h : a.isnan = true) : F32.lt a b = false := by
  simp [F32.lt, h]

theorem F32.gt_eq_false_of_eq {a b : F32} (h : F32.eq a b = true) : F32.gt a b = false := by
  simp only [F32.eq, Bool.and_eq_true, decide_eq_true_eq] at h
  simp [F32.gt, h.2]

theorem F32.lt_eq_false_of_eq {a b : F32} (h : F32.eq a b = true) : F32.lt a b = false := by
  simp only [F32.eq, Bool.and_eq_true, decide_eq_true_eq] at h
  simp [F32.lt, h.2]

theorem F32.eq_self_of_not_isnan {a : F32} (h : a.isnan = false) : F32.eq a a = true := by
  simp [F32.eq, h]

/-! ## The pass sequence of `update_timing` -/

/-- C2: run on an instrumented walker (any pass effects, any graph, constraints and delay
calculator), `FullHoldTimingAnalyzer::update_timing_impl` logs exactly six calls, in the order
`do_reset`, `do_arrival_pre_traversal`, `do_arrival_traversal`, `do_required_pre_traversal`,
`do_required_traversal`, `do_update_slack`; each pass is handed the hold visitor as the previous
pass left it, and the visitor returned is the one the slack pass produced. -/
theorem FullHoldTimingAnalyzer.hold_update_timing_impl_calls {TG TC DC V : Type} (eff : PassEffects V)
    (tg : TG) (tc : TC) (dc : DC) (v : V) (log : List (WalkerCall TG TC DC V)) :
    FullHoldTimingAnalyzer.update_timing_impl (recordingWalker eff) tg tc dc v log =
      (eff.slack (eff.required (eff.required_pre (eff.arrival (eff.arrival_pre (eff.reset v))))),
       log ++
        [ WalkerCall.do_reset tg v,
          WalkerCall.do_arrival_pre_traversal tg tc (eff.reset v),
          WalkerCall.do_arrival_traversal tg tc dc (eff.arrival_pre (eff.reset v)),
          WalkerCall.do_required_pre_traversal tg tc (eff.arrival (eff.arrival_pre (eff.reset v))),
          WalkerCall.do_required_traversal tg tc dc
            (eff.required_pre (eff.arrival (eff.arrival_pre (eff.reset v)))),
          WalkerCall.do_update_slack tg dc
            (eff.required (eff.required_pre (eff.arrival (eff.arrival_pre (eff.reset v))))) ]) := by
  simp [FullHoldTimingAnalyzer.update_timing_impl, recordingWalker]

/-- C1: run on an instrumented walker (any pass effects, any graph, constraints and delay
calculator), `FullSetupHoldTimingAnalyzer::update_timing_impl` logs five calls only, the passes
`do_reset`, `do_arrival_pre_traversal`, `do_arrival_traversal`, `do_required_pre_traversal` and
`do_required_traversal`: no call of `do_update_slack` is made, and the visitor returned is the
one the required traversal produced. -/
theorem FullSetupHoldTimingAnalyzer.setup_hold_update_timing_impl_calls {TG TC DC V : Type}
    (eff : PassEffects V) (tg : TG) (tc : TC) (dc : DC) (v : V) :
    FullSetupHoldTimingAnalyzer.update_timing_impl (recordingWalker eff) tg tc dc v [] =
      (eff.required (eff.required_pre (eff.arrival (eff.arrival_pre (eff.reset v)))),
        [ WalkerCall.do_reset tg v,
          WalkerCall.do_arrival_pre_traversal tg tc (eff.reset v),
          WalkerCall.do_arrival_traversal tg tc dc (eff.arrival_pre (eff.reset v)),
          WalkerCall.do_required_pre_traversal tg tc (eff.arrival (eff.arrival_pre (eff.reset v))),
          WalkerCall.do_required_traversal tg tc dc
            (eff.required_pre (eff.arrival (eff.arrival_pre (eff.reset v)))) ]) ∧
    (FullSetupHoldTimingAnalyzer.update_timing_impl (recordingWalker eff) tg tc dc v []).2.map
        WalkerCall.pass =
      [ WalkerPass.do_reset, WalkerPass.do_arrival_pre_traversal, WalkerPass.do_arrival_traversal,
        WalkerPass.do_required_pre_traversal, WalkerPass.do_required_traversal ] := by
  simp [FullSetupHoldTimingAnalyzer.update_timing_impl, recordingWalker, WalkerCall.pass]

/-! ## The folds of `TimingTag` -/

/-- The fold `max_arr` when the domain assertion holds. -/
theorem TimingTag.max_arr_of_domain_eq {t b : TimingTag} (n : Time)
    (hd : t.clock_domain = b.clock_domain) :
    t.max_arr n b =
      some (if (!t.arr_time.valid || F32.gt n.value t.arr_time.value) = true then
        { t with arr_time := n, launch_node := b.launch_node } else t) := by
  unfold TimingTag.max_arr TimingTag.update_arr
  split <;> simp [hd]

/-- The fold `min_arr` when the domain assertion holds. -/
theorem TimingTag.min_arr_of_domain_eq {t b : TimingTag} (n : Time)
    (hd : t.clock_domain = b.clock_domain) :
    t.min_arr n b =
      some (if (!t.arr_time.valid || F32.lt n.value t.arr_time.value) = true then
        { t with arr_time := n, launch_node := b.launch_node } else t) := by
  unfold TimingTag.min_arr TimingTag.update_arr
  split <;> simp [hd]

/-- The fold `min_req` when the domain assertion holds. -/
theorem TimingTag.min_req_of_domain_eq {t b : TimingTag} (n : Time)
    (hd : t.clock_domain = b.clock_domain) :
    t.min_req n b =
      some (if (!t.req_time.valid || F32.lt n.value t.req_time.value) = true then
        { t with req_time := n } else t) := by
  unfold TimingTag.min_req TimingTag.update_req
  split <;> simp [hd]

/-- The fold `max_req` when the domain assertion holds. -/
theorem TimingTag.max_req_of_domain_eq {t b : TimingTag} (n : Time)
    (hd : t.clock_domain = b.clock_domain) :
    t.max_req n b =
      some (if (!t.req_time.valid || F32.gt n.value t.req_time.value) = true then
        { t with req_time := n } else t) := by
  unfold TimingTag.max_req TimingTag.update_req
  split <;> simp [hd]

/-- C3: on a tag `t` with a valid arrival time and a base tag `b` of the same clock domain,
`max_arr(new_time, b)` sets `arr_time` to `new_time` and `launch_node` to `b.launch_node` (leaving
the other fields) when `new_time > t.arr_time`, and otherwise returns `t` unchanged. -/
theorem TimingTag.max_arr_valid (t b : TimingTag) (new_time : Time)
    (hv : t.arr_time.valid = true) (hd : t.clock_domain = b.clock_domain) :
    (F32.gt new_time.value t.arr_time.value = true →
      t.max_arr new_time b =
        some { t with arr_time := new_time, launch_node := b.launch_node }) ∧
    (F32.gt new_time.value t.arr_time.value = false → t.max_arr new_time b = some t) := by
  rw [TimingTag.max_arr_of_domain_eq new_time hd]
  constructor <;> intro h <;> simp [hv, h]

/-- Witness for C3 at the tag `tagA` (arrival `1.0`): the new time `2.0` replaces, `0.0` does
not. -/
theorem TimingTag.max_arr_valid_witness :
    tagA.arr_time.valid = true ∧ tagA.clock_domain = base1.clock_domain ∧
    tagA.max_arr time2 base1 = some { tagA with arr_time := time2, launch_node := ⟨1⟩ } ∧
    tagA.max_arr time0 base1 = some tagA :=
  ⟨by decide, by decide,
   (TimingTag.max_arr_valid tagA base1 time2 (by decide) (by decide)).1 (by decide),
   (TimingTag.max_arr_valid tagA base1 time0 (by decide) (by decide)).2 (by decide)⟩

/-- C4: on a tag `t` and a base tag `b` of the same clock domain: when `t.arr_time` is valid,
`min_arr` sets the arrival time and the launch node if `new_time < t.arr_time` and returns `t`
unchanged otherwise; when `t.req_time` is valid, `min_req` sets the required time (only) if
`new_time < t.req_time` and `max_req` sets it if `new_time > t.req_time`, each returning `t`
unchanged otherwise. -/
theorem TimingTag.min_arr_min_req_max_req_valid (t b : TimingTag) (new_time : Time)
    (hd : t.clock_domain = b.clock_domain) :
    (t.arr_time.valid = true →
      t.min_arr new_time b =
        some (if F32.lt new_time.value t.arr_time.value = true then
          { t with arr_time := new_time, launch_node := b.launch_node } else t)) ∧
    (t.req_time.valid = true →
      t.min_req new_time b =
        some (if F32.lt new_time.value t.req_time.value = true then
          { t with req_time := new_time } else t)) ∧
    (t.req_time.valid = true →
      t.max_req new_time b =
        some (if F32.gt new_time.value t.req_time.value = true then
          { t with req_time := new_time } else t)) := by
  rw [TimingTag.min_arr_of_domain_eq new_time hd, TimingTag.min_req_of_domain_eq new_time hd,
    TimingTag.max_req_of_domain_eq new_time hd]
  refine ⟨?_, ?_, ?_⟩ <;> intro hv <;> simp [hv]

/-- Witness for C4 at the tag `tagA` (arrival and required time `1.0`): `0.0` wins the two `min`
folds and loses `max_req`; `2.0` loses the two `min` folds and wins `max_req`. -/
theorem TimingTag.min_arr_min_req_max_req_valid_witness :
    tagA.clock_domain = base1.clock_domain ∧
    tagA.arr_time.valid = true ∧ tagA.req_time.valid = true ∧
    tagA.min_arr time0 base1 = some { tagA with arr_time := time0, launch_node := ⟨1⟩ } ∧
    tagA.min_req time0 base1 = some { tagA with req_time := time0 } ∧
    tagA.max_req time0 base1 = some tagA ∧
    tagA.min_arr time2 base1 = some tagA ∧
    tagA.min_req time2 base1 = some tagA ∧
    tagA.max_req time2 base1 = some { tagA with req_time := time2 } :=
  ⟨by decide, by decide, by decide,
   (TimingTag.min_arr_min_req_max_req_valid tagA base1 time0 (by decide)).1 (by decide),
   (TimingTag.min_arr_min_req_max_req_valid tagA base1 time0 (by decide)).2.1 (by decide),
   (TimingTag.min_arr_min_req_max_req_valid tagA base1 time0 (by decide)).2.2 (by decide),
   (TimingTag.min_arr_min_req_max_req_valid tagA base1 time2 (by decide)).1 (by decide),
   (TimingTag.min_arr_min_req_max_req_valid tagA base1 time2 (by decide)).2.1 (by decide),
   (TimingTag.min_arr_min_req_max_req_valid tagA base1 time2 (by decide)).2.2 (by decide)⟩

/-- C5: for every tag, new time and base tag, a call of `min_req` or `max_req` that returns
leaves `arr_time`, `launch_node`, `clock_domain` and `type` as they were; the only calls that do
not return are those whose base tag has another clock domain (the domain assertion). -/
theorem TimingTag.min_req_max_req_frame (t b : TimingTag) (new_time : Time) :
    (match t.min_req new_time b with
      | some r => r.arr_time = t.arr_time ∧ r.launch_node = t.launch_node ∧
          r.clock_domain = t.clock_domain ∧ r.type = t.type
      | none => t.clock_domain ≠ b.clock_domain) ∧
    (match t.max_req new_time b with
      | some r => r.arr_time = t.arr_time ∧ r.launch_node = t.launch_node ∧
          r.clock_domain = t.clock_domain ∧ r.type = t.type
      | none => t.clock_domain ≠ b.clock_domain) := by
  unfold TimingTag.min_req TimingTag.max_req TimingTag.update_req
  constructor <;> split_ifs <;> simp_all

/-- C6: on a tag `t` with a valid arrival time, `max_arr` and `min_arr` with the existing time as
new time, and more generally with any new time that compares equal (`==`) to it, return `t`
unchanged for every base tag: the launch node is not replaced. -/
theorem TimingTag.max_arr_min_arr_tie (t b : TimingTag) (hv : t.arr_time.valid = true) :
    (t.max_arr t.arr_time b = some t ∧ t.min_arr t.arr_time b = some t) ∧
    ∀ new_time : Time, F32.eq new_time.value t.arr_time.value = true →
      t.max_arr new_time b = some t ∧ t.min_arr new_time b = some t := by
  have key : ∀ new_time : Time, F32.eq new_time.value t.arr_time.value = true →
      t.max_arr new_time b = some t ∧ t.min_arr new_time b = some t := by
    intro n hn
    unfold TimingTag.max_arr TimingTag.min_arr
    simp [hv, F32.gt_eq_false_of_eq hn, F32.lt_eq_false_of_eq hn]
  refine ⟨key t.arr_time ?_, key⟩
  apply F32.eq_self_of_not_isnan
  simpa [Time.valid] using hv

/-- Witness for C6 at the tag `tagA` (arrival `1.0`, launch node 7) and the base tag `base1`
(launch node 1); `-0.0` against an arrival of `0.0` is a tie of two different bit patterns. -/
theorem TimingTag.max_arr_min_arr_tie_witness :
    tagA.arr_time.valid = true ∧
    tagA.max_arr time1 base1 = some tagA ∧ tagA.min_arr time1 base1 = some tagA ∧
    ({ tagA with arr_time := time0 } : TimingTag).max_arr timeNeg0 base1 =
      some { tagA with arr_time := time0 } :=
  ⟨by decide,
   (TimingTag.max_arr_min_arr_tie tagA base1 (by decide)).1.1,
   (TimingTag.max_arr_min_arr_tie tagA base1 (by decide)).1.2,
   ((TimingTag.max_arr_min_arr_tie { tagA with arr_time := time0 } base1 (by decide)).2
      timeNeg0 (by decide)).1⟩

/-- C8: for every new time and base tag, a call of `max_arr` on a tag with a valid arrival time
`a` that returns leaves an arrival time `>= a`, and `min_arr` one `<= a`; on a tag with a valid
required time `r`, `min_req` leaves a required time `<= r` and `max_req` one `>= r`. A call fails
to return only when the new time would win and the base tag has another clock domain. -/
theorem TimingTag.fold_monotone (t b : TimingTag) (new_time : Time) :
    (t.arr_time.valid = true →
      (match t.max_arr new_time b with
        | some r => F32.ge r.arr_time.value t.arr_time.value = true
        | none => t.clock_domain ≠ b.clock_domain) ∧
      (match t.min_arr new_time b with
        | some r => F32.le r.arr_time.value t.arr_time.value = true
        | none => t.clock_domain ≠ b.clock_domain)) ∧
    (t.req_time.valid = true →
      (match t.min_req new_time b with
        | some r => F32.le r.req_time.value t.req_time.value = true
        | none => t.clock_domain ≠ b.clock_domain) ∧
      (match t.max_req new_time b with
        | some r => F32.ge r.req_time.value t.req_time.value = true
        | none => t.clock_domain ≠ b.clock_domain)) := by
  unfold TimingTag.max_arr TimingTag.min_arr TimingTag.min_req TimingTag.max_req
    TimingTag.update_arr TimingTag.update_req
  constructor <;> intro hv <;> constructor <;> split_ifs <;>
    simp_all [Time.valid, Time.value, F32.ge, F32.le, F32.gt, F32.lt] <;> omega

/-- Witness for C8 at the tag `tagA` (arrival and required time `1.0`) with the new time `2.0`,
which wins the two `max` folds and loses the two `min` folds. -/
theorem TimingTag.fold_monotone_witness :
    tagA.arr_time.valid = true ∧ tagA.req_time.valid = true ∧
    ((match tagA.max_arr time2 base1 with
        | some r => F32.ge r.arr_time.value tagA.arr_time.value = true
        | none => tagA.clock_domain ≠ base1.clock_domain) ∧
      (match tagA.min_arr time2 base1 with
        | some r => F32.le r.arr_time.value tagA.arr_time.value = true
        | none => tagA.clock_domain ≠ base1.clock_domain)) ∧
    ((match tagA.min_req time2 base1 with
        | some r => F32.le r.req_time.value tagA.req_time.value = true
        | none => tagA.clock_domain ≠ base1.clock_domain) ∧
      (match tagA.max_req time2 base1 with
        | some r => F32.ge r.req_time.value tagA.req_time.value = true
        | none => tagA.clock_domain ≠ base1.clock_domain)) :=
  ⟨by decide, by decide,
   (TimingTag.fold_monotone tagA base1 time2).1 (by decide),
   (TimingTag.fold_monotone tagA base1 time2).2 (by decide)⟩

/-- C9: a NaN new time never replaces a valid time: for every base tag, `max_arr` and `min_arr`
return a tag with a valid arrival time unchanged, and `min_req` and `max_req` return a tag with a
valid required time unchanged. -/
theorem TimingTag.fold_nan_new_time (t b : TimingTag) (new_time : Time)
    (hn : new_time.valid = false) :
    (t.arr_time.valid = true →
      t.max_arr new_time b = some t ∧ t.min_arr new_time b = some t) ∧
    (t.req_time.valid = true →
      t.min_req new_time b = some t ∧ t.max_req new_time b = some t) := by
  have hnan : new_time.value.isnan = true := by simpa [Time.valid, Time.value] using hn
  unfold TimingTag.max_arr TimingTag.min_arr TimingTag.min_req TimingTag.max_req
  constructor <;> intro hv <;>
    simp [hv, F32.gt_eq_false_of_isnan_left hnan, F32.lt_eq_false_of_isnan_left hnan]

/-- Witness for C9 at the tag `tagA` with the new time `NAN` and a base tag of another domain. -/
theorem TimingTag.fold_nan_new_time_witness :
    timeNaN.valid = false ∧ tagA.arr_time.valid = true ∧ tagA.req_time.valid = true ∧
    (tagA.max_arr timeNaN baseOther = some tagA ∧ tagA.min_arr timeNaN baseOther = some tagA) ∧
    (tagA.min_req timeNaN baseOther = some tagA ∧ tagA.max_req timeNaN baseOther = some tagA) :=
  ⟨by decide, by decide, by decide,
   (TimingTag.fold_nan_new_time tagA baseOther timeNaN (by decide)).1 (by decide),
   (TimingTag.fold_nan_new_time tagA baseOther timeNaN (by decide)).2 (by decide)⟩

/-- C10 does not hold as stated: a default-constructed tag has invalid times, yet a first write
into it with the base tag `base1`, whose clock domain 0 is valid, does not take. Each of the four
operations fails the domain assertion of `update_arr` / `update_req`, the tag's own clock domain
being the invalid one. -/
theorem TimingTag.fold_first_write_default_tag_aborts :
    (TimingTag.ctor .DATA).arr_time.valid = false ∧
    (TimingTag.ctor .DATA).req_time.valid = false ∧
    (TimingTag.ctor .DATA).clock_domain ≠ base1.clock_domain ∧
    (TimingTag.ctor .DATA).max_arr time1 base1 = none ∧
    (TimingTag.ctor .DATA).min_arr time1 base1 = none ∧
    (TimingTag.ctor .DATA).min_req time1 base1 = none ∧
    (TimingTag.ctor .DATA).max_req time1 base1 = none := by
  decide

/-- C10, amended: a first write takes exactly when the domains match. A default-constructed tag
has invalid times and sentinel ids. On every tag whose arrival time is invalid, `max_arr` and
`min_arr` with a base tag of the tag's clock domain take every new time (NaN included), setting
`arr_time` to it and `launch_node` to the base tag's; with a base tag of another clock domain
they fail the domain assertion of `update_arr` and write nothing. On every tag whose required
time is invalid, `min_req` and `max_req` set `req_time` to every new time under the same
condition, and fail the domain assertion of `update_req` otherwise. -/
theorem TimingTag.fold_first_write (t b : TimingTag) (new_time : Time) (ty : TagType) :
    ((TimingTag.ctor ty).arr_time.valid = false ∧ (TimingTag.ctor ty).req_time.valid = false ∧
      (TimingTag.ctor ty).clock_domain = DomainId.INVALID ∧
      (TimingTag.ctor ty).launch_node = NodeId.INVALID) ∧
    (t.arr_time.valid = false →
      t.max_arr new_time b =
        (if t.clock_domain = b.clock_domain then
          some { t with arr_time := new_time, launch_node := b.launch_node } else none) ∧
      t.min_arr new_time b =
        (if t.clock_domain = b.clock_domain then
          some { t with arr_time := new_time, launch_node := b.launch_node } else none)) ∧
    (t.req_time.valid = false →
      t.min_req new_time b =
        (if t.clock_domain = b.clock_domain then some { t with req_time := new_time } else none) ∧
      t.max_req new_time b =
        (if t.clock_domain = b.clock_domain then some { t with req_time := new_time }
          else none)) := by
  have hnan : (⟨F32.NAN⟩ : Time).valid = false := by decide
  refine ⟨⟨hnan, hnan, rfl, rfl⟩, ?_, ?_⟩ <;> intro hv <;>
    simp [TimingTag.max_arr, TimingTag.min_arr, TimingTag.min_req, TimingTag.max_req,
      TimingTag.update_arr, TimingTag.update_req, hv]

/-- Witness for C10 at the tag `tagFresh` of domain 0, whose times are invalid: the base tag
`base1` of domain 0, launched from node 1, is written with the new times `1.0` and `NAN`; the
base tag `baseOther` of domain 1 makes the call fail. A default-constructed tag is written from
a base tag of the invalid domain. -/
theorem TimingTag.fold_first_write_witness :
    tagFresh.arr_time.valid = false ∧ tagFresh.req_time.valid = false ∧
    tagFresh.max_arr time1 base1 =
      some { tagFresh with arr_time := time1, launch_node := ⟨1⟩ } ∧
    tagFresh.min_arr timeNaN base1 =
      some { tagFresh with arr_time := timeNaN, launch_node := ⟨1⟩ } ∧
    tagFresh.min_req time1 base1 = some { tagFresh with req_time := time1 } ∧
    tagFresh.max_req timeNaN base1 = some { tagFresh with req_time := timeNaN } ∧
    tagFresh.max_arr time1 baseOther = none ∧
    tagFresh.max_req time1 baseOther = none ∧
    (TimingTag.ctor .DATA).max_arr time1 { base1 with clock_domain := DomainId.INVALID } =
      some { TimingTag.ctor .DATA with arr_time := time1, launch_node := ⟨1⟩ } :=
  ⟨by decide, by decide,
   ((TimingTag.fold_first_write tagFresh base1 time1 .DATA).2.1 (by decide)).1,
   ((TimingTag.fold_first_write tagFresh base1 timeNaN .DATA).2.1 (by decide)).2,
   ((TimingTag.fold_first_write tagFresh base1 time1 .DATA).2.2 (by decide)).1,
   ((TimingTag.fold_first_write tagFresh base1 timeNaN .DATA).2.2 (by decide)).2,
   ((TimingTag.fold_first_write tagFresh baseOther time1 .DATA).2.1 (by decide)).1,
   ((TimingTag.fold_first_write tagFresh baseOther time1 .DATA).2.2 (by decide)).2,
   ((TimingTag.fold_first_write (TimingTag.ctor .DATA)
      { base1 with clock_domain := DomainId.INVALID } time1 .DATA).2.1 (by decide)).1⟩

/-! ## Facts about the containers -/

/-- Adding an entry that the search does not accept, anywhere in a list, does not change the
result of the search. -/
theorem find?_insert_of_neg {α : Type} (p : α → Bool) (x : α) (hx : p x = false)
    (a b : List α) : List.find? p (a ++ x :: b) = List.find? p (a ++ b) := by
  induction a with
  | nil => simp [List.find?, hx]
  | cons y ys ih => simp only [List.cons_append, List.find?_cons, ih]

/-- Adding an accepted entry anywhere in a list without an accepted entry makes it the result of
the search. -/
theorem find?_insert_of_pos {α : Type} (p : α → Bool) (x : α) (hx : p x = true)
    (a b : List α) (h : List.find? p (a ++ b) = none) :
    List.find? p (a ++ x :: b) = some x := by
  induction a with
  | nil => simp [List.find?, hx]
  | cons y ys ih =>
    simp only [List.cons_append, List.find?_cons] at h ⊢
    cases hy : p y with
    | true => simp [hy] at h
    | false => simp only [hy] at h; exact ih h

/-- After placing a new entry, its key is found with its value. -/
theorem StdMap.find_place_self {K V : Type} [DecidableEq K] (lt : K → K → Bool)
    (m : StdMap K V) (k : K) (v : V) (h : m.find k = none) :
    StdMap.find (StdMap.place lt m k v) k = some v := by
  unfold StdMap.find StdMap.place
  rw [find?_insert_of_pos _ (k, v) (by simp)]
  · rfl
  · rw [List.takeWhile_append_dropWhile]
    simpa [StdMap.find] using h

/-- Placing a new entry does not change what is found for the other keys. -/
theorem StdMap.find_place_ne {K V : Type} [DecidableEq K] (lt : K → K → Bool)
    (m : StdMap K V) (k k2 : K) (v : V) (h : k ≠ k2) :
    StdMap.find (StdMap.place lt m k v) k2 = m.find k2 := by
  unfold StdMap.find StdMap.place
  rw [find?_insert_of_neg _ (k, v) (by simpa using h), List.takeWhile_append_dropWhile]

/-- A successful `insert` stores the value under its key and leaves the other keys alone; a
failed one (key present) leaves the map as it was. -/
theorem StdMap.insert_spec {K V : Type} [DecidableEq K] (lt : K → K → Bool)
    (m : StdMap K V) (k : K) (v : V) :
    ((StdMap.insert lt m k v).2 = true ↔ m.find k = none) ∧
    ((StdMap.insert lt m k v).2 = true → StdMap.find (StdMap.insert lt m k v).1 k = some v) ∧
    ((StdMap.insert lt m k v).2 = false → (StdMap.insert lt m k v).1 = m) ∧
    (∀ k2, k ≠ k2 → StdMap.find (StdMap.insert lt m k v).1 k2 = m.find k2) := by
  unfold StdMap.insert
  cases hf : m.find k with
  | none =>
    simp only [Option.isSome_none, Bool.false_eq_true, if_false, true_iff, true_and]
    exact ⟨fun _ => StdMap.find_place_self lt m k v hf, by simp,
      fun k2 h => StdMap.find_place_ne lt m k k2 v h⟩
  | some w => simp

/-- The search `find` on a non-empty map, entry by entry. -/
theorem StdMap.find_cons {K V : Type} [DecidableEq K] (p : K × V) (ps : StdMap K V) (k : K) :
    StdMap.find (p :: ps) k = if p.1 = k then some p.2 else StdMap.find ps k := by
  unfold StdMap.find
  by_cases hp : p.1 = k <;> simp [List.find?, hp]

/-- The assignment `m[k] = v` stores the value under its key and leaves the other keys alone. -/
theorem StdMap.find_assign {K V : Type} [DecidableEq K] (lt : K → K → Bool)
    (m : StdMap K V) (k : K) (v : V) :
    StdMap.find (StdMap.assign lt m k v) k = some v ∧
    ∀ k2, k ≠ k2 → StdMap.find (StdMap.assign lt m k v) k2 = m.find k2 := by
  unfold StdMap.assign
  cases hf : m.find k with
  | none =>
    simp only [Option.isSome_none, Bool.false_eq_true, if_false]
    exact ⟨StdMap.find_place_self lt m k v hf, fun k2 h => StdMap.find_place_ne lt m k k2 v h⟩
  | some w =>
    simp only [Option.isSome_some, if_true]
    constructor
    · clear lt
      induction m with
      | nil => simp [StdMap.find] at hf
      | cons p ps ih =>
        rw [StdMap.find_cons] at hf
        rw [List.map_cons, StdMap.find_cons]
        by_cases hp : p.1 = k
        · simp [hp]
        · simp only [hp, if_false] at hf ⊢
          exact ih hf
    · intro k2 h
      clear hf
      induction m with
      | nil => rfl
      | cons p ps ih =>
        rw [List.map_cons, StdMap.find_cons, StdMap.find_cons, ih]
        by_cases hp : p.1 = k
        · have hk2 : ¬ p.1 = k2 := fun h2 => h (hp.symm.trans h2)
          simp [hp, h, hk2]
        · simp [hp]

/-! ## Look-ups and setters of TimingConstraints -/

/-- The two ways `set_setup_constraint` ends. -/
theorem TimingConstraints.set_setup_constraint_eq (tc : TimingConstraints)
    (d_l d_c : DomainId) (x : F32) :
    tc.set_setup_constraint d_l d_c x =
      if tc.setup_constraints_.find ⟨d_l, d_c⟩ = none then
        .ok () { tc with
          setup_constraints_ := StdMap.place DomainPair.lt tc.setup_constraints_ ⟨d_l, d_c⟩ x }
      else .assertion_failed tc := by
  unfold TimingConstraints.set_setup_constraint StdMap.insert
  cases hf : tc.setup_constraints_.find ⟨d_l, d_c⟩ <;> simp [hf]

/-- The two ways `set_hold_constraint` ends. -/
theorem TimingConstraints.set_hold_constraint_eq (tc : TimingConstraints)
    (d_l d_c : DomainId) (x : F32) :
    tc.set_hold_constraint d_l d_c x =
      if tc.hold_constraints_.find ⟨d_l, d_c⟩ = none then
        .ok () { tc with
          hold_constraints_ := StdMap.place DomainPair.lt tc.hold_constraints_ ⟨d_l, d_c⟩ x }
      else .assertion_failed tc := by
  unfold TimingConstraints.set_hold_constraint StdMap.insert
  cases hf : tc.hold_constraints_.find ⟨d_l, d_c⟩ <;> simp [hf]

/-- Two different ordered pairs give two different map keys. -/
theorem DomainPair.mk_ne_of_pair_ne {d_l d_c e_l e_c : DomainId}
    (h : (e_l, e_c) ≠ (d_l, d_c)) : (⟨d_l, d_c⟩ : DomainPair) ≠ ⟨e_l, e_c⟩ := by
  intro h2
  apply h
  cases h2
  rfl

/-- C12: a successful `set_setup_constraint(d_l, d_c, x)` makes `setup_constraint(d_l, d_c)`
return `x`, leaves `setup_constraint` of every other ordered pair (the reversed pair included)
and every `hold_constraint` as they were, and the call succeeds exactly when the pair has no
setup constraint yet; `setup_constraint` returns the quiet NaN for a pair without an entry, so
for every pair of an empty store. The same holds with the roles of setup and hold exchanged. -/
theorem TimingConstraints.setup_hold_constraint_lookup (tc : TimingConstraints)
    (d_l d_c : DomainId) (x : F32) :
    ((∃ tc1, tc.set_setup_constraint d_l d_c x = .ok () tc1) ↔
        tc.setup_constraints_.find ⟨d_l, d_c⟩ = none) ∧
    (∀ tc1, tc.set_setup_constraint d_l d_c x = .ok () tc1 →
      tc1.setup_constraint d_l d_c = x ∧
      (∀ e_l e_c, (e_l, e_c) ≠ (d_l, d_c) →
        tc1.setup_constraint e_l e_c = tc.setup_constraint e_l e_c) ∧
      (∀ e_l e_c, tc1.hold_constraint e_l e_c = tc.hold_constraint e_l e_c)) ∧
    ((∃ tc1, tc.set_hold_constraint d_l d_c x = .ok () tc1) ↔
        tc.hold_constraints_.find ⟨d_l, d_c⟩ = none) ∧
    (∀ tc1, tc.set_hold_constraint d_l d_c x = .ok () tc1 →
      tc1.hold_constraint d_l d_c = x ∧
      (∀ e_l e_c, (e_l, e_c) ≠ (d_l, d_c) →
        tc1.hold_constraint e_l e_c = tc.hold_constraint e_l e_c) ∧
      (∀ e_l e_c, tc1.setup_constraint e_l e_c = tc.setup_constraint e_l e_c)) ∧
    (tc.setup_constraints_.find ⟨d_l, d_c⟩ = none →
      tc.setup_constraint d_l d_c = TimingConstraints.quiet_NaN) ∧
    (tc.hold_constraints_.find ⟨d_l, d_c⟩ = none →
      tc.hold_constraint d_l d_c = TimingConstraints.quiet_NaN) ∧
    TimingConstraints.empty.setup_constraint d_l d_c = TimingConstraints.quiet_NaN ∧
    TimingConstraints.empty.hold_constraint d_l d_c = TimingConstraints.quiet_NaN ∧
    TimingConstraints.quiet_NaN.isnan = true := by
  rw [TimingConstraints.set_setup_constraint_eq, TimingConstraints.set_hold_constraint_eq]
  refine ⟨?_, ?_, ?_, ?_, ?_, ?_, rfl, rfl, by decide⟩
  · by_cases hf : tc.setup_constraints_.find ⟨d_l, d_c⟩ = none <;> simp [hf]
  · intro tc1 h
    by_cases hf : tc.setup_constraints_.find ⟨d_l, d_c⟩ = none
    · simp only [hf, if_true, Outcome.ok.injEq, true_and] at h
      subst h
      refine ⟨?_, ?_, fun _ _ => rfl⟩
      · simp [TimingConstraints.setup_constraint, StdMap.find_place_self _ _ _ _ hf]
      · intro e_l e_c hp
        simp [TimingConstraints.setup_constraint,
          StdMap.find_place_ne _ _ _ _ _ (DomainPair.mk_ne_of_pair_ne hp)]
    · simp [hf] at h
  · by_cases hf : tc.hold_constraints_.find ⟨d_l, d_c⟩ = none <;> simp [hf]
  · intro tc1 h
    by_cases hf : tc.hold_constraints_.find ⟨d_l, d_c⟩ = none
    · simp only [hf, if_true, Outcome.ok.injEq, true_and] at h
      subst h
      refine ⟨?_, ?_, fun _ _ => rfl⟩
      · simp [TimingConstraints.hold_constraint, StdMap.find_place_self _ _ _ _ hf]
      · intro e_l e_c hp
        simp [TimingConstraints.hold_constraint,
          StdMap.find_place_ne _ _ _ _ _ (DomainPair.mk_ne_of_pair_ne hp)]
    · simp [hf] at h
  · intro h
    simp [TimingConstraints.setup_constraint, h]
  · intro h
    simp [TimingConstraints.hold_constraint, h]

/-- Witness for C12 on the empty store with the pair (0, 1) and the value `1.0`. -/
theorem TimingConstraints.setup_hold_constraint_lookup_witness :
    TimingConstraints.empty.set_setup_constraint ⟨0⟩ ⟨1⟩ time1.value = .ok () tcSetup01 ∧
    TimingConstraints.empty.set_hold_constraint ⟨0⟩ ⟨1⟩ time1.value = .ok () tcHold01 ∧
    (tcSetup01.setup_constraint ⟨0⟩ ⟨1⟩ = time1.value ∧
      tcSetup01.setup_constraint ⟨1⟩ ⟨0⟩ = TimingConstraints.empty.setup_constraint ⟨1⟩ ⟨0⟩ ∧
      tcSetup01.hold_constraint ⟨0⟩ ⟨1⟩ = TimingConstraints.empty.hold_constraint ⟨0⟩ ⟨1⟩) ∧
    (tcHold01.hold_constraint ⟨0⟩ ⟨1⟩ = time1.value ∧
      tcHold01.hold_constraint ⟨1⟩ ⟨0⟩ = TimingConstraints.empty.hold_constraint ⟨1⟩ ⟨0⟩ ∧
      tcHold01.setup_constraint ⟨0⟩ ⟨1⟩ = TimingConstraints.empty.setup_constraint ⟨0⟩ ⟨1⟩) ∧
    tcSetup01.setup_constraint ⟨1⟩ ⟨0⟩ = TimingConstraints.quiet_NaN :=
  have h := TimingConstraints.setup_hold_constraint_lookup TimingConstraints.empty ⟨0⟩ ⟨1⟩
    time1.value
  have h10 := TimingConstraints.setup_hold_constraint_lookup tcSetup01 ⟨1⟩ ⟨0⟩ time1.value
  ⟨by decide, by decide,
   ⟨(h.2.1 tcSetup01 (by decide)).1,
    (h.2.1 tcSetup01 (by decide)).2.1 ⟨1⟩ ⟨0⟩ (by decide),
    (h.2.1 tcSetup01 (by decide)).2.2 ⟨0⟩ ⟨1⟩⟩,
   ⟨(h.2.2.2.1 tcHold01 (by decide)).1,
    (h.2.2.2.1 tcHold01 (by decide)).2.1 ⟨1⟩ ⟨0⟩ (by decide),
    (h.2.2.2.1 tcHold01 (by decide)).2.2 ⟨0⟩ ⟨1⟩⟩,
   h10.2.2.2.2.1 (by decide)⟩

/-- C13, as stated, fails: on the empty store, where no source latency and no clock uncertainty
is set, `source_latency`, `setup_clock_uncertainty` and `hold_clock_uncertainty` return `0.0`,
which is not NaN. -/
theorem TimingConstraints.unspecified_latency_uncertainty_not_nan :
    TimingConstraints.empty.source_latency ⟨0⟩ = ⟨0⟩ ∧
    (TimingConstraints.empty.source_latency ⟨0⟩).isnan = false ∧
    TimingConstraints.empty.setup_clock_uncertainty ⟨0⟩ ⟨1⟩ = ⟨0⟩ ∧
    (TimingConstraints.empty.setup_clock_uncertainty ⟨0⟩ ⟨1⟩).isnan = false ∧
    TimingConstraints.empty.hold_clock_uncertainty ⟨0⟩ ⟨1⟩ = ⟨0⟩ ∧
    (TimingConstraints.empty.hold_clock_uncertainty ⟨0⟩ ⟨1⟩).isnan = false := by
  decide

/-- C13, amended: for every domain without a source latency entry `source_latency` returns
`0.0`, and for every domain pair without an uncertainty entry `setup_clock_uncertainty` and
`hold_clock_uncertainty` return `0.0`; this default is a valid (non-NaN) value, equal to the
float zero. -/
theorem TimingConstraints.unspecified_latency_uncertainty_zero (tc : TimingConstraints)
    (d d_l d_c : DomainId) :
    (tc.source_latencies_.find d = none → tc.source_latency d = TimingConstraints.zero) ∧
    (tc.setup_clock_uncertainties_.find ⟨d_l, d_c⟩ = none →
      tc.setup_clock_uncertainty d_l d_c = TimingConstraints.zero) ∧
    (tc.hold_clock_uncertainties_.find ⟨d_l, d_c⟩ = none →
      tc.hold_clock_uncertainty d_l d_c = TimingConstraints.zero) ∧
    TimingConstraints.zero.isnan = false ∧
    F32.eq TimingConstraints.zero time0.value = true := by
  refine ⟨?_, ?_, ?_, by decide, by decide⟩ <;> intro h
  · simp [TimingConstraints.source_latency, h]
  · simp [TimingConstraints.setup_clock_uncertainty, h]
  · simp [TimingConstraints.hold_clock_uncertainty, h]

/-- Witness for the amended C13 on the store `tcSetup01`, which has a setup constraint but no
latency and no uncertainty. -/
theorem TimingConstraints.unspecified_latency_uncertainty_zero_witness :
    tcSetup01.source_latencies_.find ⟨0⟩ = none ∧
    tcSetup01.setup_clock_uncertainties_.find ⟨⟨0⟩, ⟨1⟩⟩ = none ∧
    tcSetup01.hold_clock_uncertainties_.find ⟨⟨0⟩, ⟨1⟩⟩ = none ∧
    tcSetup01.source_latency ⟨0⟩ = TimingConstraints.zero ∧
    tcSetup01.setup_clock_uncertainty ⟨0⟩ ⟨1⟩ = TimingConstraints.zero ∧
    tcSetup01.hold_clock_uncertainty ⟨0⟩ ⟨1⟩ = TimingConstraints.zero :=
  have h := TimingConstraints.unspecified_latency_uncertainty_zero tcSetup01 ⟨0⟩ ⟨0⟩ ⟨1⟩
  ⟨by decide, by decide, by decide, h.1 (by decide), h.2.1 (by decide), h.2.2.1 (by decide)⟩

/-- The two ways the legacy `set_setup_constraint` ends. -/
theorem Legacy.TimingConstraints.legacy_set_setup_constraint_eq (tc : Legacy.TimingConstraints)
    (cout : List Legacy.CoutItem) (d_l d_c : DomainId) (x : F32) :
    tc.set_setup_constraint cout d_l d_c x =
      if tc.setup_constraints_.find ⟨d_l, d_c⟩ = none then
        .ok () ({ tc with
          setup_constraints_ := StdMap.place DomainPair.lt tc.setup_constraints_ ⟨d_l, d_c⟩ x },
          cout ++ [.text "SRC: ", .domain d_l, .text " SINK: ", .domain d_c,
            .text " Constraint: ", .number x, .endl])
      else .assertion_failed (tc, cout ++ [.text "SRC: ", .domain d_l, .text " SINK: ",
        .domain d_c, .text " Constraint: ", .number x, .endl]) := by
  unfold Legacy.TimingConstraints.set_setup_constraint StdMap.insert
  cases hf : tc.setup_constraints_.find ⟨d_l, d_c⟩ <;> simp [hf]

/-- The two ways the legacy `set_hold_constraint` ends. -/
theorem Legacy.TimingConstraints.legacy_set_hold_constraint_eq (tc : Legacy.TimingConstraints)
    (cout : List Legacy.CoutItem) (d_l d_c : DomainId) (x : F32) :
    tc.set_hold_constraint cout d_l d_c x =
      if tc.hold_constraints_.find ⟨d_l, d_c⟩ = none then
        .ok () ({ tc with
          hold_constraints_ := StdMap.place DomainPair.lt tc.hold_constraints_ ⟨d_l, d_c⟩ x },
          cout ++ [.text "SRC: ", .domain d_l, .text " SINK: ", .domain d_c,
            .text " Constraint: ", .number x, .endl])
      else .assertion_failed (tc, cout ++ [.text "SRC: ", .domain d_l, .text " SINK: ",
        .domain d_c, .text " Constraint: ", .number x, .endl]) := by
  unfold Legacy.TimingConstraints.set_hold_constraint StdMap.insert
  cases hf : tc.hold_constraints_.find ⟨d_l, d_c⟩ <;> simp [hf]

/-- C14: `set_setup_constraint` called for an ordered pair that already has a setup constraint
ends in a failed assertion, with the store exactly as it was before the call (so the value stored
for the pair and every other entry are unchanged); likewise `set_hold_constraint` for a pair that
already has a hold constraint. The legacy setters do the same to the store (they also write one
line to `std::cout` before the insertion). -/
theorem TimingConstraints.set_constraint_duplicate_atomic (tc : TimingConstraints)
    (ltc : Legacy.TimingConstraints) (cout : List Legacy.CoutItem) (d_l d_c : DomainId)
    (x : F32) :
    (tc.setup_constraints_.find ⟨d_l, d_c⟩ ≠ none →
      tc.set_setup_constraint d_l d_c x = .assertion_failed tc) ∧
    (tc.hold_constraints_.find ⟨d_l, d_c⟩ ≠ none →
      tc.set_hold_constraint d_l d_c x = .assertion_failed tc) ∧
    (ltc.setup_constraints_.find ⟨d_l, d_c⟩ ≠ none →
      ∃ cout1, ltc.set_setup_constraint cout d_l d_c x = .assertion_failed (ltc, cout1)) ∧
    (ltc.hold_constraints_.find ⟨d_l, d_c⟩ ≠ none →
      ∃ cout1, ltc.set_hold_constraint cout d_l d_c x = .assertion_failed (ltc, cout1)) := by
  rw [TimingConstraints.set_setup_constraint_eq, TimingConstraints.set_hold_constraint_eq,
    Legacy.TimingConstraints.legacy_set_setup_constraint_eq,
    Legacy.TimingConstraints.legacy_set_hold_constraint_eq]
  refine ⟨?_, ?_, ?_, ?_⟩ <;> intro h <;> simp [h]

/-- Witness for C14: a second setup (hold) constraint for the pair (0, 1), now `2.0`, on the
stores that hold `1.0` for it; the stored value stays `1.0`. -/
theorem TimingConstraints.set_constraint_duplicate_atomic_witness :
    tcSetup01.setup_constraints_.find ⟨⟨0⟩, ⟨1⟩⟩ ≠ none ∧
    tcHold01.hold_constraints_.find ⟨⟨0⟩, ⟨1⟩⟩ ≠ none ∧
    tcSetup01.set_setup_constraint ⟨0⟩ ⟨1⟩ time2.value = .assertion_failed tcSetup01 ∧
    tcHold01.set_hold_constraint ⟨0⟩ ⟨1⟩ time2.value = .assertion_failed tcHold01 ∧
    (∃ cout1, legacySetupHold01.set_setup_constraint [] ⟨0⟩ ⟨1⟩ time2.value =
      .assertion_failed (legacySetupHold01, cout1)) ∧
    (∃ cout1, legacySetupHold01.set_hold_constraint [] ⟨0⟩ ⟨1⟩ time2.value =
      .assertion_failed (legacySetupHold01, cout1)) ∧
    tcSetup01.setup_constraint ⟨0⟩ ⟨1⟩ = time1.value :=
  ⟨by decide, by decide,
   (TimingConstraints.set_constraint_duplicate_atomic tcSetup01 legacySetupHold01 [] ⟨0⟩ ⟨1⟩
      time2.value).1 (by decide),
   (TimingConstraints.set_constraint_duplicate_atomic tcHold01 legacySetupHold01 [] ⟨0⟩ ⟨1⟩
      time2.value).2.1 (by decide),
   (TimingConstraints.set_constraint_duplicate_atomic tcSetup01 legacySetupHold01 [] ⟨0⟩ ⟨1⟩
      time2.value).2.2.1 (by decide),
   (TimingConstraints.set_constraint_duplicate_atomic tcSetup01 legacySetupHold01 [] ⟨0⟩ ⟨1⟩
      time2.value).2.2.2 (by decide),
   by decide⟩

/-! ## Input and output constraints -/

/-- The entry `find_io_constraint` points at is the first entry for the node and the domain. -/
theorem TimingConstraints.find_io_constraint_get (n : NodeId) (d : DomainId)
    (l : List (NodeId × IoConstraint)) :
    (TimingConstraints.find_io_constraint n d l).bind (fun i => l[i]?) =
      l.find? (fun p => decide (p.1 = n ∧ p.2.domain = d)) := by
  induction l with
  | nil => rfl
  | cons p ps ih =>
    unfold TimingConstraints.find_io_constraint
    by_cases hp : p.1 = n ∧ p.2.domain = d
    · simp [hp, List.find?]
    · rw [if_neg hp, List.find?_cons, ← ih]
      simp only [hp, decide_False]
      cases TimingConstraints.find_io_constraint n d ps <;> simp

/-- The search `find_io_constraint` fails exactly when no entry is for the node and the domain. -/
theorem TimingConstraints.find_io_constraint_eq_none (n : NodeId) (d : DomainId)
    (l : List (NodeId × IoConstraint)) :
    TimingConstraints.find_io_constraint n d l = none ↔
      l.find? (fun p => decide (p.1 = n ∧ p.2.domain = d)) = none := by
  induction l with
  | nil => simp [TimingConstraints.find_io_constraint]
  | cons p ps ih =>
    unfold TimingConstraints.find_io_constraint
    by_cases hp : p.1 = n ∧ p.2.domain = d
    · simp [hp, List.find?]
    · rw [if_neg hp, List.find?_cons]
      simp only [hp, decide_False, Option.map_eq_none']
      exact ih

/-- After `set_io_constraint` for a node and a domain, the first entry for them carries the new
constraint. -/
theorem TimingConstraints.set_io_constraint_find_self (n : NodeId) (d : DomainId) (x : F32)
    (l : List (NodeId × IoConstraint)) :
    ((TimingConstraints.set_io_constraint n d x l).find?
      (fun p => decide (p.1 = n ∧ p.2.domain = d))).map (fun p => p.2.constraint) = some x := by
  unfold TimingConstraints.set_io_constraint
  cases hf : TimingConstraints.find_io_constraint n d l with
  | none =>
    simp only [StdMultimap.insert]
    rw [find?_insert_of_pos _ _ (by simp)]
    · rfl
    · rw [List.takeWhile_append_dropWhile]
      exact (TimingConstraints.find_io_constraint_eq_none n d l).1 hf
  | some i =>
    simp only
    induction l generalizing i with
    | nil => simp [TimingConstraints.find_io_constraint] at hf
    | cons p ps ih =>
      unfold TimingConstraints.find_io_constraint at hf
      by_cases hp : p.1 = n ∧ p.2.domain = d
      · simp only [hp, and_self, if_true, Option.some.injEq] at hf
        subst hf
        simp [List.modify, List.find?, hp]
      · rw [if_neg hp] at hf
        cases hj : TimingConstraints.find_io_constraint n d ps with
        | none => simp [hj] at hf
        | some j =>
          simp only [hj, Option.map_some', Option.some.injEq] at hf
          subst hf
          simp only [List.modify_succ_cons, List.find?_cons, hp, decide_False]
          exact ih j hj

/-- After `set_io_constraint` for a node and a domain, the first entry for any other node or
domain is the one it was. -/
theorem TimingConstraints.set_io_constraint_find_ne (n n2 : NodeId) (d d2 : DomainId) (x : F32)
    (l : List (NodeId × IoConstraint)) (h : (n2, d2) ≠ (n, d)) :
    (TimingConstraints.set_io_constraint n d x l).find?
      (fun p => decide (p.1 = n2 ∧ p.2.domain = d2)) =
    l.find? (fun p => decide (p.1 = n2 ∧ p.2.domain = d2)) := by
  have hnd : ¬ (n = n2 ∧ d = d2) := fun h2 => h (by rw [h2.1, h2.2])
  unfold TimingConstraints.set_io_constraint
  cases hf : TimingConstraints.find_io_constraint n d l with
  | none =>
    simp only [StdMultimap.insert]
    rw [find?_insert_of_neg _ _ (by simpa using hnd), List.takeWhile_append_dropWhile]
  | some i =>
    simp only
    induction l generalizing i with
    | nil => simp [TimingConstraints.find_io_constraint] at hf
    | cons p ps ih =>
      unfold TimingConstraints.find_io_constraint at hf
      by_cases hp : p.1 = n ∧ p.2.domain = d
      · simp only [hp, and_self, if_true, Option.some.injEq] at hf
        subst hf
        have hp2 : ¬ (p.1 = n2 ∧ p.2.domain = d2) := by
          rw [hp.1, hp.2]; exact hnd
        simp [List.modify, List.find?, hp2]
      · rw [if_neg hp] at hf
        cases hj : TimingConstraints.find_io_constraint n d ps with
        | none => simp [hj] at hf
        | some j =>
          simp only [hj, Option.map_some', Option.some.injEq] at hf
          subst hf
          simp only [List.modify_succ_cons, List.find?_cons]
          rw [ih j hj]

/-- The number of entries after `set_io_constraint`: unchanged when an entry was overwritten, one
more when an entry was inserted. -/
theorem TimingConstraints.set_io_constraint_length (n : NodeId) (d : DomainId) (x : F32)
    (l : List (NodeId × IoConstraint)) :
    (TimingConstraints.set_io_constraint n d x l).length =
      if (TimingConstraints.find_io_constraint n d l).isSome then l.length else l.length + 1 := by
  unfold TimingConstraints.set_io_constraint
  cases hf : TimingConstraints.find_io_constraint n d l with
  | none =>
    simp only [StdMultimap.insert, Option.isSome_none, Bool.false_eq_true, if_false,
      List.length_append, List.length_cons]
    rw [← Nat.add_assoc, ← List.length_append, List.takeWhile_append_dropWhile]
  | some i => simp

/-- The look-up `input_constraint` through the first entry for the node and the domain. -/
theorem TimingConstraints.input_constraint_eq (tc : TimingConstraints) (n : NodeId)
    (d : DomainId) :
    tc.input_constraint n d =
      match tc.input_constraints_.find? (fun p => decide (p.1 = n ∧ p.2.domain = d)) with
      | some p => p.2.constraint
      | none => TimingConstraints.quiet_NaN := by
  unfold TimingConstraints.input_constraint
  rw [TimingConstraints.find_io_constraint_get]

/-- The look-up `output_constraint` through the first entry for the node and the domain. -/
theorem TimingConstraints.output_constraint_eq (tc : TimingConstraints) (n : NodeId)
    (d : DomainId) :
    tc.output_constraint n d =
      match tc.output_constraints_.find? (fun p => decide (p.1 = n ∧ p.2.domain = d)) with
      | some p => p.2.constraint
      | none => TimingConstraints.quiet_NaN := by
  unfold TimingConstraints.output_constraint
  rw [TimingConstraints.find_io_constraint_get]

/-- The look-ups after `set_input_constraint`. -/
theorem TimingConstraints.input_constraint_set_input_constraint (tc : TimingConstraints)
    (n n2 : NodeId) (d d2 : DomainId) (x : F32) :
    (tc.set_input_constraint n d x).input_constraint n2 d2 =
      if (n2, d2) = (n, d) then x else tc.input_constraint n2 d2 := by
  rw [TimingConstraints.input_constraint_eq, TimingConstraints.input_constraint_eq]
  unfold TimingConstraints.set_input_constraint
  by_cases h : (n2, d2) = (n, d)
  · rw [if_pos h]
    cases h
    have hs := TimingConstraints.set_io_constraint_find_self n d x tc.input_constraints_
    revert hs
    simp only
    cases (TimingConstraints.set_io_constraint n d x tc.input_constraints_).find?
      (fun p => decide (p.1 = n ∧ p.2.domain = d)) <;> simp
  · rw [if_neg h]
    simp only
    rw [TimingConstraints.set_io_constraint_find_ne n n2 d d2 x tc.input_constraints_ h]

/-- The look-ups after `set_output_constraint`. -/
theorem TimingConstraints.output_constraint_set_output_constraint (tc : TimingConstraints)
    (n n2 : NodeId) (d d2 : DomainId) (x : F32) :
    (tc.set_output_constraint n d x).output_constraint n2 d2 =
      if (n2, d2) = (n, d) then x else tc.output_constraint n2 d2 := by
  rw [TimingConstraints.output_constraint_eq, TimingConstraints.output_constraint_eq]
  unfold TimingConstraints.set_output_constraint
  by_cases h : (n2, d2) = (n, d)
  · rw [if_pos h]
    cases h
    have hs := TimingConstraints.set_io_constraint_find_self n d x tc.output_constraints_
    revert hs
    simp only
    cases (TimingConstraints.set_io_constraint n d x tc.output_constraints_).find?
      (fun p => decide (p.1 = n ∧ p.2.domain = d)) <;> simp
  · rw [if_neg h]
    simp only
    rw [TimingConstraints.set_io_constraint_find_ne n n2 d d2 x tc.output_constraints_ h]

/-- C15, as stated, fails: on the empty store, which has no clock domain at all,
`set_input_constraint` and `set_output_constraint` for domain 5 store the constraint, and the
look-ups return it. -/
theorem TimingConstraints.set_io_constraint_unknown_domain_stored :
    TimingConstraints.empty.clock_domains = [] ∧
    (TimingConstraints.empty.set_input_constraint ⟨3⟩ ⟨5⟩ time1.value).input_constraints_ =
      [(⟨3⟩, ⟨⟨5⟩, time1.value⟩)] ∧
    (TimingConstraints.empty.set_input_constraint ⟨3⟩ ⟨5⟩ time1.value).input_constraint ⟨3⟩ ⟨5⟩ =
      time1.value ∧
    (TimingConstraints.empty.set_output_constraint ⟨4⟩ ⟨5⟩ time1.value).output_constraints_ =
      [(⟨4⟩, ⟨⟨5⟩, time1.value⟩)] ∧
    (TimingConstraints.empty.set_output_constraint ⟨4⟩ ⟨5⟩ time1.value).output_constraint ⟨4⟩ ⟨5⟩ =
      time1.value := by
  decide

/-- C15, amended: `set_input_constraint` and `set_output_constraint` do not check the domain id.
For every store, node, value and domain id (nothing is assumed of the id, so also for one that
is not among `clock_domains()`), the call returns, the matching look-up then returns the value,
and the clock domains are as they were. -/
theorem TimingConstraints.set_io_constraint_any_domain (tc : TimingConstraints) (n : NodeId)
    (d : DomainId) (x : F32) :
    (tc.set_input_constraint n d x).input_constraint n d = x ∧
    (tc.set_input_constraint n d x).clock_domains = tc.clock_domains ∧
    (tc.set_output_constraint n d x).output_constraint n d = x ∧
    (tc.set_output_constraint n d x).clock_domains = tc.clock_domains := by
  refine ⟨?_, rfl, ?_, rfl⟩
  · rw [TimingConstraints.input_constraint_set_input_constraint, if_pos rfl]
  · rw [TimingConstraints.output_constraint_set_output_constraint, if_pos rfl]

/-- Witness for the amended C15 on the empty store with the never created domain 5. -/
theorem TimingConstraints.set_io_constraint_any_domain_witness :
    (⟨5⟩ : DomainId) ∉ TimingConstraints.empty.clock_domains ∧
    (TimingConstraints.empty.set_input_constraint ⟨3⟩ ⟨5⟩ time1.value).input_constraint ⟨3⟩ ⟨5⟩ =
      time1.value ∧
    (TimingConstraints.empty.set_input_constraint ⟨3⟩ ⟨5⟩ time1.value).clock_domains =
      TimingConstraints.empty.clock_domains ∧
    (TimingConstraints.empty.set_output_constraint ⟨3⟩ ⟨5⟩ time1.value).output_constraint ⟨3⟩ ⟨5⟩ =
      time1.value ∧
    (TimingConstraints.empty.set_output_constraint ⟨3⟩ ⟨5⟩ time1.value).clock_domains =
      TimingConstraints.empty.clock_domains :=
  ⟨by decide,
   TimingConstraints.set_io_constraint_any_domain TimingConstraints.empty ⟨3⟩ ⟨5⟩ time1.value⟩

/-- C17: after `set_input_constraint(n, d, x)`, `input_constraint(n, d)` is `x` and the input
constraint of every other (node, domain) and every output constraint are as before; an existing
entry for (n, d) is overwritten (the number of entries is unchanged), otherwise one entry is
added; `input_constraint(n, d)` is the quiet NaN when no entry is for (n, d), so on the empty
store. The same holds for `set_output_constraint` and `output_constraint`. -/
theorem TimingConstraints.io_constraint_round_trip (tc : TimingConstraints) (n : NodeId)
    (d : DomainId) (x : F32) :
    ((tc.set_input_constraint n d x).input_constraint n d = x ∧
      (∀ n2 d2, (n2, d2) ≠ (n, d) →
        (tc.set_input_constraint n d x).input_constraint n2 d2 = tc.input_constraint n2 d2) ∧
      (∀ n2 d2,
        (tc.set_input_constraint n d x).output_constraint n2 d2 = tc.output_constraint n2 d2) ∧
      (tc.set_input_constraint n d x).input_constraints_.length =
        (if (TimingConstraints.find_io_constraint n d tc.input_constraints_).isSome then
          tc.input_constraints_.length else tc.input_constraints_.length + 1) ∧
      (TimingConstraints.find_io_constraint n d tc.input_constraints_ = none →
        tc.input_constraint n d = TimingConstraints.quiet_NaN) ∧
      TimingConstraints.empty.input_constraint n d = TimingConstraints.quiet_NaN) ∧
    ((tc.set_output_constraint n d x).output_constraint n d = x ∧
      (∀ n2 d2, (n2, d2) ≠ (n, d) →
        (tc.set_output_constraint n d x).output_constraint n2 d2 = tc.output_constraint n2 d2) ∧
      (∀ n2 d2,
        (tc.set_output_constraint n d x).input_constraint n2 d2 = tc.input_constraint n2 d2) ∧
      (tc.set_output_constraint n d x).output_constraints_.length =
        (if (TimingConstraints.find_io_constraint n d tc.output_constraints_).isSome then
          tc.output_constraints_.length else tc.output_constraints_.length + 1) ∧
      (TimingConstraints.find_io_constraint n d tc.output_constraints_ = none →
        tc.output_constraint n d = TimingConstraints.quiet_NaN) ∧
      TimingConstraints.empty.output_constraint n d = TimingConstraints.quiet_NaN) := by
  refine ⟨⟨?_, ?_, fun _ _ => rfl, ?_, ?_, rfl⟩, ⟨?_, ?_, fun _ _ => rfl, ?_, ?_, rfl⟩⟩
  · rw [TimingConstraints.input_constraint_set_input_constraint, if_pos rfl]
  · intro n2 d2 h
    rw [TimingConstraints.input_constraint_set_input_constraint, if_neg h]
  · exact TimingConstraints.set_io_constraint_length n d x tc.input_constraints_
  · intro h
    simp [TimingConstraints.input_constraint, h]
  · rw [TimingConstraints.output_constraint_set_output_constraint, if_pos rfl]
  · intro n2 d2 h
    rw [TimingConstraints.output_constraint_set_output_constraint, if_neg h]
  · exact TimingConstraints.set_io_constraint_length n d x tc.output_constraints_
  · intro h
    simp [TimingConstraints.output_constraint, h]

/-- Witness for C17 on the store `tcIo` (input constraint `1.0` at node 3, output constraint
`1.0` at node 4, both for domain 5): the value `2.0` overwrites the entry of (3, 5) resp. (4, 5),
and the other look-ups keep their values. -/
theorem TimingConstraints.io_constraint_round_trip_witness :
    (tcIo.set_input_constraint ⟨3⟩ ⟨5⟩ time2.value).input_constraint ⟨3⟩ ⟨5⟩ = time2.value ∧
    (tcIo.set_input_constraint ⟨3⟩ ⟨5⟩ time2.value).input_constraint ⟨3⟩ ⟨6⟩ =
      tcIo.input_constraint ⟨3⟩ ⟨6⟩ ∧
    (tcIo.set_input_constraint ⟨3⟩ ⟨5⟩ time2.value).output_constraint ⟨4⟩ ⟨5⟩ =
      tcIo.output_constraint ⟨4⟩ ⟨5⟩ ∧
    (tcIo.set_input_constraint ⟨3⟩ ⟨5⟩ time2.value).input_constraints_.length = 1 ∧
    tcIo.input_constraint ⟨3⟩ ⟨6⟩ = TimingConstraints.quiet_NaN ∧
    (tcIo.set_output_constraint ⟨4⟩ ⟨5⟩ time2.value).output_constraint ⟨4⟩ ⟨5⟩ = time2.value ∧
    (tcIo.set_output_constraint ⟨4⟩ ⟨5⟩ time2.value).output_constraint ⟨3⟩ ⟨5⟩ =
      tcIo.output_constraint ⟨3⟩ ⟨5⟩ ∧
    tcIo.output_constraint ⟨3⟩ ⟨5⟩ = TimingConstraints.quiet_NaN :=
  have hi := (TimingConstraints.io_constraint_round_trip tcIo ⟨3⟩ ⟨5⟩ time2.value).1
  have hi6 := (TimingConstraints.io_constraint_round_trip tcIo ⟨3⟩ ⟨6⟩ time2.value).1
  have ho := (TimingConstraints.io_constraint_round_trip tcIo ⟨4⟩ ⟨5⟩ time2.value).2
  have ho3 := (TimingConstraints.io_constraint_round_trip tcIo ⟨3⟩ ⟨5⟩ time2.value).2
  ⟨hi.1, hi.2.1 ⟨3⟩ ⟨6⟩ (by decide), hi.2.2.1 ⟨4⟩ ⟨5⟩, hi.2.2.2.1, hi6.2.2.2.2.1 (by decide),
   ho.1, ho.2.1 ⟨3⟩ ⟨5⟩ (by decide), ho3.2.2.2.2.1 (by decide)⟩

/-! ## Clock domains -/

/-- The search loop of `find_clock_domain` over ids whose names all differ from the name looked
for ends without a match. -/
theorem TimingConstraints.find_clock_domain_loop_not_found (tc : TimingConstraints)
    (name : String) (ids : List DomainId)
    (h : ∀ id ∈ ids, ∃ n, tc.clock_domain_name id = some n ∧ n ≠ name) :
    tc.find_clock_domain_loop name ids = some DomainId.INVALID := by
  induction ids with
  | nil => rfl
  | cons id ids ih =>
    obtain ⟨n, hn, hne⟩ := h id (List.mem_cons_self _ _)
    simp only [TimingConstraints.find_clock_domain_loop, hn, hne, if_false]
    exact ih (fun j hj => h j (List.mem_cons_of_mem _ hj))

/-- The search loop of `find_clock_domain` over ids whose names differ from the name looked for,
followed by an id with that name, ends at this id. -/
theorem TimingConstraints.find_clock_domain_loop_found_last (tc : TimingConstraints)
    (name : String) (ids : List DomainId) (id0 : DomainId)
    (h : ∀ id ∈ ids, ∃ n, tc.clock_domain_name id = some n ∧ n ≠ name)
    (h0 : tc.clock_domain_name id0 = some name) :
    tc.find_clock_domain_loop name (ids ++ [id0]) = some id0 := by
  induction ids with
  | nil => simp [TimingConstraints.find_clock_domain_loop, h0]
  | cons id ids ih =>
    obtain ⟨n, hn, hne⟩ := h id (List.mem_cons_self _ _)
    simp only [List.cons_append, TimingConstraints.find_clock_domain_loop, hn, hne, if_false]
    exact ih (fun j hj => h j (List.mem_cons_of_mem _ hj))

/-- In a consistent store every domain id has a name, the one at its position. -/
theorem TimingConstraints.WF.name_of_mem {tc : TimingConstraints} (hwf : tc.WF) (id : DomainId)
    (hid : id ∈ tc.domain_ids_) :
    id.id < tc.domain_ids_.length ∧ ∃ n, tc.domain_names_[id.id]? = some n ∧
      n ∈ tc.domain_names_ := by
  rw [hwf.1] at hid
  simp only [List.mem_map, List.mem_range] at hid
  obtain ⟨i, hi, rfl⟩ := hid
  refine ⟨hi, ?_⟩
  have hlt : i < tc.domain_names_.length := by rw [hwf.2.1]; exact hi
  exact ⟨tc.domain_names_[i], List.getElem?_eq_getElem hlt, List.getElem_mem hlt⟩

/-- The call `create_clock_domain(name)` on a consistent store with fewer than 256 domains, none
of them named `name`: the new domain gets the id equal to the number of domains, the name and no
source node, and both assertions pass. -/
theorem TimingConstraints.create_clock_domain_new (tc : TimingConstraints) (name : String)
    (hwf : tc.WF) (hlen : tc.domain_ids_.length < 256) (hname : name ∉ tc.domain_names_) :
    tc.create_clock_domain name =
      .ok ⟨tc.domain_ids_.length⟩
        { tc with
          domain_ids_ := tc.domain_ids_ ++ [⟨tc.domain_ids_.length⟩]
          domain_names_ := tc.domain_names_ ++ [name]
          domain_sources_ := tc.domain_sources_ ++ [NodeId.INVALID] } := by
  have hold : ∀ id ∈ tc.domain_ids_, ∃ n, tc.clock_domain_name id = some n ∧ n ≠ name := by
    intro id hid
    obtain ⟨_, n, hn, hmem⟩ := hwf.name_of_mem id hid
    exact ⟨n, hn, fun h => hname (h ▸ hmem)⟩
  have hfind : tc.find_clock_domain name = some DomainId.INVALID :=
    TimingConstraints.find_clock_domain_loop_not_found tc name _ hold
  have hsize : DomainId.ofSize tc.domain_ids_.length = ⟨tc.domain_ids_.length⟩ := by
    simp [DomainId.ofSize, Nat.mod_eq_of_lt hlen]
  unfold TimingConstraints.create_clock_domain
  rw [hfind, hsize]
  have hinv : (!DomainId.INVALID.toBool) = true := by decide
  simp only [hinv, if_true]
  have hname1 : TimingConstraints.clock_domain_name
      { tc with
        domain_ids_ := tc.domain_ids_ ++ [⟨tc.domain_ids_.length⟩]
        domain_names_ := tc.domain_names_ ++ [name]
        domain_sources_ := tc.domain_sources_ ++ [NodeId.INVALID] }
      ⟨tc.domain_ids_.length⟩ = some name := by
    simp [TimingConstraints.clock_domain_name, ← hwf.2.1]
  have hfind1 : TimingConstraints.find_clock_domain
      { tc with
        domain_ids_ := tc.domain_ids_ ++ [⟨tc.domain_ids_.length⟩]
        domain_names_ := tc.domain_names_ ++ [name]
        domain_sources_ := tc.domain_sources_ ++ [NodeId.INVALID] }
      name = some ⟨tc.domain_ids_.length⟩ := by
    apply TimingConstraints.find_clock_domain_loop_found_last _ name tc.domain_ids_ _ _ hname1
    intro id hid
    obtain ⟨hlt, n, hn, hmem⟩ := hwf.name_of_mem id hid
    refine ⟨n, ?_, fun h => hname (h ▸ hmem)⟩
    have hlt2 : id.id < tc.domain_names_.length := by rw [hwf.2.1]; exact hlt
    simp only [TimingConstraints.clock_domain_name, List.getElem?_append_left hlt2]
    exact hn
  rw [hname1]
  simp only [if_true]
  rw [hfind1]
  simp

/-- The sample names are pairwise distinct, and none of them is `x`. -/
theorem sampleName_facts (i j : Nat) :
    (sampleName i = sampleName j → i = j) ∧ sampleName i ≠ "x" := by
  constructor
  · intro h
    have h2 := congrArg String.length h
    simpa [sampleName, String.length] using h2
  · intro h
    have h2 : (sampleName i).data = ['x'] := by rw [h]
    simp [sampleName, List.replicate_succ] at h2

/-- The sample stores are consistent. -/
theorem tcDomains_WF (k : Nat) : (tcDomains k).WF := by
  simp [TimingConstraints.WF, tcDomains]

/-- Each sample store arises from the previous one by a call of `create_clock_domain`, so every
`tcDomains k` with `k ≤ 256` is reached from the empty store by calls of the public mutator. -/
theorem tcDomains_succ (k : Nat) (hk : k < 256) :
    (tcDomains k).create_clock_domain (sampleName k) = .ok ⟨k⟩ (tcDomains (k + 1)) := by
  have hlen : (tcDomains k).domain_ids_.length = k := by simp [tcDomains]
  have hnew : sampleName k ∉ (tcDomains k).domain_names_ := by
    simp only [tcDomains, List.mem_map, List.mem_range, not_exists, not_and]
    intro i hi h
    have := (sampleName_facts i k).1 h
    omega
  rw [TimingConstraints.create_clock_domain_new _ _ (tcDomains_WF k) (by rw [hlen]; exact hk)
    hnew, hlen]
  simp [tcDomains, List.range_succ, List.replicate_succ']

/-- The sample store `tcDomains k` has `k` domains. -/
theorem tcDomains_length (k : Nat) : (tcDomains k).clock_domains.length = k := by
  simp [tcDomains, TimingConstraints.clock_domains]

/-- No domain of a sample store is named `x`. -/
theorem tcDomains_x_not_mem (k : Nat) : "x" ∉ (tcDomains k).domain_names_ := by
  simp only [tcDomains, List.mem_map, List.mem_range, not_exists, not_and]
  intro i _ h
  exact (sampleName_facts i 0).2 h

/-- Creating the domain `x` in a sample store with fewer than 256 domains returns the id equal
to the number of domains and leaves one domain more. -/
theorem tcDomains_create_x (k : Nat) (hk : k < 256) :
    ((tcDomains k).create_clock_domain "x").value? = some ⟨k⟩ ∧
    (((tcDomains k).create_clock_domain "x").store?.map
      (fun tc => tc.clock_domains.length)) = some (k + 1) := by
  have hlen : (tcDomains k).domain_ids_.length = k := tcDomains_length k
  rw [TimingConstraints.create_clock_domain_new _ _ (tcDomains_WF k) (by rw [hlen]; exact hk)
    (tcDomains_x_not_mem k), hlen]
  simp [Outcome.value?, Outcome.store?, TimingConstraints.clock_domains, hlen]

/-- The store `tcOverflow` is `tcDomains 255` after `create_clock_domain("x")`. -/
theorem tcDomains_create_x_overflow :
    (tcDomains 255).create_clock_domain "x" = .ok DomainId.INVALID tcOverflow := by
  have hlen : (tcDomains 255).domain_ids_.length = 255 := tcDomains_length 255
  rw [TimingConstraints.create_clock_domain_new _ _ (tcDomains_WF 255) (by rw [hlen]; decide)
    (tcDomains_x_not_mem 255), hlen]
  rfl

/-- The names of the store `tcOverflow`: `sampleName i` at each index below 255, and `x` at the
index 255. -/
theorem tcOverflow_names :
    (∀ i, i < 255 → tcOverflow.clock_domain_name ⟨i⟩ = some (sampleName i)) ∧
    tcOverflow.clock_domain_name ⟨255⟩ = some "x" := by
  have gen : ∀ k : Nat,
      (∀ i, i < k → ((List.range k).map sampleName ++ ["x"])[i]? = some (sampleName i)) ∧
      ((List.range k).map sampleName ++ ["x"])[k]? = some "x" := by
    intro k
    constructor
    · intro i hi
      rw [List.getElem?_append_left (by simpa using hi), List.getElem?_map,
        List.getElem?_range hi]
      rfl
    · rw [List.getElem?_append_right (by simp)]
      simp
  exact gen 255

/-- In the store `tcOverflow` the search for the name `x` ends at the domain with the id 255,
which is the value that stands for "not found". -/
theorem tcOverflow_find_x : tcOverflow.find_clock_domain "x" = some DomainId.INVALID := by
  unfold TimingConstraints.find_clock_domain TimingConstraints.clock_domains
  have hids : tcOverflow.domain_ids_ = (List.range 255).map DomainId.mk ++ [⟨255⟩] := rfl
  rw [hids]
  refine TimingConstraints.find_clock_domain_loop_found_last tcOverflow "x" _ ⟨255⟩ ?_
    tcOverflow_names.2
  intro id hid
  obtain ⟨i, hi, rfl⟩ := List.mem_map.mp hid
  exact ⟨sampleName i, tcOverflow_names.1 i (List.mem_range.mp hi), (sampleName_facts i 0).2⟩

/-- When the search for `name` returns the sentinel and the domain with the new id
`DomainId(domain_ids_.size())` is, after the vectors have grown, named otherwise,
`create_clock_domain(name)` fails its first assertion. -/
theorem TimingConstraints.create_clock_domain_wrapped_id (tc : TimingConstraints)
    (name n : String) (hfind : tc.find_clock_domain name = some DomainId.INVALID)
    (hn : ({ tc with
            domain_ids_ := tc.domain_ids_ ++ [DomainId.ofSize tc.domain_ids_.length]
            domain_names_ := tc.domain_names_ ++ [name]
            domain_sources_ := tc.domain_sources_ ++ [NodeId.INVALID] } :
          TimingConstraints).clock_domain_name (DomainId.ofSize tc.domain_ids_.length) = some n)
    (hne : n ≠ name) :
    tc.create_clock_domain name =
      .assertion_failed
        { tc with
          domain_ids_ := tc.domain_ids_ ++ [DomainId.ofSize tc.domain_ids_.length]
          domain_names_ := tc.domain_names_ ++ [name]
          domain_sources_ := tc.domain_sources_ ++ [NodeId.INVALID] } := by
  have hinv : DomainId.INVALID.toBool = false := by decide
  unfold TimingConstraints.create_clock_domain
  simp only [hfind, hinv, hn, hne, Bool.not_false, if_true, if_false]

/-- C16: `create_clock_domain` has no overflow check. On the store with the 255 domains `c`,
`cc`, ... (ids 0 to 254), `create_clock_domain` with the new name `x` does not fail: it returns
the id 255, which is the invalid sentinel `DomainId::INVALID()`, and leaves the store
`tcOverflow` with 256 domains. In that store `find_clock_domain("x")` returns the sentinel, so a
further `create_clock_domain("x")` takes the name for a new one, gives it the id
`DomainId(256)`, which is 0, and fails the assertion that domain 0 is named `x`. -/
theorem TimingConstraints.create_clock_domain_returns_sentinel :
    (tcDomains 255).clock_domains.length = 255 ∧
    "x" ∉ (tcDomains 255).domain_names_ ∧
    ((tcDomains 255).create_clock_domain "x").value? = some DomainId.INVALID ∧
    (((tcDomains 255).create_clock_domain "x").store?.map
      (fun tc => tc.clock_domains.length)) = some 256 ∧
    (tcDomains 255).create_clock_domain "x" = .ok DomainId.INVALID tcOverflow ∧
    tcOverflow.find_clock_domain "x" = some DomainId.INVALID ∧
    ∃ tc2, tcOverflow.create_clock_domain "x" = .assertion_failed tc2 := by
  refine ⟨tcDomains_length 255, tcDomains_x_not_mem 255, (tcDomains_create_x 255 (by decide)).1,
    (tcDomains_create_x 255 (by decide)).2, tcDomains_create_x_overflow, tcOverflow_find_x, ?_⟩
  have hlen : ∀ k : Nat,
      ((List.range k).map DomainId.mk ++ [DomainId.mk k]).length = k + 1 := by
    intro k
    simp
  have hid : DomainId.ofSize tcOverflow.domain_ids_.length = ⟨0⟩ := by
    have h : tcOverflow.domain_ids_.length = 256 := hlen 255
    rw [h]
    rfl
  have hget : ∀ k : Nat, 0 < k →
      (((List.range k).map sampleName ++ ["x"]) ++ ["x"])[0]? = some (sampleName 0) := by
    intro k hk
    rw [List.append_assoc, List.getElem?_append_left (by simpa using hk), List.getElem?_map,
      List.getElem?_range hk]
    rfl
  refine ⟨_, TimingConstraints.create_clock_domain_wrapped_id tcOverflow "x" (sampleName 0)
    tcOverflow_find_x ?_ (sampleName_facts 0 0).2⟩
  rw [hid]
  exact hget 255 (by decide)

/-- On a consistent store with fewer than 255 domains, none of them named `name`,
`create_clock_domain` returns (both assertions pass) with the id equal to the number of domains,
which is not the invalid sentinel and not an id of an existing domain. -/
theorem TimingConstraints.create_clock_domain_fresh_id (tc : TimingConstraints) (name : String)
    (hwf : tc.WF) (hlen : tc.domain_ids_.length < 255) (hname : name ∉ tc.domain_names_) :
    ∃ tc1, tc.create_clock_domain name = .ok ⟨tc.domain_ids_.length⟩ tc1 ∧
      (⟨tc.domain_ids_.length⟩ : DomainId) ≠ DomainId.INVALID ∧
      (⟨tc.domain_ids_.length⟩ : DomainId) ∉ tc.clock_domains ∧
      tc1.clock_domains = tc.clock_domains ++ [⟨tc.domain_ids_.length⟩] := by
  refine ⟨_, TimingConstraints.create_clock_domain_new tc name hwf (by omega) hname, ?_, ?_, rfl⟩
  · intro h
    have h2 := congrArg DomainId.id h
    simp only [DomainId.INVALID] at h2
    omega
  · intro hmem
    have := (hwf.name_of_mem _ hmem).1
    simp at this

/-- On the store with the two domains `c` and `cc` the new name `x` gets the id 2. -/
theorem TimingConstraints.create_clock_domain_fresh_id_witness :
    (tcDomains 2).WF ∧ (tcDomains 2).domain_ids_.length < 255 ∧
    "x" ∉ (tcDomains 2).domain_names_ ∧
    ∃ tc1, (tcDomains 2).create_clock_domain "x" = .ok ⟨(tcDomains 2).domain_ids_.length⟩ tc1 ∧
      (⟨(tcDomains 2).domain_ids_.length⟩ : DomainId) ≠ DomainId.INVALID ∧
      (⟨(tcDomains 2).domain_ids_.length⟩ : DomainId) ∉ (tcDomains 2).clock_domains ∧
      tc1.clock_domains = (tcDomains 2).clock_domains ++ [⟨(tcDomains 2).domain_ids_.length⟩] :=
  ⟨tcDomains_WF 2, by decide, by decide,
   TimingConstraints.create_clock_domain_fresh_id (tcDomains 2) "x" (tcDomains_WF 2) (by decide)
     (by decide)⟩

/-- C18: `is_virtual_clock(d)` is true exactly when `clock_domain_source_node(d)` is the invalid
node; a domain just created by `create_clock_domain` (new name, consistent store with fewer than
256 domains) is virtual; and `set_clock_domain_source(n, d)` with a valid node `n` on an existing
domain `d` returns, after which `d` is not virtual, `clock_domain_source_node(d)` is `n`, and the
source node of every other domain is as before. -/
theorem TimingConstraints.virtual_clock_iff_no_source (tc : TimingConstraints) (d : DomainId)
    (n : NodeId) (name : String) :
    tc.is_virtual_clock d =
      (tc.clock_domain_source_node d).map (fun s => decide (s = NodeId.INVALID)) ∧
    (tc.WF → tc.domain_ids_.length < 256 → name ∉ tc.domain_names_ →
      ∃ id tc1, tc.create_clock_domain name = .ok id tc1 ∧
        tc1.clock_domain_source_node id = some NodeId.INVALID ∧
        tc1.is_virtual_clock id = some true) ∧
    (n ≠ NodeId.INVALID → d.id < tc.domain_sources_.length →
      ∃ tc1, tc.set_clock_domain_source n d = .ok () tc1 ∧
        tc1.is_virtual_clock d = some false ∧
        tc1.clock_domain_source_node d = some n ∧
        ∀ d2, d2 ≠ d → tc1.clock_domain_source_node d2 = tc.clock_domain_source_node d2) := by
  refine ⟨?_, ?_, ?_⟩
  · unfold TimingConstraints.is_virtual_clock
    cases tc.clock_domain_source_node d with
    | none => rfl
    | some s => by_cases h : s = NodeId.INVALID <;> simp [NodeId.toBool, h]
  · intro hwf hlen hname
    refine ⟨_, _, TimingConstraints.create_clock_domain_new tc name hwf hlen hname, ?_⟩
    have hs : TimingConstraints.clock_domain_source_node
        { tc with
          domain_ids_ := tc.domain_ids_ ++ [⟨tc.domain_ids_.length⟩]
          domain_names_ := tc.domain_names_ ++ [name]
          domain_sources_ := tc.domain_sources_ ++ [NodeId.INVALID] }
        ⟨tc.domain_ids_.length⟩ = some NodeId.INVALID := by
      simp [TimingConstraints.clock_domain_source_node, ← hwf.2.2]
    refine ⟨hs, ?_⟩
    unfold TimingConstraints.is_virtual_clock
    rw [hs]
    decide
  · intro hn hd
    unfold TimingConstraints.set_clock_domain_source
    rw [if_pos hd]
    refine ⟨_, rfl, ?_, ?_, ?_⟩
    · simp [TimingConstraints.is_virtual_clock, TimingConstraints.clock_domain_source_node,
        List.getElem?_set_self hd, NodeId.toBool, hn]
    · simp [TimingConstraints.clock_domain_source_node, List.getElem?_set_self hd]
    · intro d2 hd2
      have hne : d.id ≠ d2.id := by
        intro h
        apply hd2
        cases d; cases d2
        simp_all
      simp [TimingConstraints.clock_domain_source_node, List.getElem?_set_ne hne]

/-- Witness for C18 on the store with the two domains `c` and `cc`: the new domain `x` is
virtual, and node 7 becomes the source of domain 1 while domain 0 stays virtual. -/
theorem TimingConstraints.virtual_clock_iff_no_source_witness :
    (tcDomains 2).WF ∧ (tcDomains 2).domain_ids_.length < 256 ∧
    "x" ∉ (tcDomains 2).domain_names_ ∧ (⟨7⟩ : NodeId) ≠ NodeId.INVALID ∧
    (⟨1⟩ : DomainId).id < (tcDomains 2).domain_sources_.length ∧
    (∃ id tc1, (tcDomains 2).create_clock_domain "x" = .ok id tc1 ∧
      tc1.clock_domain_source_node id = some NodeId.INVALID ∧
      tc1.is_virtual_clock id = some true) ∧
    (∃ tc1, (tcDomains 2).set_clock_domain_source ⟨7⟩ ⟨1⟩ = .ok () tc1 ∧
      tc1.is_virtual_clock ⟨1⟩ = some false ∧
      tc1.clock_domain_source_node ⟨1⟩ = some ⟨7⟩ ∧
      ∀ d2, d2 ≠ ⟨1⟩ →
        tc1.clock_domain_source_node d2 = (tcDomains 2).clock_domain_source_node d2) :=
  ⟨tcDomains_WF 2, by decide, by decide, by decide, by decide,
   (TimingConstraints.virtual_clock_iff_no_source (tcDomains 2) ⟨1⟩ ⟨7⟩ "x").2.1
     (tcDomains_WF 2) (by decide) (by decide),
   (TimingConstraints.virtual_clock_iff_no_source (tcDomains 2) ⟨1⟩ ⟨7⟩ "x").2.2
     (by decide) (by decide)⟩

/-! ## The composite visitor and reset idempotence -/

/-- C11: on two instrumented member visitors sharing one log, each of the seven hooks of
`SetupHoldAnalysis` appends exactly two calls to the log: first the same hook on the setup
visitor, then the same hook on the hold visitor, both with the arguments the composite hook
received; each member has received exactly one call more. -/
theorem SetupHoldAnalysis.hooks_delegate_setup_then_hold {TG TC DC : Type} (tg : TG) (tc : TC)
    (dc : DC) (n : NodeId) (e : EdgeId) (s h : Nat) (log : List (Member × HookCall TG TC DC)) :
    SetupHoldAnalysis.do_reset_node (recordingVisitor .setup_visitor_)
        (recordingVisitor .hold_visitor_) n ⟨s, h⟩ log =
      (⟨s + 1, h + 1⟩, log ++ [(.setup_visitor_, .do_reset_node n),
        (.hold_visitor_, .do_reset_node n)]) ∧
    SetupHoldAnalysis.do_reset_edge (recordingVisitor .setup_visitor_)
        (recordingVisitor .hold_visitor_) e ⟨s, h⟩ log =
      (⟨s + 1, h + 1⟩, log ++ [(.setup_visitor_, .do_reset_edge e),
        (.hold_visitor_, .do_reset_edge e)]) ∧
    SetupHoldAnalysis.do_arrival_pre_traverse_node (recordingVisitor .setup_visitor_)
        (recordingVisitor .hold_visitor_) tg tc n ⟨s, h⟩ log =
      (⟨s + 1, h + 1⟩, log ++ [(.setup_visitor_, .do_arrival_pre_traverse_node tg tc n),
        (.hold_visitor_, .do_arrival_pre_traverse_node tg tc n)]) ∧
    SetupHoldAnalysis.do_required_pre_traverse_node (recordingVisitor .setup_visitor_)
        (recordingVisitor .hold_visitor_) tg tc n ⟨s, h⟩ log =
      (⟨s + 1, h + 1⟩, log ++ [(.setup_visitor_, .do_required_pre_traverse_node tg tc n),
        (.hold_visitor_, .do_required_pre_traverse_node tg tc n)]) ∧
    SetupHoldAnalysis.do_arrival_traverse_node (recordingVisitor .setup_visitor_)
        (recordingVisitor .hold_visitor_) tg tc dc n ⟨s, h⟩ log =
      (⟨s + 1, h + 1⟩, log ++ [(.setup_visitor_, .do_arrival_traverse_node tg tc dc n),
        (.hold_visitor_, .do_arrival_traverse_node tg tc dc n)]) ∧
    SetupHoldAnalysis.do_required_traverse_node (recordingVisitor .setup_visitor_)
        (recordingVisitor .hold_visitor_) tg tc dc n ⟨s, h⟩ log =
      (⟨s + 1, h + 1⟩, log ++ [(.setup_visitor_, .do_required_traverse_node tg tc dc n),
        (.hold_visitor_, .do_required_traverse_node tg tc dc n)]) ∧
    SetupHoldAnalysis.do_slack_traverse_edge (recordingVisitor .setup_visitor_)
        (recordingVisitor .hold_visitor_) tg dc e ⟨s, h⟩ log =
      (⟨s + 1, h + 1⟩, log ++ [(.setup_visitor_, .do_slack_traverse_edge tg dc e),
        (.hold_visitor_, .do_slack_traverse_edge tg dc e)]) := by
  simp [SetupHoldAnalysis.do_reset_node, SetupHoldAnalysis.do_reset_edge,
    SetupHoldAnalysis.do_arrival_pre_traverse_node,
    SetupHoldAnalysis.do_required_pre_traverse_node, SetupHoldAnalysis.do_arrival_traverse_node,
    SetupHoldAnalysis.do_required_traverse_node, SetupHoldAnalysis.do_slack_traverse_edge,
    recordingVisitor]

/-- The method `FullHoldTimingAnalyzer::update_timing_impl` through the components of the pairs
its passes return. -/
theorem FullHoldTimingAnalyzer.update_timing_impl_eq {TG TC DC V W : Type}
    (w : GraphWalker TG TC DC V W) (tg : TG) (tc : TC) (dc : DC) (v : V) (s : W) :
    FullHoldTimingAnalyzer.update_timing_impl w tg tc dc v s =
      let r1 := w.do_reset tg v s
      let r2 := w.do_arrival_pre_traversal tg tc r1.1 r1.2
      let r3 := w.do_arrival_traversal tg tc dc r2.1 r2.2
      let r4 := w.do_required_pre_traversal tg tc r3.1 r3.2
      let r5 := w.do_required_traversal tg tc dc r4.1 r4.2
      w.do_update_slack tg dc r5.1 r5.2 := rfl

/-- Under the assumptions of C19, the tag store after `update_timing_impl` does not depend on the
tag store and the walker state before the call. -/
theorem FullHoldTimingAnalyzer.update_timing_impl_independent {TG TC DC V W : Type}
    (w : GraphWalker TG TC DC V W) (tg : TG) (tc : TC) (dc : DC) (empty : V)
    (hreset : ∀ v s, (w.do_reset tg v s).1 = empty)
    (harr_pre : ∀ v s s2,
      (w.do_arrival_pre_traversal tg tc v s).1 = (w.do_arrival_pre_traversal tg tc v s2).1)
    (harr : ∀ v s s2,
      (w.do_arrival_traversal tg tc dc v s).1 = (w.do_arrival_traversal tg tc dc v s2).1)
    (hreq_pre : ∀ v s s2,
      (w.do_required_pre_traversal tg tc v s).1 = (w.do_required_pre_traversal tg tc v s2).1)
    (hreq : ∀ v s s2,
      (w.do_required_traversal tg tc dc v s).1 = (w.do_required_traversal tg tc dc v s2).1)
    (hslack : ∀ v s s2, (w.do_update_slack tg dc v s).1 = (w.do_update_slack tg dc v s2).1)
    (v v2 : V) (s s2 : W) :
    (FullHoldTimingAnalyzer.update_timing_impl w tg tc dc v s).1 =
      (FullHoldTimingAnalyzer.update_timing_impl w tg tc dc v2 s2).1 := by
  have key : ∀ (u : V) (t : W),
      (FullHoldTimingAnalyzer.update_timing_impl w tg tc dc u t).1 =
        (w.do_update_slack tg dc
          (w.do_required_traversal tg tc dc
            (w.do_required_pre_traversal tg tc
              (w.do_arrival_traversal tg tc dc
                (w.do_arrival_pre_traversal tg tc empty s).1 s).1 s).1 s).1 s).1 := by
    intro u t
    simp only [FullHoldTimingAnalyzer.update_timing_impl_eq]
    rw [hslack _ _ s, hreq _ _ s, hreq_pre _ _ s, harr _ _ s, harr_pre _ _ s, hreset]
  rw [key v s, key v2 s2]

/-- C19: for a fixed graph, constraints and delay calculator, if the reset pass leaves the same
(empty) tag store whatever it held before, and the tag store each later pass leaves is a function
of the graph, constraints, delay calculator and the tag store it is handed (not of the walker's
own state), then the tag store after two consecutive `update_timing_impl` calls on
`FullHoldTimingAnalyzer` equals the one after the first call, and the tag store after a call is
the same for every tag store and walker state before the call. -/
theorem FullHoldTimingAnalyzer.update_timing_reset_idempotent {TG TC DC V W : Type}
    (w : GraphWalker TG TC DC V W) (tg : TG) (tc : TC) (dc : DC) (empty : V)
    (hreset : ∀ v s, (w.do_reset tg v s).1 = empty)
    (harr_pre : ∀ v s s2,
      (w.do_arrival_pre_traversal tg tc v s).1 = (w.do_arrival_pre_traversal tg tc v s2).1)
    (harr : ∀ v s s2,
      (w.do_arrival_traversal tg tc dc v s).1 = (w.do_arrival_traversal tg tc dc v s2).1)
    (hreq_pre : ∀ v s s2,
      (w.do_required_pre_traversal tg tc v s).1 = (w.do_required_pre_traversal tg tc v s2).1)
    (hreq : ∀ v s s2,
      (w.do_required_traversal tg tc dc v s).1 = (w.do_required_traversal tg tc dc v s2).1)
    (hslack : ∀ v s s2, (w.do_update_slack tg dc v s).1 = (w.do_update_slack tg dc v s2).1)
    (v v2 : V) (s s2 : W) :
    (FullHoldTimingAnalyzer.update_timing_impl w tg tc dc
        (FullHoldTimingAnalyzer.update_timing_impl w tg tc dc v s).1
        (FullHoldTimingAnalyzer.update_timing_impl w tg tc dc v s).2).1 =
      (FullHoldTimingAnalyzer.update_timing_impl w tg tc dc v s).1 ∧
    (FullHoldTimingAnalyzer.update_timing_impl w tg tc dc v2 s2).1 =
      (FullHoldTimingAnalyzer.update_timing_impl w tg tc dc v s).1 :=
  ⟨FullHoldTimingAnalyzer.update_timing_impl_independent w tg tc dc empty hreset harr_pre harr
      hreq_pre hreq hslack _ _ _ _,
   FullHoldTimingAnalyzer.update_timing_impl_independent w tg tc dc empty hreset harr_pre harr
      hreq_pre hreq hslack _ _ _ _⟩

/-- Witness for C19 on the instrumented walker with the effects `resettingEffects`: whatever the
visitor held (5 or 9) and whatever the log, one call and two calls both leave 11111. -/
theorem FullHoldTimingAnalyzer.update_timing_reset_idempotent_witness :
    (FullHoldTimingAnalyzer.update_timing_impl (recordingWalker resettingEffects) "tg" "tc" "dc"
        (FullHoldTimingAnalyzer.update_timing_impl (recordingWalker resettingEffects)
          "tg" "tc" "dc" 5 []).1
        (FullHoldTimingAnalyzer.update_timing_impl (recordingWalker resettingEffects)
          "tg" "tc" "dc" 5 []).2).1 =
      (FullHoldTimingAnalyzer.update_timing_impl (recordingWalker resettingEffects)
        "tg" "tc" "dc" 5 []).1 ∧
    (FullHoldTimingAnalyzer.update_timing_impl (recordingWalker resettingEffects) "tg" "tc" "dc"
        9 [WalkerCall.do_reset "tg" 0]).1 =
      (FullHoldTimingAnalyzer.update_timing_impl (recordingWalker resettingEffects)
        "tg" "tc" "dc" 5 []).1 ∧
    (FullHoldTimingAnalyzer.update_timing_impl (recordingWalker resettingEffects)
      "tg" "tc" "dc" 5 []).1 = 11111 :=
  ⟨(FullHoldTimingAnalyzer.update_timing_reset_idempotent (recordingWalker resettingEffects)
      "tg" "tc" "dc" 0 (fun _ _ => rfl) (fun _ _ _ => rfl) (fun _ _ _ => rfl)
      (fun _ _ _ => rfl) (fun _ _ _ => rfl) (fun _ _ _ => rfl) 5 9 []
      [WalkerCall.do_reset "tg" 0]).1,
   (FullHoldTimingAnalyzer.update_timing_reset_idempotent (recordingWalker resettingEffects)
      "tg" "tc" "dc" 0 (fun _ _ => rfl) (fun _ _ _ => rfl) (fun _ _ _ => rfl)
      (fun _ _ _ => rfl) (fun _ _ _ => rfl) (fun _ _ _ => rfl) 5 9 []
      [WalkerCall.do_reset "tg" 0]).2,
   by decide⟩

/-! ## Echo writer -/

/-- The text `write_tags` appends for one tag with a valid time is `tag_line`. -/
theorem Echo.write_tags_cons (show_float : F32 → String) (os type : String)
    (tag : Echo.TimingTag) (tags : List Echo.TimingTag) (node_id : NodeId) :
    Echo.write_tags show_float os type (tag :: tags) node_id =
      if tag.type = Echo.TagType.SLACK then none
      else if tag.time.value.isnan then Echo.write_tags show_float os type tags node_id
      else Echo.write_tags show_float (os ++ Echo.tag_line show_float type node_id tag) type tags
        node_id := by
  rw [Echo.write_tags]
  by_cases ht : tag.type = Echo.TagType.SLACK
  · simp [ht]
  · by_cases hn : tag.time.value.isnan = true
    · simp [ht, hn]
    · by_cases hl : tag.launch_clock_domain.toBool = true <;>
        by_cases hc : tag.capture_clock_domain.toBool = true <;>
        simp [ht, hn, hl, hc, Echo.tag_line, String.append_assoc]

/-- The text `write_slacks` appends for one tag with a valid time is `slack_line`. -/
theorem Echo.write_slacks_cons (show_float : F32 → String) (os type : String)
    (tag : Echo.TimingTag) (tags : List Echo.TimingTag) (edge : EdgeId) :
    Echo.write_slacks show_float os type (tag :: tags) edge =
      if tag.type ≠ Echo.TagType.SLACK then none
      else if tag.time.value.isnan then Echo.write_slacks show_float os type tags edge
      else Echo.write_slacks show_float (os ++ Echo.slack_line show_float type edge tag) type tags
        edge := by
  rw [Echo.write_slacks]
  by_cases ht : tag.type = Echo.TagType.SLACK
  · by_cases hn : tag.time.value.isnan = true
    · simp [ht, hn]
    · by_cases hl : tag.launch_clock_domain.toBool = true <;>
        by_cases hc : tag.capture_clock_domain.toBool = true <;>
        simp [ht, hn, hl, hc, Echo.slack_line, String.append_assoc]
  · simp [ht]

/-- The concatenation `String.join` of a list with a first element. -/
theorem string_join_cons (a : String) (l : List String) :
    String.join (a :: l) = a ++ String.join l := by
  rw [String.join_eq, String.join_eq]
  apply String.ext
  simp

/-- C20: when no tag of the range has kind SLACK, `write_tags` returns, and what it appends to the
stream is the concatenation, in the range's order, of one line (`tag_line`, ended by a newline)
for each tag whose time is not NaN, and nothing for the tags whose time is NaN; otherwise its
assertion fails. `write_slacks` does the same with `slack_line` when every tag of the range has
kind SLACK. -/
theorem Echo.write_tags_write_slacks_lines (show_float : F32 → String) (os type : String)
    (tags : List Echo.TimingTag) (node_id : NodeId) (edge : EdgeId) :
    Echo.write_tags show_float os type tags node_id =
      (if tags.all (fun t => decide (t.type ≠ Echo.TagType.SLACK)) then
        some (os ++ String.join
          ((tags.filter (fun t => !t.time.value.isnan)).map
            (Echo.tag_line show_float type node_id)))
      else none) ∧
    Echo.write_slacks show_float os type tags edge =
      (if tags.all (fun t => decide (t.type = Echo.TagType.SLACK)) then
        some (os ++ String.join
          ((tags.filter (fun t => !t.time.value.isnan)).map
            (Echo.slack_line show_float type edge)))
      else none) := by
  constructor
  · induction tags generalizing os with
    | nil => simp [Echo.write_tags, String.join]
    | cons tag tags ih =>
      rw [Echo.write_tags_cons]
      by_cases ht : tag.type = Echo.TagType.SLACK
      · simp [ht]
      · by_cases hn : tag.time.value.isnan = true
        · simp [ht, hn, ih]
        · rw [if_neg ht, if_neg hn, ih]
          simp [ht, hn, string_join_cons, String.append_assoc]
  · induction tags generalizing os with
    | nil => simp [Echo.write_slacks, String.join]
    | cons tag tags ih =>
      rw [Echo.write_slacks_cons]
      by_cases ht : tag.type = Echo.TagType.SLACK
      · by_cases hn : tag.time.value.isnan = true
        · simp [ht, hn, ih]
        · rw [if_neg (not_not.mpr ht), if_neg hn, ih]
          simp [ht, hn, string_join_cons, String.append_assoc]
      · simp [ht]

/-- Witness for C20: of the three tags `echoTags` the second has a NaN time, so `write_tags`
writes two lines; of the two tags `echoSlacks` the second has a NaN time, so `write_slacks`
writes one line. -/
theorem Echo.write_tags_write_slacks_lines_witness :
    Echo.write_tags showBits "" "SETUP_DATA_ARRIVAL" echoTags ⟨4⟩ =
      some (" type: SETUP_DATA_ARRIVAL node: 4 launch_domain: 0 capture_domain: -1" ++
        " time: 1065353216\n" ++
        " type: SETUP_DATA_ARRIVAL node: 4 launch_domain: -1 capture_domain: -1" ++
        " time: 1073741824\n") ∧
    Echo.write_slacks showBits "" "SETUP_SLACK" echoSlacks ⟨2⟩ =
      some (" type: SETUP_SLACK edge: 2 launch_domain: 0 capture_domain: 1" ++
        " slack: 1065353216\n") ∧
    Echo.write_tags showBits "" "SETUP_DATA_ARRIVAL" echoSlacks ⟨4⟩ = none ∧
    Echo.write_slacks showBits "" "SETUP_SLACK" echoTags ⟨2⟩ = none :=
  ⟨(Echo.write_tags_write_slacks_lines showBits "" "SETUP_DATA_ARRIVAL" echoTags ⟨4⟩ ⟨2⟩).1.trans
      (by rfl),
   (Echo.write_tags_write_slacks_lines showBits "" "SETUP_SLACK" echoSlacks ⟨4⟩ ⟨2⟩).2.trans
      (by rfl),
   (Echo.write_tags_write_slacks_lines showBits "" "SETUP_DATA_ARRIVAL" echoSlacks ⟨4⟩ ⟨2⟩).1.trans
      (by rfl),
   (Echo.write_tags_write_slacks_lines showBits "" "SETUP_SLACK" echoTags ⟨4⟩ ⟨2⟩).2.trans
      (by rfl)⟩

/-- What `write_tags` appends: the lines of the tags with a valid time, when no tag has kind
SLACK. -/
theorem Echo.write_tags_eq (show_float : F32 → String) (os type : String)
    (tags : List Echo.TimingTag) (node_id : NodeId) :
    Echo.write_tags show_float os type tags node_id =
      (if tags.all (fun t => decide (t.type ≠ Echo.TagType.SLACK)) then
        some (os ++ String.join
          ((tags.filter (fun t => !t.time.value.isnan)).map
            (Echo.tag_line show_float type node_id)))
      else none) := by
  induction tags generalizing os with
  | nil => simp [Echo.write_tags, String.join]
  | cons tag tags ih =>
    rw [Echo.write_tags_cons]
    by_cases ht : tag.type = Echo.TagType.SLACK
    · simp [ht]
    · by_cases hn : tag.time.value.isnan = true
      · simp [ht, hn, ih]
      · rw [if_neg ht, if_neg hn, ih]
        simp [ht, hn, string_join_cons, String.append_assoc]

/-- What `write_slacks` appends: the lines of the tags with a valid time, when every tag has kind
SLACK. -/
theorem Echo.write_slacks_eq (show_float : F32 → String) (os type : String)
    (tags : List Echo.TimingTag) (edge : EdgeId) :
    Echo.write_slacks show_float os type tags edge =
      (if tags.all (fun t => decide (t.type = Echo.TagType.SLACK)) then
        some (os ++ String.join
          ((tags.filter (fun t => !t.time.value.isnan)).map
            (Echo.slack_line show_float type edge)))
      else none) := by
  induction tags generalizing os with
  | nil => simp [Echo.write_slacks, String.join]
  | cons tag tags ih =>
    rw [Echo.write_slacks_cons]
    by_cases ht : tag.type = Echo.TagType.SLACK
    · by_cases hn : tag.time.value.isnan = true
      · simp [ht, hn, ih]
      · rw [if_neg (not_not.mpr ht), if_neg hn, ih]
        simp [ht, hn, string_join_cons, String.append_assoc]
    · simp [ht]

/-- The domain text the writers produce is the domain field of the echo format. -/
theorem Echo.domain_field_eq (d : DomainId) :
    (if d.toBool then toString d.id else "-1") = Echo.domain_field d := by
  unfold Echo.domain_field DomainId.toBool
  by_cases h : d = DomainId.INVALID <;> simp [h]

/-- C21: every line `write_tags` writes (one per tag with a non-NaN time, when its assertion
holds) has the form ` type: T node: N launch_domain: L capture_domain: C time: X` where `L` is
the launch domain id in decimal if the tag's launch domain is valid and `-1` if it is invalid,
and `C` is, independently, the capture domain id in decimal if valid and `-1` if invalid; the
same holds for the lines of `write_slacks` (with `edge:` and `slack:`). -/
theorem Echo.write_tags_write_slacks_domain_fields (show_float : F32 → String)
    (os type : String) (tags : List Echo.TimingTag) (node_id : NodeId) (edge : EdgeId) :
    (tags.all (fun t => decide (t.type ≠ Echo.TagType.SLACK)) = true →
      Echo.write_tags show_float os type tags node_id =
        some (os ++ String.join
          ((tags.filter (fun t => !t.time.value.isnan)).map (fun tag =>
            " type: " ++ type ++ " node: " ++ toString (to_size_t node_id.id) ++
            " launch_domain: " ++ Echo.domain_field tag.launch_clock_domain ++
            " capture_domain: " ++ Echo.domain_field tag.capture_clock_domain ++
            " time: " ++ show_float tag.time.value ++ "\n")))) ∧
    (tags.all (fun t => decide (t.type = Echo.TagType.SLACK)) = true →
      Echo.write_slacks show_float os type tags edge =
        some (os ++ String.join
          ((tags.filter (fun t => !t.time.value.isnan)).map (fun tag =>
            " type: " ++ type ++ " edge: " ++ toString (to_size_t edge.id) ++
            " launch_domain: " ++ Echo.domain_field tag.launch_clock_domain ++
            " capture_domain: " ++ Echo.domain_field tag.capture_clock_domain ++
            " slack: " ++ show_float tag.time.value ++ "\n")))) ∧
    Echo.domain_field DomainId.INVALID = "-1" ∧
    (∀ d : DomainId, d ≠ DomainId.INVALID → Echo.domain_field d = toString d.id) := by
  refine ⟨?_, ?_, rfl, ?_⟩
  · intro h
    rw [Echo.write_tags_eq, if_pos h]
    congr 4
    funext tag
    simp only [Echo.tag_line, Echo.domain_field_eq]
  · intro h
    rw [Echo.write_slacks_eq, if_pos h]
    congr 4
    funext tag
    simp only [Echo.slack_line, Echo.domain_field_eq]
  · intro d hd
    simp [Echo.domain_field, hd]

/-- Witness for C21: the four combinations of a valid and an invalid launch and capture domain,
on the tags `echoTags` and `echoTagsCapture` and the slacks `echoSlacks`. -/
theorem Echo.write_tags_write_slacks_domain_fields_witness :
    Echo.write_tags showBits "" "T" echoTags ⟨4⟩ =
      some (" type: T node: 4 launch_domain: 0 capture_domain: -1 time: 1065353216\n" ++
        " type: T node: 4 launch_domain: -1 capture_domain: -1 time: 1073741824\n") ∧
    Echo.write_tags showBits "" "T" echoTagsCapture ⟨4⟩ =
      some (" type: T node: 4 launch_domain: -1 capture_domain: 1 time: 1065353216\n" ++
        " type: T node: 4 launch_domain: 0 capture_domain: 1 time: 1073741824\n") ∧
    Echo.write_slacks showBits "" "S" echoSlacks ⟨2⟩ =
      some " type: S edge: 2 launch_domain: 0 capture_domain: 1 slack: 1065353216\n" :=
  ⟨((Echo.write_tags_write_slacks_domain_fields showBits "" "T" echoTags ⟨4⟩ ⟨2⟩).1
      (by decide)).trans (by rfl),
   ((Echo.write_tags_write_slacks_domain_fields showBits "" "T" echoTagsCapture ⟨4⟩ ⟨2⟩).1
      (by decide)).trans (by rfl),
   ((Echo.write_tags_write_slacks_domain_fields showBits "" "S" echoSlacks ⟨4⟩ ⟨2⟩).2.1
      (by decide)).trans (by rfl)⟩

/-! ## Folding a sequence of arrival updates -/

/-- Folding `max_arr` over further updates, from a tag that holds the first maximum of the
updates seen so far, ends with the first maximum of all updates. -/
theorem TimingTag.foldlM_max_arr_first_max (rest : List (Time × TimingTag)) :
    ∀ (t : TimingTag) (pre post : List (Time × TimingTag)) (p : Time × TimingTag),
      t.arr_time = p.1 → t.launch_node = p.2.launch_node → p.1.valid = true →
      (∀ q ∈ rest, q.1.valid = true ∧ q.2.clock_domain = t.clock_domain) →
      (∀ q ∈ pre, F32.lt q.1.value p.1.value = true) →
      (∀ q ∈ post, F32.le q.1.value p.1.value = true) →
      ∃ pre2 p2 post2, pre ++ p :: post ++ rest = pre2 ++ p2 :: post2 ∧
        (∀ q ∈ pre2, F32.lt q.1.value p2.1.value = true) ∧
        (∀ q ∈ post2, F32.le q.1.value p2.1.value = true) ∧
        rest.foldlM (fun c q => c.max_arr q.1 q.2) t =
          some { t with arr_time := p2.1, launch_node := p2.2.launch_node } := by
  induction rest with
  | nil =>
    intro t pre post p ha hn _ _ hpre hpost
    refine ⟨pre, p, post, by simp, hpre, hpost, ?_⟩
    cases t
    simp_all
  | cons q r ih =>
    intro t pre post p ha hn hv hrest hpre hpost
    have hq := hrest q (List.mem_cons_self _ _)
    have hr : ∀ x ∈ r, x.1.valid = true ∧ x.2.clock_domain = t.clock_domain :=
      fun x hx => hrest x (List.mem_cons_of_mem _ hx)
    have hstep := TimingTag.max_arr_of_domain_eq (t := t) (b := q.2) q.1 hq.2.symm
    have htv : t.arr_time.valid = true := by rw [ha]; exact hv
    simp only [List.foldlM_cons, hstep, htv, Bool.not_true, Bool.false_or, Option.bind_eq_bind,
      Option.some_bind]
    by_cases hgt : F32.gt q.1.value t.arr_time.value = true
    · rw [if_pos hgt]
      obtain ⟨pre2, p2, post2, h1, h2, h3, h4⟩ :=
        ih { t with arr_time := q.1, launch_node := q.2.launch_node } (pre ++ p :: post) [] q
          rfl rfl hq.1 hr
          (by
            intro x hx
            rw [ha] at hgt
            rcases List.mem_append.1 hx with hx | hx
            · have := hpre x hx
              simp only [F32.lt, F32.gt, Bool.and_eq_true, Bool.not_eq_true',
                decide_eq_true_eq] at this hgt ⊢
              exact ⟨⟨this.1.1, hgt.1.1⟩, by omega⟩
            · rcases List.mem_cons.1 hx with hx | hx
              · subst hx
                simp only [F32.lt, F32.gt, Bool.and_eq_true, Bool.not_eq_true',
                  decide_eq_true_eq] at hgt ⊢
                exact ⟨⟨hgt.1.2, hgt.1.1⟩, hgt.2⟩
              · have := hpost x hx
                simp only [F32.lt, F32.le, F32.gt, Bool.and_eq_true, Bool.not_eq_true',
                  decide_eq_true_eq] at this hgt ⊢
                exact ⟨⟨this.1.1, hgt.1.1⟩, by omega⟩)
          (by simp)
      exact ⟨pre2, p2, post2, by simpa [List.append_assoc] using h1, h2, h3, h4⟩
    · rw [if_neg hgt]
      obtain ⟨pre2, p2, post2, h1, h2, h3, h4⟩ :=
        ih t pre (post ++ [q]) p ha hn hv hr hpre
          (by
            intro x hx
            rcases List.mem_append.1 hx with hx | hx
            · exact hpost x hx
            · simp only [List.mem_singleton] at hx
              subst hx
              rw [ha] at hgt
              have hxv := hq.1
              simp only [F32.le, F32.gt, Time.valid, Time.value, Bool.and_eq_true,
                Bool.not_eq_true', decide_eq_true_eq, not_and, not_lt] at hgt hv hxv ⊢
              exact ⟨⟨hxv, hv⟩, hgt ⟨hxv, hv⟩⟩)
      exact ⟨pre2, p2, post2, by simpa [List.append_assoc] using h1, h2, h3, h4⟩

/-- Folding `min_arr` over further updates, from a tag that holds the first minimum of the
updates seen so far, ends with the first minimum of all updates. -/
theorem TimingTag.foldlM_min_arr_first_min (rest : List (Time × TimingTag)) :
    ∀ (t : TimingTag) (pre post : List (Time × TimingTag)) (p : Time × TimingTag),
      t.arr_time = p.1 → t.launch_node = p.2.launch_node → p.1.valid = true →
      (∀ q ∈ rest, q.1.valid = true ∧ q.2.clock_domain = t.clock_domain) →
      (∀ q ∈ pre, F32.gt q.1.value p.1.value = true) →
      (∀ q ∈ post, F32.ge q.1.value p.1.value = true) →
      ∃ pre2 p2 post2, pre ++ p :: post ++ rest = pre2 ++ p2 :: post2 ∧
        (∀ q ∈ pre2, F32.gt q.1.value p2.1.value = true) ∧
        (∀ q ∈ post2, F32.ge q.1.value p2.1.value = true) ∧
        rest.foldlM (fun c q => c.min_arr q.1 q.2) t =
          some { t with arr_time := p2.1, launch_node := p2.2.launch_node } := by
  induction rest with
  | nil =>
    intro t pre post p ha hn _ _ hpre hpost
    refine ⟨pre, p, post, by simp, hpre, hpost, ?_⟩
    cases t
    simp_all
  | cons q r ih =>
    intro t pre post p ha hn hv hrest hpre hpost
    have hq := hrest q (List.mem_cons_self _ _)
    have hr : ∀ x ∈ r, x.1.valid = true ∧ x.2.clock_domain = t.clock_domain :=
      fun x hx => hrest x (List.mem_cons_of_mem _ hx)
    have hstep := TimingTag.min_arr_of_domain_eq (t := t) (b := q.2) q.1 hq.2.symm
    have htv : t.arr_time.valid = true := by rw [ha]; exact hv
    simp only [List.foldlM_cons, hstep, htv, Bool.not_true, Bool.false_or, Option.bind_eq_bind,
      Option.some_bind]
    by_cases hlt : F32.lt q.1.value t.arr_time.value = true
    · rw [if_pos hlt]
      obtain ⟨pre2, p2, post2, h1, h2, h3, h4⟩ :=
        ih { t with arr_time := q.1, launch_node := q.2.launch_node } (pre ++ p :: post) [] q
          rfl rfl hq.1 hr
          (by
            intro x hx
            rw [ha] at hlt
            rcases List.mem_append.1 hx with hx | hx
            · have := hpre x hx
              simp only [F32.lt, F32.gt, Bool.and_eq_true, Bool.not_eq_true',
                decide_eq_true_eq] at this hlt ⊢
              exact ⟨⟨this.1.1, hlt.1.1⟩, by omega⟩
            · rcases List.mem_cons.1 hx with hx | hx
              · subst hx
                simp only [F32.lt, F32.gt, Bool.and_eq_true, Bool.not_eq_true',
                  decide_eq_true_eq] at hlt ⊢
                exact ⟨⟨hlt.1.2, hlt.1.1⟩, hlt.2⟩
              · have := hpost x hx
                simp only [F32.lt, F32.ge, F32.gt, Bool.and_eq_true, Bool.not_eq_true',
                  decide_eq_true_eq] at this hlt ⊢
                exact ⟨⟨this.1.1, hlt.1.1⟩, by omega⟩)
          (by simp)
      exact ⟨pre2, p2, post2, by simpa [List.append_assoc] using h1, h2, h3, h4⟩
    · rw [if_neg hlt]
      obtain ⟨pre2, p2, post2, h1, h2, h3, h4⟩ :=
        ih t pre (post ++ [q]) p ha hn hv hr hpre
          (by
            intro x hx
            rcases List.mem_append.1 hx with hx | hx
            · exact hpost x hx
            · simp only [List.mem_singleton] at hx
              subst hx
              rw [ha] at hlt
              have hxv := hq.1
              simp only [F32.ge, F32.lt, Time.valid, Time.value, Bool.and_eq_true,
                Bool.not_eq_true', decide_eq_true_eq, not_and, not_lt] at hlt hv hxv ⊢
              exact ⟨⟨hxv, hv⟩, hlt ⟨hxv, hv⟩⟩)
      exact ⟨pre2, p2, post2, by simpa [List.append_assoc] using h1, h2, h3, h4⟩

/-- C29: starting from a tag `t` with an invalid arrival time, applying `max_arr` once for each
element of a non-empty list of updates (valid time, base tag of `t`'s clock domain) returns a
tag that differs from `t` in the arrival time and the launch node only: they are those of the
first update `p` that attains the maximum, that is, every earlier update has a time `<` that of
`p` and every later one a time `<=` that of `p`. With `min_arr` they are those of the first
update attaining the minimum (earlier ones `>`, later ones `>=`). -/
theorem TimingTag.fold_arr_extremum (t : TimingTag) (l : List (Time × TimingTag))
    (hne : l ≠ []) (ht : t.arr_time.valid = false)
    (hl : ∀ q ∈ l, q.1.valid = true ∧ q.2.clock_domain = t.clock_domain) :
    (∃ pre p post, l = pre ++ p :: post ∧
      (∀ q ∈ pre, F32.lt q.1.value p.1.value = true) ∧
      (∀ q ∈ post, F32.le q.1.value p.1.value = true) ∧
      l.foldlM (fun c q => c.max_arr q.1 q.2) t =
        some { t with arr_time := p.1, launch_node := p.2.launch_node }) ∧
    (∃ pre p post, l = pre ++ p :: post ∧
      (∀ q ∈ pre, F32.gt q.1.value p.1.value = true) ∧
      (∀ q ∈ post, F32.ge q.1.value p.1.value = true) ∧
      l.foldlM (fun c q => c.min_arr q.1 q.2) t =
        some { t with arr_time := p.1, launch_node := p.2.launch_node }) := by
  cases l with
  | nil => exact absurd rfl hne
  | cons q r =>
    have hq := hl q (List.mem_cons_self _ _)
    have hr : ∀ x ∈ r, x.1.valid = true ∧ x.2.clock_domain = t.clock_domain :=
      fun x hx => hl x (List.mem_cons_of_mem _ hx)
    constructor
    · have hstep := TimingTag.max_arr_of_domain_eq (t := t) (b := q.2) q.1 hq.2.symm
      obtain ⟨pre2, p2, post2, h1, h2, h3, h4⟩ :=
        TimingTag.foldlM_max_arr_first_max r
          { t with arr_time := q.1, launch_node := q.2.launch_node } [] [] q rfl rfl hq.1 hr
          (by simp) (by simp)
      refine ⟨pre2, p2, post2, by simpa using h1, h2, h3, ?_⟩
      simp only [List.foldlM_cons, hstep, ht, Bool.not_false, Bool.true_or, if_true,
        Option.bind_eq_bind, Option.some_bind]
      exact h4
    · have hstep := TimingTag.min_arr_of_domain_eq (t := t) (b := q.2) q.1 hq.2.symm
      obtain ⟨pre2, p2, post2, h1, h2, h3, h4⟩ :=
        TimingTag.foldlM_min_arr_first_min r
          { t with arr_time := q.1, launch_node := q.2.launch_node } [] [] q rfl rfl hq.1 hr
          (by simp) (by simp)
      refine ⟨pre2, p2, post2, by simpa using h1, h2, h3, ?_⟩
      simp only [List.foldlM_cons, hstep, ht, Bool.not_false, Bool.true_or, if_true,
        Option.bind_eq_bind, Option.some_bind]
      exact h4

/-- Witness for C29 on the fresh tag `tagFresh` and the four updates `foldUpdates`: the fold of
`max_arr` leaves `2.0` from launch node 2 (the first of the two updates with `2.0`), the fold of
`min_arr` leaves `0.0` from launch node 1. -/
theorem TimingTag.fold_arr_extremum_witness :
    foldUpdates ≠ [] ∧ tagFresh.arr_time.valid = false ∧
    (∀ q ∈ foldUpdates, q.1.valid = true ∧ q.2.clock_domain = tagFresh.clock_domain) ∧
    (∃ pre p post, foldUpdates = pre ++ p :: post ∧
      (∀ q ∈ pre, F32.lt q.1.value p.1.value = true) ∧
      (∀ q ∈ post, F32.le q.1.value p.1.value = true) ∧
      foldUpdates.foldlM (fun c q => c.max_arr q.1 q.2) tagFresh =
        some { tagFresh with arr_time := p.1, launch_node := p.2.launch_node }) ∧
    (∃ pre p post, foldUpdates = pre ++ p :: post ∧
      (∀ q ∈ pre, F32.gt q.1.value p.1.value = true) ∧
      (∀ q ∈ post, F32.ge q.1.value p.1.value = true) ∧
      foldUpdates.foldlM (fun c q => c.min_arr q.1 q.2) tagFresh =
        some { tagFresh with arr_time := p.1, launch_node := p.2.launch_node }) ∧
    foldUpdates.foldlM (fun c q => c.max_arr q.1 q.2) tagFresh =
      some { tagFresh with arr_time := time2, launch_node := ⟨2⟩ } ∧
    foldUpdates.foldlM (fun c q => c.min_arr q.1 q.2) tagFresh =
      some { tagFresh with arr_time := time0, launch_node := ⟨1⟩ } :=
  ⟨by decide, by decide, by decide,
   (TimingTag.fold_arr_extremum tagFresh foldUpdates (by decide) (by decide) (by decide)).1,
   (TimingTag.fold_arr_extremum tagFresh foldUpdates (by decide) (by decide) (by decide)).2,
   by decide, by decide⟩

/-! ## The validator is called once, by the constructor -/

/-- On the instrumented walker, `update_timing()` of `FullHoldTimingAnalyzer` leaves the borrowed
inputs alone and adds no call of the validator to the log. -/
theorem FullHoldTimingAnalyzer.update_timing_validate_calls {TG TC DC V : Type}
    (eff : PassEffects V) (self : FullHoldTimingAnalyzer TG TC DC V Unit)
    (log : List (AnalyzerEvent TG TC DC V)) :
    (FullHoldTimingAnalyzer.update_timing (eventWalker eff) self log).1.timing_graph_ =
      self.timing_graph_ ∧
    (FullHoldTimingAnalyzer.update_timing (eventWalker eff) self log).1.timing_constraints_ =
      self.timing_constraints_ ∧
    (FullHoldTimingAnalyzer.update_timing (eventWalker eff) self log).2.filter
      AnalyzerEvent.is_validate = log.filter AnalyzerEvent.is_validate := by
  simp [FullHoldTimingAnalyzer.update_timing, FullHoldTimingAnalyzer.update_timing_impl,
    eventWalker, AnalyzerEvent.is_validate]

/-- On the instrumented walker, `update_timing()` of `FullSetupHoldTimingAnalyzer` leaves the
borrowed inputs alone and adds no call of the validator to the log. -/
theorem FullSetupHoldTimingAnalyzer.setup_hold_update_timing_validate_calls {TG TC DC V : Type}
    (eff : PassEffects V) (self : FullSetupHoldTimingAnalyzer TG TC DC V Unit)
    (log : List (AnalyzerEvent TG TC DC V)) :
    (FullSetupHoldTimingAnalyzer.update_timing (eventWalker eff) self log).1.timing_graph_ =
      self.timing_graph_ ∧
    (FullSetupHoldTimingAnalyzer.update_timing (eventWalker eff) self log).1.timing_constraints_ =
      self.timing_constraints_ ∧
    (FullSetupHoldTimingAnalyzer.update_timing (eventWalker eff) self log).2.filter
      AnalyzerEvent.is_validate = log.filter AnalyzerEvent.is_validate := by
  simp [FullSetupHoldTimingAnalyzer.update_timing,
    FullSetupHoldTimingAnalyzer.update_timing_impl, eventWalker, AnalyzerEvent.is_validate]

/-- Any number of `update_timing()` calls on a `FullHoldTimingAnalyzer` adds no call of the
validator to the log. -/
theorem FullHoldTimingAnalyzer.iterate_update_timing_validate_calls {TG TC DC V : Type}
    (eff : PassEffects V) (k : Nat)
    (p : FullHoldTimingAnalyzer TG TC DC V Unit × List (AnalyzerEvent TG TC DC V)) :
    ((fun q => FullHoldTimingAnalyzer.update_timing (eventWalker eff) q.1 q.2)^[k] p).2.filter
      AnalyzerEvent.is_validate = p.2.filter AnalyzerEvent.is_validate := by
  induction k generalizing p with
  | zero => rfl
  | succ k ih =>
    rw [Function.iterate_succ_apply, ih]
    exact (FullHoldTimingAnalyzer.update_timing_validate_calls eff p.1 p.2).2.2

/-- Any number of `update_timing()` calls on a `FullSetupHoldTimingAnalyzer` adds no call of the
validator to the log. -/
theorem FullSetupHoldTimingAnalyzer.setup_hold_iterate_update_timing_validate_calls
    {TG TC DC V : Type} (eff : PassEffects V) (k : Nat)
    (p : FullSetupHoldTimingAnalyzer TG TC DC V Unit × List (AnalyzerEvent TG TC DC V)) :
    ((fun q => FullSetupHoldTimingAnalyzer.update_timing (eventWalker eff) q.1 q.2)^[k]
      p).2.filter AnalyzerEvent.is_validate = p.2.filter AnalyzerEvent.is_validate := by
  induction k generalizing p with
  | zero => rfl
  | succ k ih =>
    rw [Function.iterate_succ_apply, ih]
    exact (FullSetupHoldTimingAnalyzer.setup_hold_update_timing_validate_calls eff p.1 p.2).2.2

/-- C26: with an instrumented validator and an instrumented walker writing to one log, the
constructor of `FullHoldTimingAnalyzer` logs exactly one call,
`validate_timing_graph_constraints` on the graph and the constraints it was given, which are
also the ones the object keeps; and after any number `k` of `update_timing()` calls the calls of
the validator in the log are still exactly that one. The same holds for
`FullSetupHoldTimingAnalyzer`. -/
theorem FullHoldTimingAnalyzer.ctor_validates_once {TG TC DC V : Type} (eff : PassEffects V)
    (hold_ctor : Nat → Nat → V) (setup_hold_ctor : Nat → V) (nodes_size edges_size : TG → Nat)
    (tg : TG) (tc : TC) (dc : DC) (k : Nat) :
    ((FullHoldTimingAnalyzer.ctor recordingValidate hold_ctor () nodes_size edges_size
        tg tc dc ([] : List (AnalyzerEvent TG TC DC V))).2 =
      [AnalyzerEvent.validate_timing_graph_constraints tg tc] ∧
     ((fun q => FullHoldTimingAnalyzer.update_timing (eventWalker eff) q.1 q.2)^[k]
        (FullHoldTimingAnalyzer.ctor recordingValidate hold_ctor () nodes_size edges_size
          tg tc dc [])).2.filter AnalyzerEvent.is_validate =
      [AnalyzerEvent.validate_timing_graph_constraints tg tc]) ∧
    ((FullSetupHoldTimingAnalyzer.ctor recordingValidate setup_hold_ctor () nodes_size
        tg tc dc ([] : List (AnalyzerEvent TG TC DC V))).2 =
      [AnalyzerEvent.validate_timing_graph_constraints tg tc] ∧
     ((fun q => FullSetupHoldTimingAnalyzer.update_timing (eventWalker eff) q.1 q.2)^[k]
        (FullSetupHoldTimingAnalyzer.ctor recordingValidate setup_hold_ctor () nodes_size
          tg tc dc [])).2.filter AnalyzerEvent.is_validate =
      [AnalyzerEvent.validate_timing_graph_constraints tg tc]) := by
  refine ⟨⟨rfl, ?_⟩, ⟨rfl, ?_⟩⟩
  · rw [FullHoldTimingAnalyzer.iterate_update_timing_validate_calls]
    rfl
  · rw [FullSetupHoldTimingAnalyzer.setup_hold_iterate_update_timing_validate_calls]
    rfl

/-! ## Echo writer: the graph section -/

/-- A loop that appends one text per element appends the concatenation of the texts. -/
theorem foldl_append_eq_join {α : Type} (f : α → String) (l : List α) (os : String) :
    l.foldl (fun os a => os ++ f a) os = os ++ String.join (l.map f) := by
  induction l generalizing os with
  | nil => simp [String.join]
  | cons a l ih => simp [ih, string_join_cons, String.append_assoc]

/-- A loop whose body appends a text depending on the element alone appends the concatenation of
the texts. -/
theorem foldl_eq_join_of_body {α : Type} (g : String → α → String) (f : α → String)
    (hg : ∀ os a, g os a = os ++ f a) (l : List α) (os : String) :
    l.foldl g os = os ++ String.join (l.map f) := by
  have : g = fun os a => os ++ f a := by
    funext os a
    exact hg os a
  rw [this, foldl_append_eq_join]

/-- A small index survives the round trip through the `int` of an id. -/
theorem to_size_t_int_of_size_t (n : Nat) (h : n < 2147483648) :
    to_size_t (int_of_size_t n) = n := by
  unfold to_size_t int_of_size_t
  omega

/-- The text of a list of edge ids: each id in decimal, followed by a blank. -/
theorem Echo.edge_ids_foldl (edges : List EdgeId) (os : String) :
    edges.foldl (fun os edge_id => os ++ toString (to_size_t edge_id.id) ++ " ") os =
      os ++ String.join (edges.map (fun e => toString (to_size_t e.id) ++ " ")) := by
  apply foldl_eq_join_of_body
  intro os a
  simp [String.append_assoc]

/-- The text `write_timing_graph` appends: the header, one block per node index, one block per
edge index, and an empty line. -/
theorem Echo.write_timing_graph_eq (show_node_type : NodeType → String) (os : String)
    (tg : TimingGraph) :
    Echo.write_timing_graph show_node_type os tg =
      os ++ ("timing_graph:\n" ++
        (String.join ((List.range tg.nodes_size).map (fun i =>
          Echo.node_block show_node_type tg (to_size_t (NodeId.ofSize i).id) (NodeId.ofSize i))) ++
        (String.join ((List.range tg.edges_size).map (fun i =>
          Echo.edge_block tg (to_size_t (EdgeId.ofSize i).id) (EdgeId.ofSize i))) ++
        "\n"))) := by
  unfold Echo.write_timing_graph
  simp only []
  rw [foldl_eq_join_of_body _ (fun i =>
      Echo.edge_block tg (to_size_t (EdgeId.ofSize i).id) (EdgeId.ofSize i)),
    foldl_eq_join_of_body _ (fun i =>
      Echo.node_block show_node_type tg (to_size_t (NodeId.ofSize i).id) (NodeId.ofSize i))]
  · simp [String.append_assoc]
  · intro os i
    simp only [String.append_assoc, foldl_append_eq_join, Echo.node_block, Echo.edge_ids_text]
  · intro os i
    by_cases h : tg.edge_disabled (EdgeId.ofSize i) = true <;>
      simp [Echo.edge_block, h, String.append_assoc]

/-- The sorted edge list is ascending and has the elements of the stored list. -/
theorem sort_edges_sorted_perm (edges : List EdgeId) :
    (sort_edges edges).Sorted EdgeId.le ∧ (sort_edges edges).Perm edges :=
  ⟨List.sorted_insertionSort EdgeId.le edges, List.perm_insertionSort EdgeId.le edges⟩

/-- Two stored orders of the same edges are sorted to the same list. -/
theorem sort_edges_eq_of_perm {l1 l2 : List EdgeId} (h : l1.Perm l2) :
    sort_edges l1 = sort_edges l2 :=
  List.eq_of_perm_of_sorted
    (((sort_edges_sorted_perm l1).2.trans h).trans (sort_edges_sorted_perm l2).2.symm)
    (sort_edges_sorted_perm l1).1 (sort_edges_sorted_perm l2).1

/-- C22: for a graph with `N` nodes and `M` edges (at most 2^31 each, the range of the ids),
`write_timing_graph` appends the header, then one block per node for the node ids 0..N-1 in
ascending order, then one block per edge for the edge ids 0..M-1 in ascending order, then an
empty line; in a node block the in-edges and the out-edges are written as the ascending
arrangement of the stored lists; hence two graphs that differ only in the stored order of the
edge lists of their nodes give the same output. -/
theorem Echo.write_timing_graph_blocks (show_node_type : NodeType → String) (os : String)
    (tg : TimingGraph) (hN : tg.nodes_size ≤ 2147483648) (hM : tg.edges_size ≤ 2147483648) :
    Echo.write_timing_graph show_node_type os tg =
      os ++ ("timing_graph:\n" ++
        (String.join ((List.range tg.nodes_size).map (fun (i : Nat) =>
          " node: " ++ toString i ++ "\n" ++
          "  type: " ++ show_node_type (tg.node_type ⟨(i : Int)⟩) ++ "\n" ++
          "  in_edges: " ++ Echo.edge_ids_text (sort_edges (tg.node_in_edges ⟨(i : Int)⟩)) ++ "\n" ++
          "  out_edges: " ++ Echo.edge_ids_text (sort_edges (tg.node_out_edges ⟨(i : Int)⟩)) ++ "\n")) ++
        (String.join ((List.range tg.edges_size).map (fun (i : Nat) =>
          " edge: " ++ toString i ++ "\n" ++
          "  src_node: " ++ toString (to_size_t (tg.edge_src_node ⟨(i : Int)⟩).id) ++ "\n" ++
          "  sink_node: " ++ toString (to_size_t (tg.edge_sink_node ⟨(i : Int)⟩).id) ++ "\n" ++
          "  disabled: " ++ (if tg.edge_disabled ⟨(i : Int)⟩ then "true" else "false") ++ "\n")) ++
        "\n"))) ∧
    (∀ edges : List EdgeId,
      (sort_edges edges).Sorted EdgeId.le ∧ (sort_edges edges).Perm edges) ∧
    (∀ tg2 : TimingGraph, tg2.nodes_size = tg.nodes_size → tg2.edges_size = tg.edges_size →
      tg2.node_type = tg.node_type → tg2.edge_src_node = tg.edge_src_node →
      tg2.edge_sink_node = tg.edge_sink_node → tg2.edge_disabled = tg.edge_disabled →
      (∀ n, (tg2.node_in_edges n).Perm (tg.node_in_edges n)) →
      (∀ n, (tg2.node_out_edges n).Perm (tg.node_out_edges n)) →
      Echo.write_timing_graph show_node_type os tg2 =
        Echo.write_timing_graph show_node_type os tg) := by
  refine ⟨?_, sort_edges_sorted_perm, ?_⟩
  · rw [Echo.write_timing_graph_eq]
    have hn : ∀ i ∈ List.range tg.nodes_size,
        Echo.node_block show_node_type tg (to_size_t (NodeId.ofSize i).id) (NodeId.ofSize i) =
          " node: " ++ toString i ++ "\n" ++
          "  type: " ++ show_node_type (tg.node_type ⟨i⟩) ++ "\n" ++
          "  in_edges: " ++ Echo.edge_ids_text (sort_edges (tg.node_in_edges ⟨i⟩)) ++ "\n" ++
          "  out_edges: " ++ Echo.edge_ids_text (sort_edges (tg.node_out_edges ⟨i⟩)) ++ "\n" := by
      intro i hi
      have hi2 : i < 2147483648 := by
        have := List.mem_range.1 hi
        omega
      have h1 : int_of_size_t i = (i : Int) := by unfold int_of_size_t; omega
      simp only [NodeId.ofSize, Echo.node_block, h1, to_size_t]
      have h2 : ((i : Int) % 18446744073709551616).toNat = i := by omega
      rw [h2]
    have he : ∀ i ∈ List.range tg.edges_size,
        Echo.edge_block tg (to_size_t (EdgeId.ofSize i).id) (EdgeId.ofSize i) =
          " edge: " ++ toString i ++ "\n" ++
          "  src_node: " ++ toString (to_size_t (tg.edge_src_node ⟨i⟩).id) ++ "\n" ++
          "  sink_node: " ++ toString (to_size_t (tg.edge_sink_node ⟨i⟩).id) ++ "\n" ++
          "  disabled: " ++ (if tg.edge_disabled ⟨i⟩ then "true" else "false") ++ "\n" := by
      intro i hi
      have hi2 : i < 2147483648 := by
        have := List.mem_range.1 hi
        omega
      have h1 : int_of_size_t i = (i : Int) := by unfold int_of_size_t; omega
      have h2 : ((i : Int) % 18446744073709551616).toNat = i := by omega
      simp only [EdgeId.ofSize, Echo.edge_block, h1]
      rw [show to_size_t (i : Int) = i from h2]
    rw [List.map_congr_left hn, List.map_congr_left he]
  · intro tg2 h1 h2 h3 h4 h5 h6 hin hout
    rw [Echo.write_timing_graph_eq, Echo.write_timing_graph_eq, h1, h2]
    have hb : ∀ n i, Echo.node_block show_node_type tg2 n i =
        Echo.node_block show_node_type tg n i := by
      intro n i
      simp only [Echo.node_block, h3, sort_edges_eq_of_perm (hin i),
        sort_edges_eq_of_perm (hout i)]
    have hb2 : ∀ n i, Echo.edge_block tg2 n i = Echo.edge_block tg n i := by
      intro n i
      simp only [Echo.edge_block, h4, h5, h6]
    simp only [hb, hb2]

/-- Witness for C22 on the graph `echoGraph` (two nodes, three edges, edge lists stored out of
order) and the same graph with sorted edge lists. -/
theorem Echo.write_timing_graph_blocks_witness :
    echoGraph.nodes_size ≤ 2147483648 ∧ echoGraph.edges_size ≤ 2147483648 ∧
    Echo.write_timing_graph showNodeType "" echoGraph =
      "timing_graph:\n" ++
      " node: 0\n  type: SOURCE\n  in_edges: \n  out_edges: 0 1 2 \n" ++
      " node: 1\n  type: SINK\n  in_edges: 0 1 2 \n  out_edges: \n" ++
      " edge: 0\n  src_node: 0\n  sink_node: 1\n  disabled: false\n" ++
      " edge: 1\n  src_node: 0\n  sink_node: 1\n  disabled: true\n" ++
      " edge: 2\n  src_node: 0\n  sink_node: 1\n  disabled: false\n" ++
      "\n" ∧
    Echo.write_timing_graph showNodeType "" echoGraphSorted =
      Echo.write_timing_graph showNodeType "" echoGraph :=
  ⟨by decide, by decide,
   ((Echo.write_timing_graph_blocks showNodeType "" echoGraph (by decide) (by decide)).1).trans
     (by rfl),
   (Echo.write_timing_graph_blocks showNodeType "" echoGraph (by decide) (by decide)).2.2
     echoGraphSorted rfl rfl rfl rfl rfl rfl
     (fun n => by
       by_cases h : n.id = 1 <;> simp [echoGraph, echoGraphSorted, h]
       decide)
     (fun n => by
       by_cases h : n.id = 0 <;> simp [echoGraph, echoGraphSorted, h]
       decide)⟩


/-! ## Echo writer: the constraints section -/

/-- A loop that appends a text for the elements passing a test, and nothing for the others,
appends the concatenation of the texts of the elements that pass. -/
theorem foldl_filter_eq_join {α : Type} (c : α → Bool) (f : α → String) (l : List α)
    (os : String) :
    l.foldl (fun os a => if c a then os ++ f a else os) os =
      os ++ String.join ((l.filter c).map f) := by
  induction l generalizing os with
  | nil => simp [String.join]
  | cons a l ih =>
    by_cases h : c a = true
    · simp [ih, h, string_join_cons, String.append_assoc]
    · simp [ih, h]

/-- A loop whose body may fail but, on the elements of the list, appends a text depending on the
element alone, returns and appends the concatenation of the texts. -/
theorem foldlM_eq_join_of_body {α : Type} (g : String → α → Option String) (f : α → String)
    (l : List α) (hg : ∀ a ∈ l, ∀ os, g os a = some (os ++ f a)) (os : String) :
    l.foldlM g os = some (os ++ String.join (l.map f)) := by
  induction l generalizing os with
  | nil => simp [String.join]
  | cons a l ih =>
    rw [List.foldlM_cons, hg a (List.mem_cons_self a l) os]
    simp only [Option.some_bind, Option.bind_eq_bind]
    rw [ih (fun b hb => hg b (List.mem_cons_of_mem a hb))]
    simp [string_join_cons, String.append_assoc]

/-- Texts that are empty for the elements failing a test concatenate to the texts of the elements
passing it. -/
theorem join_map_ite_eq_join_filter {α : Type} (c : α → Bool) (f : α → String) (l : List α) :
    String.join (l.map (fun a => if c a then f a else "")) =
      String.join ((l.filter c).map f) := by
  induction l with
  | nil => rfl
  | cons a l ih =>
    by_cases h : c a = true
    · simp [h, string_join_cons, ih]
    · simp [h, string_join_cons, ih]


/-- C23: when every domain of `clock_domains()` has a name and a source entry,
`write_timing_constraints` returns, and what it appends to the stream is the header followed by
seven groups in the order CLOCK, CLOCK_SOURCE, CONSTANT_GENERATOR, INPUT_CONSTRAINT,
OUTPUT_CONSTRAINT, SETUP_CONSTRAINT, HOLD_CONSTRAINT and an empty line: one CLOCK line for each
domain, one CLOCK_SOURCE line for exactly the domains that are not virtual, one line for each
constant generator, and one line for exactly the stored input, output, setup and hold entries
whose value is not NaN, each group in the iteration order of its container. -/
theorem Echo.write_timing_constraints_groups (show_float : F32 → String) (os : String)
    (tc : TimingConstraints)
    (h : ∀ d ∈ tc.clock_domains,
      d.id < tc.domain_names_.length ∧ d.id < tc.domain_sources_.length) :
    Echo.write_timing_constraints show_float os tc =
      some (os ++ ("timing_constraints:\n" ++
        (String.join (tc.clock_domains.map (fun d =>
          " type: CLOCK domain: " ++ toString d.id ++ " name: \"" ++
            (tc.clock_domain_name d).getD "" ++ "\"\n")) ++
        (String.join ((tc.clock_domains.filter
            (fun d => tc.is_virtual_clock d == some false)).map (fun d =>
          " type: CLOCK_SOURCE node: " ++
            toString (to_size_t ((tc.clock_domain_source_node d).getD NodeId.INVALID).id) ++
            " domain: " ++ toString d.id ++ "\n")) ++
        (String.join (tc.constant_generators_.map (fun n =>
          " type: CONSTANT_GENERATOR node: " ++ toString (to_size_t n.id) ++ "\n")) ++
        (String.join ((tc.input_constraints_.filter
            (fun kv => !kv.2.constraint.isnan)).map (fun kv =>
          " type: INPUT_CONSTRAINT node: " ++ toString (to_size_t kv.1.id) ++ " domain: " ++
            toString kv.2.domain.id ++ " constraint: " ++ show_float kv.2.constraint ++ "\n")) ++
        (String.join ((tc.output_constraints_.filter
            (fun kv => !kv.2.constraint.isnan)).map (fun kv =>
          " type: OUTPUT_CONSTRAINT node: " ++ toString (to_size_t kv.1.id) ++ " domain: " ++
            toString kv.2.domain.id ++ " constraint: " ++ show_float kv.2.constraint ++ "\n")) ++
        (String.join ((tc.setup_constraints_.filter (fun kv => !kv.2.isnan)).map (fun kv =>
          " type: SETUP_CONSTRAINT launch_domain: " ++ toString kv.1.src_domain_id.id ++
            " capture_domain: " ++ toString kv.1.sink_domain_id.id ++ " constraint: " ++
            show_float kv.2 ++ "\n")) ++
        (String.join ((tc.hold_constraints_.filter (fun kv => !kv.2.isnan)).map (fun kv =>
          " type: HOLD_CONSTRAINT launch_domain: " ++ toString kv.1.src_domain_id.id ++
            " capture_domain: " ++ toString kv.1.sink_domain_id.id ++ " constraint: " ++
            show_float kv.2 ++ "\n")) ++ "\n"))))))))) := by
  unfold Echo.write_timing_constraints
  have h1 := foldlM_eq_join_of_body
    (fun os domain_id => do
      let name ← tc.clock_domain_name domain_id
      pure (os ++ " type: CLOCK domain: " ++ toString domain_id.id ++ " name: \"" ++ name ++
        "\"\n"))
    (fun d => " type: CLOCK domain: " ++ toString d.id ++ " name: \"" ++
      (tc.clock_domain_name d).getD "" ++ "\"\n")
    tc.clock_domains
    (by
      intro d hd os
      obtain ⟨n, hn⟩ : ∃ n, tc.clock_domain_name d = some n :=
        ⟨_, List.getElem?_eq_getElem (h d hd).1⟩
      simp [hn, String.append_assoc])
  have h2 := foldlM_eq_join_of_body
    (fun os domain_id => do
      let source_node_id ← tc.clock_domain_source_node domain_id
      if source_node_id.toBool then
        pure (os ++ " type: CLOCK_SOURCE node: " ++ toString (to_size_t source_node_id.id) ++
          " domain: " ++ toString domain_id.id ++ "\n")
      else pure os)
    (fun d => if tc.is_virtual_clock d == some false then
      " type: CLOCK_SOURCE node: " ++
        toString (to_size_t ((tc.clock_domain_source_node d).getD NodeId.INVALID).id) ++
        " domain: " ++ toString d.id ++ "\n" else "")
    tc.clock_domains
    (by
      intro d hd os
      obtain ⟨n, hn⟩ : ∃ n, tc.clock_domain_source_node d = some n :=
        ⟨_, List.getElem?_eq_getElem (h d hd).2⟩
      by_cases hb : n.toBool = true
      · simp [hn, hb, TimingConstraints.is_virtual_clock, String.append_assoc]
      · simp [hn, hb, TimingConstraints.is_virtual_clock])
  simp only [Option.bind_eq_bind, Option.pure_def] at h1 h2 ⊢
  rw [h1]
  simp only [Option.some_bind]
  rw [h2]
  simp only [Option.some_bind, join_map_ite_eq_join_filter]
  have e1 : ∀ x : String, " type: SETUP_CONSTRAINT" ++ (" launch_domain: " ++ x) =
      " type: SETUP_CONSTRAINT launch_domain: " ++ x := fun x => by
    rw [← String.append_assoc]
    rfl
  have e2 : ∀ x : String, " type: HOLD_CONSTRAINT" ++ (" launch_domain: " ++ x) =
      " type: HOLD_CONSTRAINT launch_domain: " ++ x := fun x => by
    rw [← String.append_assoc]
    rfl
  simp only [String.append_assoc, foldl_append_eq_join, foldl_filter_eq_join, e1, e2]


set_option maxRecDepth 8000 in
/-- Witness for C23 on the store `tcEcho`: the virtual domain 1 has no CLOCK_SOURCE line, and the
input and setup entries whose value is NaN have no line. -/
theorem Echo.write_timing_constraints_groups_witness :
    (∀ d ∈ tcEcho.clock_domains,
      d.id < tcEcho.domain_names_.length ∧ d.id < tcEcho.domain_sources_.length) ∧
    Echo.write_timing_constraints showBits "" tcEcho =
      some ("timing_constraints:\n" ++
        " type: CLOCK domain: 0 name: \"clk\"\n" ++
        " type: CLOCK domain: 1 name: \"virt\"\n" ++
        " type: CLOCK_SOURCE node: 5 domain: 0\n" ++
        " type: CONSTANT_GENERATOR node: 9\n" ++
        " type: INPUT_CONSTRAINT node: 3 domain: 0 constraint: 1065353216\n" ++
        " type: OUTPUT_CONSTRAINT node: 4 domain: 0 constraint: 1073741824\n" ++
        " type: SETUP_CONSTRAINT launch_domain: 0 capture_domain: 0 constraint: 1065353216\n" ++
        " type: HOLD_CONSTRAINT launch_domain: 1 capture_domain: 0 constraint: 0\n" ++
        "\n") :=
  ⟨by decide,
   (Echo.write_timing_constraints_groups showBits "" tcEcho (by decide)).trans (by rfl)⟩


/-! ## Echo writer: the analysis-result section -/

/-- A small index is stored as itself in the `int` of an id. -/
theorem int_of_size_t_small (n : Nat) (h : n < 2147483648) : int_of_size_t n = (n : Int) := by
  unfold int_of_size_t
  omega

/-- A loop of `write_analysis_result` over the nodes returns and appends the section of its tags,
when no tag it is given has kind SLACK. -/
theorem Echo.write_node_tags_eq (show_float : F32 → String) (type : String)
    (tags : NodeId → Echo.TagType → List Echo.TimingTag) (kind : Echo.TagType)
    (nodes_size : Nat) (os : String) (hN : nodes_size ≤ 2147483648)
    (h : ∀ i < nodes_size, ∀ t ∈ tags ⟨(i : Int)⟩ kind, t.type ≠ Echo.TagType.SLACK) :
    Echo.write_node_tags show_float type tags kind nodes_size os =
      some (os ++ Echo.node_section show_float type (fun n => tags n kind) nodes_size) := by
  unfold Echo.write_node_tags Echo.node_section
  apply foldlM_eq_join_of_body
  intro i hi os
  have hi2 : i < nodes_size := List.mem_range.mp hi
  have hid : NodeId.ofSize i = ⟨(i : Int)⟩ := by
    unfold NodeId.ofSize
    rw [int_of_size_t_small i (by omega)]
  simp only [hid, Echo.write_tags_eq, Echo.tags_text]
  rw [if_pos]
  simpa using h i hi2

/-- The loop of `write_analysis_result` over the edges returns and appends the section of the
slacks, when every tag it is given has kind SLACK. -/
theorem Echo.write_edge_slacks_eq (show_float : F32 → String) (type : String)
    (slacks : EdgeId → List Echo.TimingTag) (edges_size : Nat) (os : String)
    (hM : edges_size ≤ 2147483648)
    (h : ∀ i < edges_size, ∀ t ∈ slacks ⟨(i : Int)⟩, t.type = Echo.TagType.SLACK) :
    Echo.write_edge_slacks show_float type slacks edges_size os =
      some (os ++ Echo.edge_section show_float type slacks edges_size) := by
  unfold Echo.write_edge_slacks Echo.edge_section
  apply foldlM_eq_join_of_body
  intro i hi os
  have hi2 : i < edges_size := List.mem_range.mp hi
  have hid : EdgeId.ofSize i = ⟨(i : Int)⟩ := by
    unfold EdgeId.ofSize
    rw [int_of_size_t_small i (by omega)]
  simp only [hid, Echo.write_slacks_eq, Echo.slacks_text]
  rw [if_pos]
  simpa using h i hi2


/-- C24: when the analyzer returns no SLACK tag as a node tag and only SLACK tags as edge slacks,
`write_analysis_result` returns, and what it appends to the stream is the header, then for a
setup analyzer the sections SETUP_DATA_ARRIVAL, SETUP_DATA_REQUIRED, SETUP_LAUNCH_CLOCK,
SETUP_CAPTURE_CLOCK (each over the nodes 0..N-1 in ascending order) and SETUP_SLACK (over the
edges 0..M-1 in ascending order), then for a hold analyzer the five HOLD_ sections in the same
order, then the empty line that closes the output. So for an analyzer that is both, every setup
section precedes every hold section, and for one that is neither no section is written: the
output is the header and the closing empty line. -/
theorem Echo.write_analysis_result_sections (show_float : F32 → String) (os : String)
    (tg : TimingGraph) (analyzer : Echo.TimingAnalyzer)
    (hN : tg.nodes_size ≤ 2147483648) (hM : tg.edges_size ≤ 2147483648)
    (hs : ∀ sa, analyzer.setup_analyzer = some sa →
      (∀ i < tg.nodes_size, ∀ kind, kind ≠ Echo.TagType.SLACK →
        ∀ t ∈ sa.setup_tags ⟨(i : Int)⟩ kind, t.type ≠ Echo.TagType.SLACK) ∧
      (∀ i < tg.edges_size, ∀ t ∈ sa.setup_slacks ⟨(i : Int)⟩, t.type = Echo.TagType.SLACK))
    (hh : ∀ ha, analyzer.hold_analyzer = some ha →
      (∀ i < tg.nodes_size, ∀ kind, kind ≠ Echo.TagType.SLACK →
        ∀ t ∈ ha.hold_tags ⟨(i : Int)⟩ kind, t.type ≠ Echo.TagType.SLACK) ∧
      (∀ i < tg.edges_size, ∀ t ∈ ha.hold_slacks ⟨(i : Int)⟩, t.type = Echo.TagType.SLACK)) :
    Echo.write_analysis_result show_float os tg analyzer =
      some (os ++ ("analysis_result:\n" ++
        ((match analyzer.setup_analyzer with
          | some sa =>
            Echo.node_section show_float "SETUP_DATA_ARRIVAL"
              (fun n => sa.setup_tags n .DATA_ARRIVAL) tg.nodes_size ++
            (Echo.node_section show_float "SETUP_DATA_REQUIRED"
              (fun n => sa.setup_tags n .DATA_REQUIRED) tg.nodes_size ++
            (Echo.node_section show_float "SETUP_LAUNCH_CLOCK"
              (fun n => sa.setup_tags n .CLOCK_LAUNCH) tg.nodes_size ++
            (Echo.node_section show_float "SETUP_CAPTURE_CLOCK"
              (fun n => sa.setup_tags n .CLOCK_CAPTURE) tg.nodes_size ++
            Echo.edge_section show_float "SETUP_SLACK" sa.setup_slacks tg.edges_size)))
          | none => "") ++
        ((match analyzer.hold_analyzer with
          | some ha =>
            Echo.node_section show_float "HOLD_DATA_ARRIVAL"
              (fun n => ha.hold_tags n .DATA_ARRIVAL) tg.nodes_size ++
            (Echo.node_section show_float "HOLD_DATA_REQUIRED"
              (fun n => ha.hold_tags n .DATA_REQUIRED) tg.nodes_size ++
            (Echo.node_section show_float "HOLD_LAUNCH_CLOCK"
              (fun n => ha.hold_tags n .CLOCK_LAUNCH) tg.nodes_size ++
            (Echo.node_section show_float "HOLD_CAPTURE_CLOCK"
              (fun n => ha.hold_tags n .CLOCK_CAPTURE) tg.nodes_size ++
            Echo.edge_section show_float "HOLD_SLACK" ha.hold_slacks tg.edges_size)))
          | none => "") ++ "\n")))) ∧
    (analyzer.setup_analyzer = none → analyzer.hold_analyzer = none →
      Echo.write_analysis_result show_float os tg analyzer =
        some (os ++ "analysis_result:\n" ++ "\n")) := by
  have hsn : ∀ sa : Echo.SetupTimingAnalyzer, analyzer.setup_analyzer = some sa →
      ∀ (type : String) (kind : Echo.TagType) (os1 : String), kind ≠ Echo.TagType.SLACK →
      Echo.write_node_tags show_float type sa.setup_tags kind tg.nodes_size os1 =
        some (os1 ++ Echo.node_section show_float type (fun n => sa.setup_tags n kind)
          tg.nodes_size) :=
    fun sa hsa type kind os1 hk =>
      Echo.write_node_tags_eq _ _ _ _ _ _ hN (fun i hi => (hs sa hsa).1 i hi kind hk)
  have hse : ∀ sa : Echo.SetupTimingAnalyzer, analyzer.setup_analyzer = some sa →
      ∀ (type : String) (os1 : String),
      Echo.write_edge_slacks show_float type sa.setup_slacks tg.edges_size os1 =
        some (os1 ++ Echo.edge_section show_float type sa.setup_slacks tg.edges_size) :=
    fun sa hsa type os1 => Echo.write_edge_slacks_eq _ _ _ _ _ hM (hs sa hsa).2
  have hhn : ∀ ha : Echo.HoldTimingAnalyzer, analyzer.hold_analyzer = some ha →
      ∀ (type : String) (kind : Echo.TagType) (os1 : String), kind ≠ Echo.TagType.SLACK →
      Echo.write_node_tags show_float type ha.hold_tags kind tg.nodes_size os1 =
        some (os1 ++ Echo.node_section show_float type (fun n => ha.hold_tags n kind)
          tg.nodes_size) :=
    fun ha hha type kind os1 hk =>
      Echo.write_node_tags_eq _ _ _ _ _ _ hN (fun i hi => (hh ha hha).1 i hi kind hk)
  have hhe : ∀ ha : Echo.HoldTimingAnalyzer, analyzer.hold_analyzer = some ha →
      ∀ (type : String) (os1 : String),
      Echo.write_edge_slacks show_float type ha.hold_slacks tg.edges_size os1 =
        some (os1 ++ Echo.edge_section show_float type ha.hold_slacks tg.edges_size) :=
    fun ha hha type os1 => Echo.write_edge_slacks_eq _ _ _ _ _ hM (hh ha hha).2
  unfold Echo.write_analysis_result
  simp only [Option.bind_eq_bind, Option.pure_def]
  cases hsa : analyzer.setup_analyzer with
  | none =>
    cases hha : analyzer.hold_analyzer with
    | none => simp [String.append_assoc]
    | some ha => simp [hhn ha hha, hhe ha hha, String.append_assoc]
  | some sa =>
    cases hha : analyzer.hold_analyzer with
    | none => simp [hsn sa hsa, hse sa hsa, String.append_assoc]
    | some ha => simp [hsn sa hsa, hse sa hsa, hhn ha hha, hhe ha hha, String.append_assoc]


set_option maxRecDepth 8000 in
/-- Witness for C24 on `echoGraph`: an analyzer that is both a setup and a hold analyzer (the
setup lines come first, the NaN hold slack has no line), and an analyzer that is neither. -/
theorem Echo.write_analysis_result_sections_witness :
    echoGraph.nodes_size ≤ 2147483648 ∧ echoGraph.edges_size ≤ 2147483648 ∧
    ((∀ i < echoGraph.nodes_size, ∀ kind, kind ≠ Echo.TagType.SLACK →
        ∀ t ∈ echoSetupAnalyzer.setup_tags ⟨(i : Int)⟩ kind, t.type ≠ Echo.TagType.SLACK) ∧
      (∀ i < echoGraph.edges_size, ∀ t ∈ echoSetupAnalyzer.setup_slacks ⟨(i : Int)⟩,
        t.type = Echo.TagType.SLACK)) ∧
    ((∀ i < echoGraph.nodes_size, ∀ kind, kind ≠ Echo.TagType.SLACK →
        ∀ t ∈ echoHoldAnalyzer.hold_tags ⟨(i : Int)⟩ kind, t.type ≠ Echo.TagType.SLACK) ∧
      (∀ i < echoGraph.edges_size, ∀ t ∈ echoHoldAnalyzer.hold_slacks ⟨(i : Int)⟩,
        t.type = Echo.TagType.SLACK)) ∧
    Echo.write_analysis_result showBits "" echoGraph
        ⟨some echoSetupAnalyzer, some echoHoldAnalyzer⟩ =
      some ("analysis_result:\n" ++
        " type: SETUP_DATA_ARRIVAL node: 0 launch_domain: 0 capture_domain: -1 time: 1065353216\n" ++
        " type: SETUP_DATA_ARRIVAL node: 1 launch_domain: 0 capture_domain: -1 time: 1073741824\n" ++
        " type: SETUP_SLACK edge: 2 launch_domain: 0 capture_domain: 0 slack: 1065353216\n" ++
        " type: HOLD_DATA_ARRIVAL node: 1 launch_domain: 0 capture_domain: -1 time: 0\n" ++
        "\n") ∧
    Echo.write_analysis_result showBits "" echoGraph ⟨none, none⟩ =
      some ("analysis_result:\n" ++ "\n") := by
  have hs : (∀ i < echoGraph.nodes_size, ∀ kind, kind ≠ Echo.TagType.SLACK →
        ∀ t ∈ echoSetupAnalyzer.setup_tags ⟨(i : Int)⟩ kind, t.type ≠ Echo.TagType.SLACK) ∧
      (∀ i < echoGraph.edges_size, ∀ t ∈ echoSetupAnalyzer.setup_slacks ⟨(i : Int)⟩,
        t.type = Echo.TagType.SLACK) := by
    constructor
    · intro i _ kind _ t ht
      unfold echoSetupAnalyzer at ht
      simp only at ht
      split_ifs at ht <;> simp [echoArrival] at ht <;> simp [ht]
    · intro i _ t ht
      unfold echoSetupAnalyzer at ht
      simp only at ht
      split_ifs at ht <;> simp [echoSlack] at ht
      simp [ht]
  have hh : (∀ i < echoGraph.nodes_size, ∀ kind, kind ≠ Echo.TagType.SLACK →
        ∀ t ∈ echoHoldAnalyzer.hold_tags ⟨(i : Int)⟩ kind, t.type ≠ Echo.TagType.SLACK) ∧
      (∀ i < echoGraph.edges_size, ∀ t ∈ echoHoldAnalyzer.hold_slacks ⟨(i : Int)⟩,
        t.type = Echo.TagType.SLACK) := by
    constructor
    · intro i _ kind _ t ht
      unfold echoHoldAnalyzer at ht
      simp only at ht
      split_ifs at ht <;> simp [echoArrival] at ht
      simp [ht]
    · intro i _ t ht
      unfold echoHoldAnalyzer at ht
      simp only at ht
      split_ifs at ht <;> simp [echoSlack] at ht
      simp [ht]
  exact ⟨by decide, by decide, hs, hh,
    ((Echo.write_analysis_result_sections showBits "" echoGraph
      ⟨some echoSetupAnalyzer, some echoHoldAnalyzer⟩ (by decide) (by decide)
      (fun sa hsa => by cases hsa; exact hs) (fun ha hha => by cases hha; exact hh)).1).trans
      (by rfl),
    (Echo.write_analysis_result_sections showBits "" echoGraph ⟨none, none⟩
      (by decide) (by decide) (fun sa hsa => by cases hsa) (fun ha hha => by cases hha)).2
      rfl rfl⟩


/-! ## Echo writer: the output is a function of the inputs -/

/-- Appending a fixed text only appends. -/
theorem Echo.appends_text (s : String) : Echo.Appends (fun os => some (os ++ s)) := by
  intro os
  simp

/-- Writing nothing only appends. -/
theorem Echo.appends_nothing : Echo.Appends (fun os => some os) := by
  intro os
  simp

/-- One writer after another only appends, when both do. -/
theorem Echo.appends_bind {F G : String → Option String} (hF : Echo.Appends F)
    (hG : Echo.Appends G) : Echo.Appends (fun os => (F os).bind G) := by
  intro os
  beta_reduce
  rw [hF os]
  cases hf : F "" with
  | none => simp
  | some s =>
    simp only [Option.map_some', Option.some_bind]
    rw [hG (os ++ s), hG s]
    cases hg : G "" with
    | none => simp
    | some t => simp [String.append_assoc]

/-- A writer run on a stream that first received a fixed text only appends. -/
theorem Echo.appends_after_text {F : String → Option String} (hF : Echo.Appends F)
    (s : String) : Echo.Appends (fun os => F (os ++ s)) := by
  intro os
  beta_reduce
  rw [hF (os ++ s), hF ("" ++ s)]
  cases hf : F "" with
  | none => simp
  | some t => simp [String.append_assoc]

/-- A loop whose body only appends only appends. -/
theorem Echo.appends_foldlM {α : Type} (g : String → α → Option String)
    (hg : ∀ a, Echo.Appends (fun os => g os a)) (l : List α) :
    Echo.Appends (fun os => l.foldlM g os) := by
  induction l with
  | nil =>
    intro os
    simp
  | cons a l ih =>
    have := Echo.appends_bind (hg a) ih
    intro os
    simpa [List.foldlM_cons] using this os

/-- The function `write_tags` only appends. -/
theorem Echo.write_tags_appends (show_float : F32 → String) (type : String)
    (tags : List Echo.TimingTag) (node_id : NodeId) :
    Echo.Appends (fun os => Echo.write_tags show_float os type tags node_id) := by
  intro os
  simp only [Echo.write_tags_eq]
  split <;> simp

/-- The function `write_slacks` only appends. -/
theorem Echo.write_slacks_appends (show_float : F32 → String) (type : String)
    (tags : List Echo.TimingTag) (edge : EdgeId) :
    Echo.Appends (fun os => Echo.write_slacks show_float os type tags edge) := by
  intro os
  simp only [Echo.write_slacks_eq]
  split <;> simp

/-- A loop of `write_analysis_result` over the nodes only appends. -/
theorem Echo.write_node_tags_appends (show_float : F32 → String) (type : String)
    (tags : NodeId → Echo.TagType → List Echo.TimingTag) (kind : Echo.TagType)
    (nodes_size : Nat) :
    Echo.Appends (Echo.write_node_tags show_float type tags kind nodes_size) :=
  Echo.appends_foldlM _ (fun _ => Echo.write_tags_appends _ _ _ _) _

/-- The loop of `write_analysis_result` over the edges only appends. -/
theorem Echo.write_edge_slacks_appends (show_float : F32 → String) (type : String)
    (slacks : EdgeId → List Echo.TimingTag) (edges_size : Nat) :
    Echo.Appends (Echo.write_edge_slacks show_float type slacks edges_size) :=
  Echo.appends_foldlM _ (fun _ => Echo.write_slacks_appends _ _ _ _) _


/-- A header, two loops that may fail and a rest that cannot only append, when the loop bodies
and the rest do. -/
theorem Echo.appends_header_two_loops {α β : Type} (g1 : String → α → Option String)
    (g2 : String → β → Option String) (l1 : List α) (l2 : List β) (R : String → String)
    (hdr : String) (h1 : ∀ a, Echo.Appends (fun os => g1 os a))
    (h2 : ∀ b, Echo.Appends (fun os => g2 os b)) (hR : ∀ os, R os = os ++ R "") :
    Echo.Appends (fun os => (l1.foldlM g1 (os ++ hdr)).bind fun os =>
      (l2.foldlM g2 os).bind fun os => some (R os)) := by
  have hrest : Echo.Appends (fun os => some (R os)) := by
    intro os
    beta_reduce
    rw [hR os]
    simp
  exact Echo.appends_bind (Echo.appends_after_text (Echo.appends_foldlM g1 h1 l1) hdr)
    (Echo.appends_bind (Echo.appends_foldlM g2 h2 l2) hrest)

/-- The function `write_timing_graph` only appends. -/
theorem Echo.write_timing_graph_appends (show_node_type : NodeType → String) (os : String)
    (tg : TimingGraph) :
    Echo.write_timing_graph show_node_type os tg =
      os ++ Echo.write_timing_graph show_node_type "" tg := by
  rw [Echo.write_timing_graph_eq, Echo.write_timing_graph_eq show_node_type ""]
  simp

/-- The function `write_timing_constraints` only appends. -/
theorem Echo.write_timing_constraints_appends (show_float : F32 → String)
    (tc : TimingConstraints) :
    Echo.Appends (fun os => Echo.write_timing_constraints show_float os tc) := by
  unfold Echo.write_timing_constraints
  simp only [Option.bind_eq_bind, Option.pure_def]
  refine Echo.appends_header_two_loops _ _ _ _ _ _ ?_ ?_ ?_
  · intro d os
    beta_reduce
    cases tc.clock_domain_name d <;> simp [String.append_assoc]
  · intro d os
    beta_reduce
    cases tc.clock_domain_source_node d with
    | none => simp
    | some n => by_cases hb : n.toBool = true <;> simp [hb, String.append_assoc]
  · intro os
    simp only [String.append_assoc, foldl_append_eq_join, foldl_filter_eq_join]
    simp [String.append_assoc]


/-- The function `write_analysis_result` only appends. -/
theorem Echo.write_analysis_result_appends (show_float : F32 → String) (tg : TimingGraph)
    (analyzer : Echo.TimingAnalyzer) :
    Echo.Appends (fun os => Echo.write_analysis_result show_float os tg analyzer) := by
  unfold Echo.write_analysis_result
  simp only [Option.bind_eq_bind, Option.pure_def]
  have hn := Echo.write_node_tags_appends show_float
  have he := Echo.write_edge_slacks_appends show_float
  cases analyzer.setup_analyzer with
  | none =>
    cases analyzer.hold_analyzer with
    | none =>
      intro os
      simp [String.append_assoc]
    | some ha =>
      simp only [Option.some_bind]
      exact Echo.appends_bind (Echo.appends_after_text (hn _ _ _ _) _)
        (Echo.appends_bind (hn _ _ _ _) (Echo.appends_bind (hn _ _ _ _)
          (Echo.appends_bind (hn _ _ _ _) (Echo.appends_bind (he _ _ _)
            (Echo.appends_text _)))))
  | some sa =>
    cases analyzer.hold_analyzer with
    | none =>
      simp only [Option.some_bind, Option.bind_assoc]
      exact Echo.appends_bind (Echo.appends_after_text (hn _ _ _ _) _)
        (Echo.appends_bind (hn _ _ _ _) (Echo.appends_bind (hn _ _ _ _)
          (Echo.appends_bind (hn _ _ _ _) (Echo.appends_bind (he _ _ _)
            (Echo.appends_text _)))))
    | some ha =>
      simp only [Option.some_bind, Option.bind_assoc]
      exact Echo.appends_bind (Echo.appends_after_text (hn _ _ _ _) _)
        (Echo.appends_bind (hn _ _ _ _) (Echo.appends_bind (hn _ _ _ _)
          (Echo.appends_bind (hn _ _ _ _) (Echo.appends_bind (he _ _ _)
            (Echo.appends_bind (hn _ _ _ _)
              (Echo.appends_bind (hn _ _ _ _) (Echo.appends_bind (hn _ _ _ _)
                (Echo.appends_bind (hn _ _ _ _) (Echo.appends_bind (he _ _ _)
                  (Echo.appends_text _))))))))))

/-- The three writers only append. What each of `write_timing_graph`, `write_timing_constraints`
and `write_analysis_result` leaves on a stream is the stream's previous content followed by the
output of the same call on an empty stream, and the call fails an assertion on one stream iff it
fails it on every stream. -/
theorem Echo.writers_only_append (show_node_type : NodeType → String)
    (show_float : F32 → String) (tg : TimingGraph) (tc : TimingConstraints)
    (analyzer : Echo.TimingAnalyzer) (os1 os2 : String) :
    (Echo.write_timing_graph show_node_type os1 tg =
        os1 ++ Echo.write_timing_graph show_node_type "" tg ∧
      Echo.write_timing_graph show_node_type os2 tg =
        os2 ++ Echo.write_timing_graph show_node_type "" tg) ∧
    (Echo.write_timing_constraints show_float os1 tc =
        (Echo.write_timing_constraints show_float "" tc).map (fun text => os1 ++ text) ∧
      Echo.write_timing_constraints show_float os2 tc =
        (Echo.write_timing_constraints show_float "" tc).map (fun text => os2 ++ text)) ∧
    (Echo.write_analysis_result show_float os1 tg analyzer =
        (Echo.write_analysis_result show_float "" tg analyzer).map (fun text => os1 ++ text) ∧
      Echo.write_analysis_result show_float os2 tg analyzer =
        (Echo.write_analysis_result show_float "" tg analyzer).map (fun text => os2 ++ text)) :=
  ⟨⟨Echo.write_timing_graph_appends show_node_type os1 tg,
    Echo.write_timing_graph_appends show_node_type os2 tg⟩,
   ⟨Echo.write_timing_constraints_appends show_float tc os1,
    Echo.write_timing_constraints_appends show_float tc os2⟩,
   ⟨Echo.write_analysis_result_appends show_float tg analyzer os1,
    Echo.write_analysis_result_appends show_float tg analyzer os2⟩⟩


/-! ## remap_nodes is a renaming -/

/-- The sample store is remapped as described. -/
theorem tcRemap_remap_nodes :
    tcRemap.remap_nodes nodeMapReverse newestFirst = some tcRemapped := by
  decide


/-- The first loop of `remap_nodes` returns when `node_map` is defined on every valid source, and
the entry of each domain is then the image of its old source, or invalid when the domain had no
source. -/
theorem TimingConstraints.remap_domain_sources_spec (src : List NodeId)
    (node_map : NodeId → Option NodeId) (hlen : src.length ≤ 256)
    (hdef : ∀ s ∈ src, s.toBool = true → (node_map s).isSome = true) :
    ∃ r : List NodeId, TimingConstraints.remap_domain_sources src node_map = some r ∧
      r.length = src.length ∧
      ∀ (i : Nat) (s : NodeId), src[i]? = some s →
        r[i]? = if s.toBool then node_map s else some NodeId.INVALID := by
  unfold TimingConstraints.remap_domain_sources
  have gen : ∀ k, k ≤ src.length →
      ∃ r : List NodeId, (List.range k).foldlM (fun remapped_domain_sources domain_idx => do
          let domain_id := DomainId.ofSize domain_idx
          let old_node_id ← src[domain_id.id]?
          if old_node_id.toBool then do
            let new_node_id ← node_map old_node_id
            if domain_id.id < remapped_domain_sources.length then
              pure (remapped_domain_sources.set domain_id.id new_node_id)
            else none
          else pure remapped_domain_sources) (List.replicate src.length NodeId.INVALID)
          = some r ∧
        r.length = src.length ∧
        ∀ (i : Nat) (s : NodeId), src[i]? = some s →
          r[i]? = if i < k ∧ s.toBool = true then node_map s else some NodeId.INVALID := by
    intro k
    induction k with
    | zero =>
      intro _
      refine ⟨List.replicate src.length NodeId.INVALID, by simp, by simp, ?_⟩
      intro i s his
      have hi : i < src.length := by
        by_contra hc
        rw [List.getElem?_eq_none (by omega)] at his
        cases his
      simp [List.getElem?_replicate, hi]
    | succ k ih =>
      intro hk
      obtain ⟨r, hr, hrl, hrg⟩ := ih (by omega)
      rw [List.range_succ, List.foldlM_append, hr]
      have hk2 : k < src.length := by omega
      have hid : (DomainId.ofSize k).id = k := by
        unfold DomainId.ofSize
        simp only
        omega
      obtain ⟨s, hs⟩ : ∃ s, src[k]? = some s := ⟨_, List.getElem?_eq_getElem hk2⟩
      by_cases hb : s.toBool = true
      · obtain ⟨t, ht⟩ := Option.isSome_iff_exists.mp
          (hdef s (List.getElem?_mem hs) hb)
        refine ⟨r.set k t, ?_, by simp [hrl], ?_⟩
        · simp [hid, hs, hb, ht, hrl, hk2]
        · intro i s2 his
          rw [List.getElem?_set]
          by_cases hik : k = i
          · subst hik
            rw [hs] at his
            cases his
            simp [hb, ht, hrl, hk2]
          · rw [if_neg hik, hrg i s2 his]
            have : (i < k + 1 ∧ s2.toBool = true) ↔ (i < k ∧ s2.toBool = true) := by
              constructor
              · rintro ⟨h1, h2⟩
                exact ⟨by omega, h2⟩
              · rintro ⟨h1, h2⟩
                exact ⟨by omega, h2⟩
            simp only [this]
      · refine ⟨r, ?_, hrl, ?_⟩
        · simp [hid, hs, hb]
        · intro i s2 his
          rw [hrg i s2 his]
          by_cases hik : k = i
          · subst hik
            rw [hs] at his
            cases his
            simp [hb]
          · have : (i < k + 1 ∧ s2.toBool = true) ↔ (i < k ∧ s2.toBool = true) := by
              constructor
              · rintro ⟨h1, h2⟩
                exact ⟨by omega, h2⟩
              · rintro ⟨h1, h2⟩
                exact ⟨by omega, h2⟩
            simp only [this]
  obtain ⟨r, hr, hrl, hrg⟩ := gen src.length (le_refl _)
  refine ⟨r, hr, hrl, ?_⟩
  intro i s his
  rw [hrg i s his]
  have hi : i < src.length := by
    by_contra hc
    rw [List.getElem?_eq_none (by omega)] at his
    cases his
  simp [hi]


/-- The elements of an unordered set after an insertion: those before it, and the new one. -/
theorem mem_unordered_set_insert (layout : UnorderedSetOrder) (s : List NodeId) (x m : NodeId) :
    m ∈ unordered_set_insert layout s x ↔ m ∈ s ∨ m = x := by
  unfold unordered_set_insert
  split_ifs with h
  · constructor
    · exact Or.inl
    · rintro (h1 | rfl)
      · exact h1
      · exact h
  · rw [(layout.perm (s ++ [x])).mem_iff]
    simp

/-- An insertion keeps the elements of an unordered set pairwise distinct. -/
theorem nodup_unordered_set_insert (layout : UnorderedSetOrder) (s : List NodeId) (x : NodeId)
    (hs : s.Nodup) : (unordered_set_insert layout s x).Nodup := by
  unfold unordered_set_insert
  split_ifs with h
  · exact hs
  · rw [(layout.perm (s ++ [x])).nodup_iff]
    exact List.Nodup.append hs (List.nodup_singleton x) (by simpa using h)

/-- The second loop of `remap_nodes` returns when `node_map` is defined on every constant
generator, and its result holds exactly the images of the constant generators, whatever the
order of iteration of the new set. -/
theorem TimingConstraints.remap_constant_generators_spec (cg : List NodeId)
    (node_map : NodeId → Option NodeId) (layout : UnorderedSetOrder)
    (hdef : ∀ n ∈ cg, (node_map n).isSome = true) :
    ∃ r : List NodeId, TimingConstraints.remap_constant_generators cg node_map layout = some r ∧
      ∀ m, m ∈ r ↔ ∃ n ∈ cg, node_map n = some m := by
  unfold TimingConstraints.remap_constant_generators
  have gen : ∀ (l : List NodeId), (∀ n ∈ l, (node_map n).isSome = true) →
      ∀ acc : List NodeId,
      ∃ r : List NodeId, l.foldlM (fun remapped_constant_generators node_id => do
          let new_node_id ← node_map node_id
          pure (unordered_set_insert layout remapped_constant_generators new_node_id)) acc =
            some r ∧
        ∀ m, m ∈ r ↔ m ∈ acc ∨ ∃ n ∈ l, node_map n = some m := by
    intro l
    induction l with
    | nil =>
      intro _ acc
      exact ⟨acc, by simp, by simp⟩
    | cons a l ih =>
      intro hd acc
      obtain ⟨t, ht⟩ := Option.isSome_iff_exists.mp (hd a (List.mem_cons_self a l))
      have hd2 : ∀ n ∈ l, (node_map n).isSome = true :=
        fun n hn => hd n (List.mem_cons_of_mem a hn)
      obtain ⟨r, hr, hrm⟩ := ih hd2 (unordered_set_insert layout acc t)
      refine ⟨r, by simpa [List.foldlM_cons, ht] using hr, ?_⟩
      intro m
      rw [hrm m, mem_unordered_set_insert]
      constructor
      · rintro ((h | h) | ⟨n, hn, hnm⟩)
        · exact Or.inl h
        · subst h
          exact Or.inr ⟨a, List.mem_cons_self a l, ht⟩
        · exact Or.inr ⟨n, List.mem_cons_of_mem a hn, hnm⟩
      · rintro (h | ⟨n, hn, hnm⟩)
        · exact Or.inl (Or.inl h)
        · rcases List.mem_cons.mp hn with rfl | hn
          · rw [ht] at hnm
            cases hnm
            exact Or.inl (Or.inr rfl)
          · exact Or.inr ⟨n, hn, hnm⟩
  obtain ⟨r, hr, hrm⟩ := gen cg hdef []
  exact ⟨r, hr, fun m => by simpa using hrm m⟩


/-- The multimap insertion on a map with a first entry: before it when the new key is smaller,
else into the rest. -/
theorem StdMultimap.insert_node_cons {V : Type} (p : NodeId × V) (m : List (NodeId × V))
    (k : NodeId) (v : V) :
    StdMultimap.insert NodeId.lt (p :: m) k v =
      if k.id < p.1.id then (k, v) :: p :: m
      else p :: StdMultimap.insert NodeId.lt m k v := by
  unfold StdMultimap.insert NodeId.lt
  by_cases h : k.id < p.1.id <;> simp [List.takeWhile, List.dropWhile, h]

/-- The entries of a multimap after an insertion: the new one and the old ones. -/
theorem StdMultimap.mem_insert_node {V : Type} (m : List (NodeId × V)) (k : NodeId) (v : V)
    (x : NodeId × V) :
    x ∈ StdMultimap.insert NodeId.lt m k v ↔ x = (k, v) ∨ x ∈ m := by
  induction m with
  | nil => simp [StdMultimap.insert]
  | cons p m ih =>
    rw [StdMultimap.insert_node_cons]
    by_cases h : k.id < p.1.id
    · simp [h]
    · simp only [h, if_false, List.mem_cons, ih]
      tauto

/-- The multimap insertion keeps a map in key order in key order, and among the entries of any
one key it puts the new entry last. -/
theorem StdMultimap.insert_node_sorted_filter {V : Type} (m : List (NodeId × V)) (k : NodeId)
    (v : V) (hs : m.Pairwise (fun a b => a.1.id ≤ b.1.id)) :
    (StdMultimap.insert NodeId.lt m k v).Pairwise (fun a b => a.1.id ≤ b.1.id) ∧
    ∀ k0 : NodeId, (StdMultimap.insert NodeId.lt m k v).filter (fun p => decide (p.1 = k0)) =
      m.filter (fun p => decide (p.1 = k0)) ++ (if k = k0 then [(k, v)] else []) := by
  induction m with
  | nil =>
    refine ⟨by simp [StdMultimap.insert], ?_⟩
    intro k0
    by_cases h : k = k0 <;> simp [StdMultimap.insert, h]
  | cons p m ih =>
    rw [StdMultimap.insert_node_cons]
    obtain ⟨hp, hm⟩ := List.pairwise_cons.mp hs
    by_cases h : k.id < p.1.id
    · simp only [h, if_true]
      refine ⟨?_, ?_⟩
      · refine List.pairwise_cons.mpr ⟨?_, hs⟩
        intro x hx
        rcases List.mem_cons.mp hx with rfl | hx
        · exact le_of_lt h
        · exact le_trans (le_of_lt h) (hp x hx)
      · intro k0
        by_cases hk : k = k0
        · subst hk
          have hnone : (p :: m).filter (fun q => decide (q.1 = k)) = [] := by
            rw [List.filter_eq_nil_iff]
            intro x hx
            have hlt : k.id < x.1.id := by
              rcases List.mem_cons.mp hx with rfl | hx
              · exact h
              · exact lt_of_lt_of_le h (hp x hx)
            intro hc
            have : x.1 = k := by simpa using hc
            rw [this] at hlt
            exact lt_irrefl _ hlt
          rw [List.filter_cons, hnone]
          simp
        · rw [List.filter_cons]
          simp [hk]
    · simp only [h, if_false]
      obtain ⟨ih1, ih2⟩ := ih hm
      refine ⟨?_, ?_⟩
      · refine List.pairwise_cons.mpr ⟨?_, ih1⟩
        intro x hx
        rcases (StdMultimap.mem_insert_node m k v x).mp hx with rfl | hx
        · exact not_lt.mp h
        · exact hp x hx
      · intro k0
        rw [List.filter_cons, ih2 k0, List.filter_cons]
        by_cases hpk : p.1 = k0 <;> simp [hpk]


/-- The entry `find_io_constraint` finds is the first entry with the node and the domain. -/
theorem TimingConstraints.find_io_constraint_bind_get (node_id : NodeId) (domain_id : DomainId)
    (l : List (NodeId × IoConstraint)) :
    (TimingConstraints.find_io_constraint node_id domain_id l).bind (fun i => l[i]?) =
      (l.filter (fun p => decide (p.1 = node_id))).find?
        (fun p => decide (p.2.domain = domain_id)) := by
  induction l with
  | nil => simp [TimingConstraints.find_io_constraint]
  | cons p l ih =>
    rw [TimingConstraints.find_io_constraint, List.filter_cons]
    by_cases h1 : p.1 = node_id
    · by_cases h2 : p.2.domain = domain_id
      · simp [h1, h2]
      · rw [if_neg (fun hc => h2 hc.2)]
        simp only [h1, decide_True, if_true, List.find?_cons, h2, decide_False]
        rw [← ih]
        cases TimingConstraints.find_io_constraint node_id domain_id l <;> simp
    · rw [if_neg (fun hc => h1 hc.1)]
      simp only [h1, decide_False, Bool.false_eq_true, if_false]
      rw [← ih]
      cases TimingConstraints.find_io_constraint node_id domain_id l <;> simp

/-- The third and fourth loop of `remap_nodes` return when `node_map` is defined on every node
of the multimap; the result is in key order, and its entries under a node are the old entries
of the nodes mapped to it, in their old order. -/
theorem TimingConstraints.remap_io_constraints_spec (l : List (NodeId × IoConstraint))
    (node_map : NodeId → Option NodeId)
    (hdef : ∀ kv ∈ l, (node_map kv.1).isSome = true) :
    ∃ r : List (NodeId × IoConstraint),
      TimingConstraints.remap_io_constraints l node_map = some r ∧
      ∀ k0 : NodeId, r.filter (fun p => decide (p.1 = k0)) =
        (l.filter (fun kv => decide (node_map kv.1 = some k0))).map (fun kv => (k0, kv.2)) := by
  unfold TimingConstraints.remap_io_constraints
  have gen : ∀ (l : List (NodeId × IoConstraint)),
      (∀ kv ∈ l, (node_map kv.1).isSome = true) →
      ∀ acc : List (NodeId × IoConstraint), acc.Pairwise (fun a b => a.1.id ≤ b.1.id) →
      ∃ r : List (NodeId × IoConstraint),
        l.foldlM (fun remapped_constraints kv => do
          let new_node_id ← node_map kv.1
          pure (StdMultimap.insert NodeId.lt remapped_constraints new_node_id kv.2)) acc =
          some r ∧
        ∀ k0 : NodeId, r.filter (fun p => decide (p.1 = k0)) =
          acc.filter (fun p => decide (p.1 = k0)) ++
          (l.filter (fun kv => decide (node_map kv.1 = some k0))).map (fun kv => (k0, kv.2)) := by
    intro l
    induction l with
    | nil =>
      intro _ acc _
      exact ⟨acc, by simp, by simp⟩
    | cons a l ih =>
      intro hd acc hacc
      obtain ⟨t, ht⟩ := Option.isSome_iff_exists.mp (hd a (List.mem_cons_self a l))
      obtain ⟨hs, hf⟩ := StdMultimap.insert_node_sorted_filter acc t a.2 hacc
      obtain ⟨r, hr, hrf⟩ := ih (fun kv hkv => hd kv (List.mem_cons_of_mem a hkv))
        (StdMultimap.insert NodeId.lt acc t a.2) hs
      refine ⟨r, by simpa [List.foldlM_cons, ht] using hr, ?_⟩
      intro k0
      rw [hrf k0, hf k0, List.filter_cons]
      by_cases hk : t = k0
      · subst hk
        simp [ht]
      · have : ¬ node_map a.1 = some k0 := by
          rw [ht]
          intro hc
          exact hk (Option.some.inj hc)
        simp [hk, this]
  obtain ⟨r, hr, hrf⟩ := gen l hdef [] List.Pairwise.nil
  exact ⟨r, hr, fun k0 => by simpa using hrf k0⟩


/-- The constraint found under the image of a node in a remapped multimap is the constraint
found under the node in the old multimap, when `node_map` is injective. -/
theorem TimingConstraints.remap_io_constraints_lookup (l r : List (NodeId × IoConstraint))
    (node_map : NodeId → Option NodeId)
    (hrf : ∀ k0 : NodeId, r.filter (fun p => decide (p.1 = k0)) =
      (l.filter (fun kv => decide (node_map kv.1 = some k0))).map (fun kv => (k0, kv.2)))
    (hinj : ∀ a b c, node_map a = some c → node_map b = some c → a = b)
    (n n2 : NodeId) (d : DomainId) (hn : node_map n = some n2) :
    ((TimingConstraints.find_io_constraint n2 d r).bind (fun i => r[i]?)).map
        (fun p => p.2.constraint) =
      ((TimingConstraints.find_io_constraint n d l).bind (fun i => l[i]?)).map
        (fun p => p.2.constraint) := by
  rw [TimingConstraints.find_io_constraint_bind_get, TimingConstraints.find_io_constraint_bind_get,
    hrf n2]
  have hfil : l.filter (fun kv => decide (node_map kv.1 = some n2)) =
      l.filter (fun p => decide (p.1 = n)) := by
    apply List.filter_congr
    intro kv _
    by_cases h : kv.1 = n
    · simp [h, hn]
    · have : ¬ node_map kv.1 = some n2 := fun hc => h (hinj kv.1 n n2 hc hn)
      simp [h, this]
  rw [hfil, List.find?_map, Option.map_map]
  rfl


/-- C30: `remap_nodes` is a renaming. When `node_map` is injective and defined on every node the
store refers to (the valid domain sources, the constant generators and the nodes of the input
and output constraints), and the store has at most 256 domain sources, `remap_nodes(node_map)`
returns, and afterwards: for every node `n` that `node_map` sends to `n2`, `input_constraint`
and `output_constraint` at `n2` equal the old ones at `n` for every domain, and `n2` is a
constant generator iff `n` was one; the source of a domain that had a source is the image of the
old source, and a domain without a source still has none; the setup and hold constraints, the
clock uncertainties, the source latencies, the domain names and the domain ids are unchanged.
This holds for every order of iteration the library gives the new set of constant generators. -/
theorem TimingConstraints.remap_nodes_renaming (tc : TimingConstraints)
    (node_map : NodeId → Option NodeId) (layout : UnorderedSetOrder)
    (hlen : tc.domain_sources_.length ≤ 256)
    (hdef : ∀ n : NodeId,
      (n ∈ tc.domain_sources_ ∧ n.toBool = true) ∨ n ∈ tc.constant_generators_ ∨
        (∃ c, (n, c) ∈ tc.input_constraints_) ∨ (∃ c, (n, c) ∈ tc.output_constraints_) →
      (node_map n).isSome = true)
    (hinj : ∀ a b c, node_map a = some c → node_map b = some c → a = b) :
    ∃ tc2 : TimingConstraints, tc.remap_nodes node_map layout = some tc2 ∧
      (∀ n n2 : NodeId, node_map n = some n2 →
        (∀ d, tc2.input_constraint n2 d = tc.input_constraint n d) ∧
        (∀ d, tc2.output_constraint n2 d = tc.output_constraint n d) ∧
        tc2.node_is_constant_generator n2 = tc.node_is_constant_generator n) ∧
      (∀ (d : DomainId) (s : NodeId), tc.clock_domain_source_node d = some s →
        s.toBool = true → tc2.clock_domain_source_node d = node_map s) ∧
      (∀ d : DomainId, tc.is_virtual_clock d = some true →
        tc2.clock_domain_source_node d = some NodeId.INVALID) ∧
      tc2.setup_constraints_ = tc.setup_constraints_ ∧
      tc2.hold_constraints_ = tc.hold_constraints_ ∧
      tc2.setup_clock_uncertainties_ = tc.setup_clock_uncertainties_ ∧
      tc2.hold_clock_uncertainties_ = tc.hold_clock_uncertainties_ ∧
      tc2.source_latencies_ = tc.source_latencies_ ∧
      tc2.domain_names_ = tc.domain_names_ ∧
      tc2.domain_ids_ = tc.domain_ids_ := by
  obtain ⟨rs, hrs, _, hrsg⟩ := TimingConstraints.remap_domain_sources_spec tc.domain_sources_
    node_map hlen (fun s hs hb => hdef s (Or.inl ⟨hs, hb⟩))
  obtain ⟨rc, hrc, hrcm⟩ := TimingConstraints.remap_constant_generators_spec
    tc.constant_generators_ node_map layout (fun n hn => hdef n (Or.inr (Or.inl hn)))
  obtain ⟨ri, hri, hrif⟩ := TimingConstraints.remap_io_constraints_spec tc.input_constraints_
    node_map (fun kv hkv => hdef kv.1 (Or.inr (Or.inr (Or.inl ⟨kv.2, hkv⟩))))
  obtain ⟨ro, hro, hrof⟩ := TimingConstraints.remap_io_constraints_spec tc.output_constraints_
    node_map (fun kv hkv => hdef kv.1 (Or.inr (Or.inr (Or.inr ⟨kv.2, hkv⟩))))
  refine ⟨{ tc with
            domain_sources_ := rs
            constant_generators_ := rc
            input_constraints_ := ri
            output_constraints_ := ro }, ?_, ?_, ?_, ?_, rfl, rfl, rfl, rfl, rfl, rfl, rfl⟩
  · simp [TimingConstraints.remap_nodes, hrs, hrc, hri, hro]
  · intro n n2 hn
    refine ⟨?_, ?_, ?_⟩
    · intro d
      have h := TimingConstraints.remap_io_constraints_lookup tc.input_constraints_ ri node_map
        hrif hinj n n2 d hn
      unfold TimingConstraints.input_constraint
      simp only
      cases h1 : (TimingConstraints.find_io_constraint n2 d ri).bind (fun i => ri[i]?) <;>
        cases h2 : (TimingConstraints.find_io_constraint n d tc.input_constraints_).bind
          (fun i => tc.input_constraints_[i]?) <;>
        simp [h1, h2] at h ⊢
      exact h
    · intro d
      have h := TimingConstraints.remap_io_constraints_lookup tc.output_constraints_ ro node_map
        hrof hinj n n2 d hn
      unfold TimingConstraints.output_constraint
      simp only
      cases h1 : (TimingConstraints.find_io_constraint n2 d ro).bind (fun i => ro[i]?) <;>
        cases h2 : (TimingConstraints.find_io_constraint n d tc.output_constraints_).bind
          (fun i => tc.output_constraints_[i]?) <;>
        simp [h1, h2] at h ⊢
      exact h
    · unfold TimingConstraints.node_is_constant_generator
      simp only
      rw [decide_eq_decide, hrcm n2]
      constructor
      · rintro ⟨m, hm, hmn⟩
        rw [← hinj m n n2 hmn hn]
        exact hm
      · intro h
        exact ⟨n, h, hn⟩
  · intro d s hs hb
    unfold TimingConstraints.clock_domain_source_node at hs ⊢
    simp only
    rw [hrsg d.id s hs, if_pos hb]
  · intro d hv
    unfold TimingConstraints.is_virtual_clock at hv
    cases hs : tc.clock_domain_source_node d with
    | none => simp [hs] at hv
    | some s =>
      simp only [hs, Option.map_some', Option.some.injEq, Bool.not_eq_true'] at hv
      unfold TimingConstraints.clock_domain_source_node at hs ⊢
      simp only
      rw [hrsg d.id s hs]
      simp [hv]


/-- Witness for C30 on the store `tcRemap` and the node map `nodeMapReverse`, which sends the
nodes 3, 4, 5, 9 to 6, 5, 4, 0. -/
theorem TimingConstraints.remap_nodes_renaming_witness :
    tcRemap.domain_sources_.length ≤ 256 ∧
    (∀ n : NodeId,
      (n ∈ tcRemap.domain_sources_ ∧ n.toBool = true) ∨ n ∈ tcRemap.constant_generators_ ∨
        (∃ c, (n, c) ∈ tcRemap.input_constraints_) ∨
        (∃ c, (n, c) ∈ tcRemap.output_constraints_) →
      (nodeMapReverse n).isSome = true) ∧
    (∀ a b c, nodeMapReverse a = some c → nodeMapReverse b = some c → a = b) ∧
    ∃ tc2 : TimingConstraints, tcRemap.remap_nodes nodeMapReverse newestFirst = some tc2 ∧
      tc2.input_constraint ⟨6⟩ ⟨1⟩ = tcRemap.input_constraint ⟨3⟩ ⟨1⟩ ∧
      tc2.output_constraint ⟨5⟩ ⟨0⟩ = tcRemap.output_constraint ⟨4⟩ ⟨0⟩ ∧
      tc2.node_is_constant_generator ⟨0⟩ = tcRemap.node_is_constant_generator ⟨9⟩ ∧
      tc2.clock_domain_source_node ⟨0⟩ = some ⟨4⟩ ∧
      tc2.clock_domain_source_node ⟨1⟩ = some NodeId.INVALID ∧
      tc2.setup_constraints_ = tcRemap.setup_constraints_ := by
  have hdef : ∀ n : NodeId,
      (n ∈ tcRemap.domain_sources_ ∧ n.toBool = true) ∨ n ∈ tcRemap.constant_generators_ ∨
        (∃ c, (n, c) ∈ tcRemap.input_constraints_) ∨
        (∃ c, (n, c) ∈ tcRemap.output_constraints_) →
      (nodeMapReverse n).isSome = true := by
    intro n h
    have hn : n = ⟨5⟩ ∨ n = ⟨9⟩ ∨ n = ⟨3⟩ ∨ n = ⟨4⟩ := by
      simp only [tcRemap, TimingConstraints.empty, List.mem_cons, List.mem_singleton,
        List.not_mem_nil, or_false, Prod.mk.injEq] at h
      rcases h with ⟨h1 | h1, h2⟩ | h | ⟨c, h | h | h⟩ | ⟨c, h⟩
      · exact Or.inl h1
      · subst h1
        exact absurd h2 (by decide)
      · exact Or.inr (Or.inl h)
      · exact Or.inr (Or.inr (Or.inl h.1))
      · exact Or.inr (Or.inr (Or.inl h.1))
      · exact Or.inr (Or.inr (Or.inr h.1))
      · exact Or.inr (Or.inr (Or.inr h.1))
    rcases hn with rfl | rfl | rfl | rfl <;> decide
  have hinj : ∀ a b c, nodeMapReverse a = some c → nodeMapReverse b = some c → a = b := by
    intro a b c ha hb
    unfold nodeMapReverse at ha hb
    split_ifs at ha hb
    cases a
    cases b
    cases c
    simp only [Option.some.injEq, NodeId.mk.injEq] at ha hb ⊢
    omega
  obtain ⟨tc2, h, hio, hsrc, hvirt, hsetup, _⟩ :=
    TimingConstraints.remap_nodes_renaming tcRemap nodeMapReverse newestFirst (by decide) hdef
      hinj
  exact ⟨by decide, hdef, hinj, tc2, h, (hio ⟨3⟩ ⟨6⟩ (by decide)).1 ⟨1⟩,
    (hio ⟨4⟩ ⟨5⟩ (by decide)).2.1 ⟨0⟩, (hio ⟨9⟩ ⟨0⟩ (by decide)).2.2,
    (hsrc ⟨0⟩ ⟨5⟩ (by decide) (by decide)).trans (by decide), hvirt ⟨1⟩ (by decide), hsetup⟩


/-! ## Echo writer: what the constraints section does not show -/

/-- C39: two constraint stores that agree on the clock domains (ids, names and sources), the
constant generators, the input and output constraints and the setup and hold constraints get the
same output from `write_timing_constraints` (the same text, or the same failure), whatever their
source latencies and their setup and hold clock uncertainties are. -/
theorem Echo.write_timing_constraints_ignores_latency_uncertainty (show_float : F32 → String)
    (os : String) (tc1 tc2 : TimingConstraints)
    (hids : tc1.domain_ids_ = tc2.domain_ids_)
    (hnames : tc1.domain_names_ = tc2.domain_names_)
    (hsources : tc1.domain_sources_ = tc2.domain_sources_)
    (hgen : tc1.constant_generators_ = tc2.constant_generators_)
    (hin : tc1.input_constraints_ = tc2.input_constraints_)
    (hout : tc1.output_constraints_ = tc2.output_constraints_)
    (hsetup : tc1.setup_constraints_ = tc2.setup_constraints_)
    (hhold : tc1.hold_constraints_ = tc2.hold_constraints_) :
    Echo.write_timing_constraints show_float os tc1 =
      Echo.write_timing_constraints show_float os tc2 := by
  unfold Echo.write_timing_constraints TimingConstraints.clock_domains
    TimingConstraints.clock_domain_name TimingConstraints.clock_domain_source_node
  rw [hids, hnames, hsources, hgen, hin, hout, hsetup, hhold]

/-- Witness for C39 on `tcEcho` and the same store with a source latency and clock
uncertainties: the two stores differ and give the same output. -/
theorem Echo.write_timing_constraints_ignores_latency_uncertainty_witness :
    tcEchoLatency ≠ tcEcho ∧
    tcEchoLatency.source_latency ⟨1⟩ ≠ tcEcho.source_latency ⟨1⟩ ∧
    Echo.write_timing_constraints showBits "" tcEchoLatency =
      Echo.write_timing_constraints showBits "" tcEcho :=
  ⟨by decide, by decide,
   Echo.write_timing_constraints_ignores_latency_uncertainty showBits "" tcEchoLatency tcEcho
     rfl rfl rfl rfl rfl rfl rfl rfl⟩


/-! ## Echo writer: the assertions -/

/-- A loop whose body returns on every stream returns. -/
theorem foldlM_isSome_of_body {α : Type} (g : String → α → Option String) (l : List α)
    (hg : ∀ a ∈ l, ∀ os, (g os a).isSome = true) (os : String) :
    (l.foldlM g os).isSome = true := by
  induction l generalizing os with
  | nil => simp
  | cons a l ih =>
    obtain ⟨r, hr⟩ := Option.isSome_iff_exists.mp (hg a (List.mem_cons_self a l) os)
    rw [List.foldlM_cons, hr]
    exact ih (fun b hb => hg b (List.mem_cons_of_mem a hb)) r

/-- One writer after another returns on every stream, when both do. -/
theorem Echo.returns_bind {F G : String → Option String}
    (hF : ∀ os, (F os).isSome = true) (hG : ∀ os, (G os).isSome = true) (os : String) :
    ((F os).bind G).isSome = true := by
  obtain ⟨r, hr⟩ := Option.isSome_iff_exists.mp (hF os)
  rw [hr]
  exact hG r

/-- The function `write_tags` fails exactly when some tag of its range has kind SLACK. -/
theorem Echo.write_tags_fails_iff (show_float : F32 → String) (os type : String)
    (tags : List Echo.TimingTag) (node_id : NodeId) :
    Echo.write_tags show_float os type tags node_id = none ↔
      ∃ t ∈ tags, t.type = Echo.TagType.SLACK := by
  rw [Echo.write_tags_eq]
  by_cases h : tags.all (fun t => decide (t.type ≠ Echo.TagType.SLACK)) = true
  · rw [if_pos h]
    simp only [List.all_eq_true, decide_eq_true_eq] at h
    constructor
    · intro hc
      cases hc
    · rintro ⟨t, ht, hs⟩
      exact absurd hs (h t ht)
  · rw [if_neg h]
    simp only [List.all_eq_true, decide_eq_true_eq, not_forall, not_not] at h
    obtain ⟨t, ht, hs⟩ := h
    exact ⟨fun _ => ⟨t, ht, hs⟩, fun _ => rfl⟩

/-- The function `write_slacks` fails exactly when some tag of its range has a kind other than
SLACK. -/
theorem Echo.write_slacks_fails_iff (show_float : F32 → String) (os type : String)
    (tags : List Echo.TimingTag) (edge : EdgeId) :
    Echo.write_slacks show_float os type tags edge = none ↔
      ∃ t ∈ tags, t.type ≠ Echo.TagType.SLACK := by
  rw [Echo.write_slacks_eq]
  by_cases h : tags.all (fun t => decide (t.type = Echo.TagType.SLACK)) = true
  · rw [if_pos h]
    simp only [List.all_eq_true, decide_eq_true_eq] at h
    constructor
    · intro hc
      cases hc
    · rintro ⟨t, ht, hs⟩
      exact absurd (h t ht) hs
  · rw [if_neg h]
    simp only [List.all_eq_true, decide_eq_true_eq, not_forall] at h
    obtain ⟨t, ht, hs⟩ := h
    exact ⟨fun _ => ⟨t, ht, hs⟩, fun _ => rfl⟩


/-- C38: the assertions of the echo writer are the slack-kind invariant. `write_tags` fails
exactly when some tag of the range it is given has kind SLACK, and `write_slacks` fails exactly
when some tag of its range has a kind other than SLACK; and `write_analysis_result` returns
whenever every tag the analyzer returns for a node has a kind other than SLACK and every tag it
returns for an edge has kind SLACK. -/
theorem Echo.echo_writer_assertions (show_float : F32 → String) (os : String)
    (tg : TimingGraph) (analyzer : Echo.TimingAnalyzer) :
    (∀ (type : String) (tags : List Echo.TimingTag) (node_id : NodeId),
      Echo.write_tags show_float os type tags node_id = none ↔
        ∃ t ∈ tags, t.type = Echo.TagType.SLACK) ∧
    (∀ (type : String) (tags : List Echo.TimingTag) (edge : EdgeId),
      Echo.write_slacks show_float os type tags edge = none ↔
        ∃ t ∈ tags, t.type ≠ Echo.TagType.SLACK) ∧
    ((∀ sa, analyzer.setup_analyzer = some sa →
        (∀ n kind, ∀ t ∈ sa.setup_tags n kind, t.type ≠ Echo.TagType.SLACK) ∧
        (∀ e, ∀ t ∈ sa.setup_slacks e, t.type = Echo.TagType.SLACK)) →
     (∀ ha, analyzer.hold_analyzer = some ha →
        (∀ n kind, ∀ t ∈ ha.hold_tags n kind, t.type ≠ Echo.TagType.SLACK) ∧
        (∀ e, ∀ t ∈ ha.hold_slacks e, t.type = Echo.TagType.SLACK)) →
     (Echo.write_analysis_result show_float os tg analyzer).isSome = true) := by
  refine ⟨fun type tags node_id => Echo.write_tags_fails_iff show_float os type tags node_id,
    fun type tags edge => Echo.write_slacks_fails_iff show_float os type tags edge, ?_⟩
  intro hs hh
  have hsn : ∀ sa : Echo.SetupTimingAnalyzer, analyzer.setup_analyzer = some sa →
      ∀ (type : String) (kind : Echo.TagType) (os1 : String),
      (Echo.write_node_tags show_float type sa.setup_tags kind tg.nodes_size os1).isSome
        = true := by
    intro sa hsa type kind os1
    apply foldlM_isSome_of_body
    intro i _ os2
    rw [Option.isSome_iff_ne_none, Ne, Echo.write_tags_fails_iff]
    rintro ⟨t, ht, hk⟩
    exact (hs sa hsa).1 _ kind t ht hk
  have hse : ∀ sa : Echo.SetupTimingAnalyzer, analyzer.setup_analyzer = some sa →
      ∀ (type : String) (os1 : String),
      (Echo.write_edge_slacks show_float type sa.setup_slacks tg.edges_size os1).isSome
        = true := by
    intro sa hsa type os1
    apply foldlM_isSome_of_body
    intro i _ os2
    rw [Option.isSome_iff_ne_none, Ne, Echo.write_slacks_fails_iff]
    rintro ⟨t, ht, hk⟩
    exact hk ((hs sa hsa).2 _ t ht)
  have hhn : ∀ ha : Echo.HoldTimingAnalyzer, analyzer.hold_analyzer = some ha →
      ∀ (type : String) (kind : Echo.TagType) (os1 : String),
      (Echo.write_node_tags show_float type ha.hold_tags kind tg.nodes_size os1).isSome
        = true := by
    intro ha hha type kind os1
    apply foldlM_isSome_of_body
    intro i _ os2
    rw [Option.isSome_iff_ne_none, Ne, Echo.write_tags_fails_iff]
    rintro ⟨t, ht, hk⟩
    exact (hh ha hha).1 _ kind t ht hk
  have hhe : ∀ ha : Echo.HoldTimingAnalyzer, analyzer.hold_analyzer = some ha →
      ∀ (type : String) (os1 : String),
      (Echo.write_edge_slacks show_float type ha.hold_slacks tg.edges_size os1).isSome
        = true := by
    intro ha hha type os1
    apply foldlM_isSome_of_body
    intro i _ os2
    rw [Option.isSome_iff_ne_none, Ne, Echo.write_slacks_fails_iff]
    rintro ⟨t, ht, hk⟩
    exact hk ((hh ha hha).2 _ t ht)
  have hend : ∀ os1 : String, (some (os1 ++ "\n")).isSome = true := fun _ => rfl
  unfold Echo.write_analysis_result
  simp only [Option.bind_eq_bind, Option.pure_def]
  cases hsa : analyzer.setup_analyzer with
  | none =>
    cases hha : analyzer.hold_analyzer with
    | none => rfl
    | some ha =>
      simp only [Option.some_bind, Option.bind_assoc]
      exact Echo.returns_bind (hhn ha hha _ _)
        (fun o => Echo.returns_bind (hhn ha hha _ _)
        (fun o => Echo.returns_bind (hhn ha hha _ _)
        (fun o => Echo.returns_bind (hhn ha hha _ _)
        (fun o => Echo.returns_bind (hhe ha hha _) hend o) o) o) o) _
  | some sa =>
    cases hha : analyzer.hold_analyzer with
    | none =>
      simp only [Option.some_bind, Option.bind_assoc]
      exact Echo.returns_bind (hsn sa hsa _ _)
        (fun o => Echo.returns_bind (hsn sa hsa _ _)
        (fun o => Echo.returns_bind (hsn sa hsa _ _)
        (fun o => Echo.returns_bind (hsn sa hsa _ _)
        (fun o => Echo.returns_bind (hse sa hsa _) hend o) o) o) o) _
    | some ha =>
      simp only [Option.some_bind, Option.bind_assoc]
      exact Echo.returns_bind (hsn sa hsa _ _)
        (fun o => Echo.returns_bind (hsn sa hsa _ _)
        (fun o => Echo.returns_bind (hsn sa hsa _ _)
        (fun o => Echo.returns_bind (hsn sa hsa _ _)
        (fun o => Echo.returns_bind (hse sa hsa _)
        (fun o => Echo.returns_bind (hhn ha hha _ _)
        (fun o => Echo.returns_bind (hhn ha hha _ _)
        (fun o => Echo.returns_bind (hhn ha hha _ _)
        (fun o => Echo.returns_bind (hhn ha hha _ _)
        (fun o => Echo.returns_bind (hhe ha hha _) hend o) o) o) o) o) o) o) o) o) _


/-- Witness for C38 on `echoGraph`: the analyzer that is both `echoSetupAnalyzer` and
`echoHoldAnalyzer` keeps the invariant and is written; a range holding a SLACK tag makes
`write_tags` fail, and with it `write_analysis_result` on an analyzer that returns such a range
for node 0. -/
theorem Echo.echo_writer_assertions_witness :
    ((∀ n kind, ∀ t ∈ echoSetupAnalyzer.setup_tags n kind, t.type ≠ Echo.TagType.SLACK) ∧
      (∀ e, ∀ t ∈ echoSetupAnalyzer.setup_slacks e, t.type = Echo.TagType.SLACK)) ∧
    ((∀ n kind, ∀ t ∈ echoHoldAnalyzer.hold_tags n kind, t.type ≠ Echo.TagType.SLACK) ∧
      (∀ e, ∀ t ∈ echoHoldAnalyzer.hold_slacks e, t.type = Echo.TagType.SLACK)) ∧
    (Echo.write_analysis_result showBits "" echoGraph
      ⟨some echoSetupAnalyzer, some echoHoldAnalyzer⟩).isSome = true ∧
    Echo.write_tags showBits "" "SETUP_DATA_ARRIVAL" [echoSlack time1] ⟨0⟩ = none ∧
    Echo.write_analysis_result showBits "" echoGraph ⟨some echoSetupAnalyzerBad, none⟩ =
      none := by
  have hs : (∀ n kind, ∀ t ∈ echoSetupAnalyzer.setup_tags n kind,
        t.type ≠ Echo.TagType.SLACK) ∧
      (∀ e, ∀ t ∈ echoSetupAnalyzer.setup_slacks e, t.type = Echo.TagType.SLACK) := by
    constructor
    · intro n kind t ht
      unfold echoSetupAnalyzer at ht
      simp only at ht
      split_ifs at ht <;> simp [echoArrival] at ht <;> simp [ht]
    · intro e t ht
      unfold echoSetupAnalyzer at ht
      simp only at ht
      split_ifs at ht <;> simp [echoSlack] at ht
      simp [ht]
  have hh : (∀ n kind, ∀ t ∈ echoHoldAnalyzer.hold_tags n kind,
        t.type ≠ Echo.TagType.SLACK) ∧
      (∀ e, ∀ t ∈ echoHoldAnalyzer.hold_slacks e, t.type = Echo.TagType.SLACK) := by
    constructor
    · intro n kind t ht
      unfold echoHoldAnalyzer at ht
      simp only at ht
      split_ifs at ht <;> simp [echoArrival] at ht
      simp [ht]
    · intro e t ht
      unfold echoHoldAnalyzer at ht
      simp only at ht
      split_ifs at ht <;> simp [echoSlack] at ht
      simp [ht]
  exact ⟨hs, hh,
    (Echo.echo_writer_assertions showBits "" echoGraph
      ⟨some echoSetupAnalyzer, some echoHoldAnalyzer⟩).2.2
      (fun sa hsa => by cases hsa; exact hs) (fun ha hha => by cases hha; exact hh),
    ((Echo.echo_writer_assertions showBits "" echoGraph ⟨none, none⟩).1
      "SETUP_DATA_ARRIVAL" [echoSlack time1] ⟨0⟩).mpr
      ⟨echoSlack time1, List.mem_singleton.mpr rfl, rfl⟩,
    by rfl⟩


/-! ## Source latencies -/

/-- The two ways `set_setup_clock_uncertainty` ends. -/
theorem TimingConstraints.set_setup_clock_uncertainty_eq (tc : TimingConstraints)
    (d_l d_c : DomainId) (x : F32) :
    tc.set_setup_clock_uncertainty d_l d_c x =
      if tc.setup_clock_uncertainties_.find ⟨d_l, d_c⟩ = none then
        .ok () { tc with
          setup_clock_uncertainties_ :=
            StdMap.place DomainPair.lt tc.setup_clock_uncertainties_ ⟨d_l, d_c⟩ x }
      else .assertion_failed tc := by
  unfold TimingConstraints.set_setup_clock_uncertainty StdMap.insert
  cases hf : tc.setup_clock_uncertainties_.find ⟨d_l, d_c⟩ <;> simp [hf]

/-- The two ways `set_hold_clock_uncertainty` ends. -/
theorem TimingConstraints.set_hold_clock_uncertainty_eq (tc : TimingConstraints)
    (d_l d_c : DomainId) (x : F32) :
    tc.set_hold_clock_uncertainty d_l d_c x =
      if tc.hold_clock_uncertainties_.find ⟨d_l, d_c⟩ = none then
        .ok () { tc with
          hold_clock_uncertainties_ :=
            StdMap.place DomainPair.lt tc.hold_clock_uncertainties_ ⟨d_l, d_c⟩ x }
      else .assertion_failed tc := by
  unfold TimingConstraints.set_hold_clock_uncertainty StdMap.insert
  cases hf : tc.hold_clock_uncertainties_.find ⟨d_l, d_c⟩ <;> simp [hf]

/-- C36: `set_source_latency(d, x)` cannot fail, and afterwards `source_latency(d)` is `x`, also
when a value had been set for `d` before; the source latency of every other domain is unchanged,
and so is every other member of the store (hence every other look-up); nothing is asked of the
domain, so a virtual clock carries a latency. By contrast the setters of the setup and hold
constraints and of the setup and hold clock uncertainties end in a failed assertion when called
a second time for the same pair. -/
theorem TimingConstraints.set_source_latency_overwrites (tc : TimingConstraints)
    (d : DomainId) (x y : F32) :
    (tc.set_source_latency d x).source_latency d = x ∧
    ((tc.set_source_latency d y).set_source_latency d x).source_latency d = x ∧
    (∀ d2, d ≠ d2 → (tc.set_source_latency d x).source_latency d2 = tc.source_latency d2) ∧
    tc.set_source_latency d x =
      { tc with source_latencies_ := (tc.set_source_latency d x).source_latencies_ } ∧
    (tc.is_virtual_clock d = some true →
      (tc.set_source_latency d x).is_virtual_clock d = some true ∧
      (tc.set_source_latency d x).source_latency d = x) ∧
    (∀ a b tc1, tc.set_setup_constraint a b y = .ok () tc1 →
      tc1.set_setup_constraint a b x = .assertion_failed tc1) ∧
    (∀ a b tc1, tc.set_hold_constraint a b y = .ok () tc1 →
      tc1.set_hold_constraint a b x = .assertion_failed tc1) ∧
    (∀ a b tc1, tc.set_setup_clock_uncertainty a b y = .ok () tc1 →
      tc1.set_setup_clock_uncertainty a b x = .assertion_failed tc1) ∧
    (∀ a b tc1, tc.set_hold_clock_uncertainty a b y = .ok () tc1 →
      tc1.set_hold_clock_uncertainty a b x = .assertion_failed tc1) := by
  have hset : ∀ (tc0 : TimingConstraints) (z : F32),
      (tc0.set_source_latency d z).source_latency d = z := by
    intro tc0 z
    unfold TimingConstraints.source_latency TimingConstraints.set_source_latency
    simp only
    rw [(StdMap.find_assign DomainId.lt tc0.source_latencies_ d z).1]
  refine ⟨hset tc x, hset _ x, ?_, rfl, fun hv => ⟨hv, hset tc x⟩, ?_, ?_, ?_, ?_⟩
  · intro d2 hd
    unfold TimingConstraints.source_latency TimingConstraints.set_source_latency
    simp only
    rw [(StdMap.find_assign DomainId.lt tc.source_latencies_ d x).2 d2 hd]
  · intro a b tc1 h
    rw [TimingConstraints.set_setup_constraint_eq] at h
    split_ifs at h with hf
    cases h
    rw [TimingConstraints.set_setup_constraint_eq]
    simp [StdMap.find_place_self DomainPair.lt _ _ y hf]
  · intro a b tc1 h
    rw [TimingConstraints.set_hold_constraint_eq] at h
    split_ifs at h with hf
    cases h
    rw [TimingConstraints.set_hold_constraint_eq]
    simp [StdMap.find_place_self DomainPair.lt _ _ y hf]
  · intro a b tc1 h
    rw [TimingConstraints.set_setup_clock_uncertainty_eq] at h
    split_ifs at h with hf
    cases h
    rw [TimingConstraints.set_setup_clock_uncertainty_eq]
    simp [StdMap.find_place_self DomainPair.lt _ _ y hf]
  · intro a b tc1 h
    rw [TimingConstraints.set_hold_clock_uncertainty_eq] at h
    split_ifs at h with hf
    cases h
    rw [TimingConstraints.set_hold_clock_uncertainty_eq]
    simp [StdMap.find_place_self DomainPair.lt _ _ y hf]


/-- Witness for C36 on the store `tcEcho`, whose domain 1 is virtual: the latency `1.0` is stored
for it, a second call replaces it by `2.0`, and a second setup clock uncertainty for the pair
(0, 0) is rejected. -/
theorem TimingConstraints.set_source_latency_overwrites_witness :
    tcEcho.is_virtual_clock ⟨1⟩ = some true ∧
    (tcEcho.set_source_latency ⟨1⟩ time1.value).source_latency ⟨1⟩ = time1.value ∧
    ((tcEcho.set_source_latency ⟨1⟩ time1.value).set_source_latency ⟨1⟩
      time2.value).source_latency ⟨1⟩ = time2.value ∧
    (tcEcho.set_source_latency ⟨1⟩ time1.value).is_virtual_clock ⟨1⟩ = some true ∧
    tcEcho.set_setup_clock_uncertainty ⟨0⟩ ⟨0⟩ time1.value =
      .ok () { tcEcho with setup_clock_uncertainties_ := [(⟨⟨0⟩, ⟨0⟩⟩, time1.value)] } ∧
    TimingConstraints.set_setup_clock_uncertainty
        { tcEcho with setup_clock_uncertainties_ := [(⟨⟨0⟩, ⟨0⟩⟩, time1.value)] }
        ⟨0⟩ ⟨0⟩ time2.value =
      .assertion_failed
        { tcEcho with setup_clock_uncertainties_ := [(⟨⟨0⟩, ⟨0⟩⟩, time1.value)] } :=
  ⟨by decide,
   (TimingConstraints.set_source_latency_overwrites tcEcho ⟨1⟩ time1.value time2.value).1,
   (TimingConstraints.set_source_latency_overwrites tcEcho ⟨1⟩ time2.value time1.value).2.1,
   ((TimingConstraints.set_source_latency_overwrites tcEcho ⟨1⟩ time1.value
      time2.value).2.2.2.2.1 (by decide)).1,
   by decide,
   (TimingConstraints.set_source_latency_overwrites tcEcho ⟨1⟩ time2.value
      time1.value).2.2.2.2.2.2.2.1 ⟨0⟩ ⟨0⟩ _ (by decide)⟩


/-! ## should_analyze -/

/-- A key is counted in a map exactly when the map has an entry under it. -/
theorem StdMap.count_ne_zero_iff {K V : Type} [DecidableEq K] (m : StdMap K V) (k : K) :
    (m.count k != 0) = true ↔ ∃ v, (k, v) ∈ m := by
  unfold StdMap.count StdMap.find
  cases hf : List.find? (fun p => decide (p.1 = k)) m with
  | none =>
    simp only [Option.map_none', Option.isSome_none, Bool.false_eq_true, if_false,
      bne_self_eq_false, false_iff, not_exists]
    intro v hv
    have := List.find?_eq_none.mp hf (k, v) hv
    simp at this
  | some p =>
    simp only [Option.map_some', Option.isSome_some, if_true, Nat.reduceBneDiff, true_iff]
    have hp := List.find?_some hf
    have hmem := List.mem_of_find?_eq_some hf
    simp only [decide_eq_true_eq] at hp
    exact ⟨p.2, by rw [← hp]; exact hmem⟩

/-- A key is counted after a new entry was placed exactly when it is the new key or was counted
before. -/
theorem StdMap.count_place {K V : Type} [DecidableEq K] (lt : K → K → Bool) (m : StdMap K V)
    (k k2 : K) (v : V) (h : m.find k = none) :
    ((StdMap.place lt m k v).count k2 != 0) = ((m.count k2 != 0) || decide (k = k2)) := by
  unfold StdMap.count
  by_cases hk : k = k2
  · subst hk
    rw [StdMap.find_place_self lt m k v h]
    simp
  · rw [StdMap.find_place_ne lt m k k2 v hk]
    simp [hk]

/-- C33: `should_analyze(d_l, d_c)` is true exactly when the store holds a setup constraint or a
hold constraint under the ordered pair `(d_l, d_c)`. A successful `set_setup_constraint(a, b, x)`
or `set_hold_constraint(a, b, x)` makes it true when `(a, b)` is `(d_l, d_c)` and leaves it as it
was for every other pair, the reversed pair `(d_c, d_l)` included; the setters of the clock
uncertainties and of the source latency leave it as it was. -/
theorem TimingConstraints.should_analyze_iff_pair_set (tc : TimingConstraints)
    (d_l d_c : DomainId) :
    (tc.should_analyze d_l d_c = true ↔
      (∃ x, ((⟨d_l, d_c⟩ : DomainPair), x) ∈ tc.setup_constraints_) ∨
      (∃ x, ((⟨d_l, d_c⟩ : DomainPair), x) ∈ tc.hold_constraints_)) ∧
    (∀ a b x tc1, tc.set_setup_constraint a b x = .ok () tc1 →
      tc1.should_analyze d_l d_c = (tc.should_analyze d_l d_c || decide (a = d_l ∧ b = d_c))) ∧
    (∀ a b x tc1, tc.set_hold_constraint a b x = .ok () tc1 →
      tc1.should_analyze d_l d_c = (tc.should_analyze d_l d_c || decide (a = d_l ∧ b = d_c))) ∧
    (∀ a b x tc1, tc.set_setup_clock_uncertainty a b x = .ok () tc1 →
      tc1.should_analyze d_l d_c = tc.should_analyze d_l d_c) ∧
    (∀ a b x tc1, tc.set_hold_clock_uncertainty a b x = .ok () tc1 →
      tc1.should_analyze d_l d_c = tc.should_analyze d_l d_c) ∧
    (∀ d x, (tc.set_source_latency d x).should_analyze d_l d_c = tc.should_analyze d_l d_c) := by
  have hpair : ∀ a b : DomainId,
      decide ((⟨a, b⟩ : DomainPair) = ⟨d_l, d_c⟩) = decide (a = d_l ∧ b = d_c) := by
    intro a b
    simp
  refine ⟨?_, ?_, ?_, ?_, ?_, fun d x => rfl⟩
  · unfold TimingConstraints.should_analyze
    rw [Bool.or_eq_true, StdMap.count_ne_zero_iff, StdMap.count_ne_zero_iff]
  · intro a b x tc1 h
    rw [TimingConstraints.set_setup_constraint_eq] at h
    split_ifs at h with hf
    cases h
    unfold TimingConstraints.should_analyze
    simp only
    rw [StdMap.count_place DomainPair.lt _ _ _ x hf, hpair]
    cases (tc.setup_constraints_.count ⟨d_l, d_c⟩ != 0) <;>
      cases (tc.hold_constraints_.count ⟨d_l, d_c⟩ != 0) <;>
      cases decide (a = d_l ∧ b = d_c) <;> rfl
  · intro a b x tc1 h
    rw [TimingConstraints.set_hold_constraint_eq] at h
    split_ifs at h with hf
    cases h
    unfold TimingConstraints.should_analyze
    simp only
    rw [StdMap.count_place DomainPair.lt _ _ _ x hf, hpair]
    cases (tc.setup_constraints_.count ⟨d_l, d_c⟩ != 0) <;>
      cases (tc.hold_constraints_.count ⟨d_l, d_c⟩ != 0) <;>
      cases decide (a = d_l ∧ b = d_c) <;> rfl
  · intro a b x tc1 h
    rw [TimingConstraints.set_setup_clock_uncertainty_eq] at h
    split_ifs at h with hf
    cases h
    rfl
  · intro a b x tc1 h
    rw [TimingConstraints.set_hold_clock_uncertainty_eq] at h
    split_ifs at h with hf
    cases h
    rfl


/-- Witness for C33: after `set_setup_constraint(0, 1, 1.0)` on an empty store the pair (0, 1) is
analysed and the reversed pair (1, 0) is not, and a setup clock uncertainty for (1, 0) does not
change that. -/
theorem TimingConstraints.should_analyze_iff_pair_set_witness :
    TimingConstraints.empty.set_setup_constraint ⟨0⟩ ⟨1⟩ time1.value = .ok () tcSetup01 ∧
    tcSetup01.should_analyze ⟨0⟩ ⟨1⟩ = true ∧
    tcSetup01.should_analyze ⟨1⟩ ⟨0⟩ = false ∧
    tcSetup01.set_setup_clock_uncertainty ⟨1⟩ ⟨0⟩ time1.value =
      .ok () { tcSetup01 with setup_clock_uncertainties_ := [(⟨⟨1⟩, ⟨0⟩⟩, time1.value)] } ∧
    TimingConstraints.should_analyze
      { tcSetup01 with setup_clock_uncertainties_ := [(⟨⟨1⟩, ⟨0⟩⟩, time1.value)] }
      ⟨1⟩ ⟨0⟩ = false :=
  ⟨by decide,
   ((TimingConstraints.should_analyze_iff_pair_set TimingConstraints.empty ⟨0⟩ ⟨1⟩).2.1
      ⟨0⟩ ⟨1⟩ time1.value tcSetup01 (by decide)).trans (by decide),
   ((TimingConstraints.should_analyze_iff_pair_set TimingConstraints.empty ⟨1⟩ ⟨0⟩).2.1
      ⟨0⟩ ⟨1⟩ time1.value tcSetup01 (by decide)).trans (by decide),
   by decide,
   ((TimingConstraints.should_analyze_iff_pair_set tcSetup01 ⟨1⟩ ⟨0⟩).2.2.2.1
      ⟨1⟩ ⟨0⟩ time1.value _ (by decide)).trans (by decide)⟩


/-! ## The clock domain of a node -/

/-- The search loop of `find_clock_domain` over ids that all have a name ends at the first id
with the name looked for, or with the invalid id. -/
theorem TimingConstraints.find_clock_domain_loop_eq (tc : TimingConstraints) (name : String)
    (ids : List DomainId) (h : ∀ d ∈ ids, ∃ s, tc.clock_domain_name d = some s) :
    tc.find_clock_domain_loop name ids =
      some ((ids.find? (fun d => tc.clock_domain_name d == some name)).getD
        DomainId.INVALID) := by
  induction ids with
  | nil => rfl
  | cons d ds ih =>
    obtain ⟨s, hs⟩ := h d (List.mem_cons_self d ds)
    rw [TimingConstraints.find_clock_domain_loop, List.find?_cons]
    simp only [hs]
    by_cases hsn : s = name
    · simp [hsn]
    · have : (some s == some name) = false := by simpa using hsn
      rw [if_neg hsn, this]
      exact ih (fun d2 hd2 => h d2 (List.mem_cons_of_mem d hd2))

/-- In a consistent store a name that some domain has is found, at a domain with this name. -/
theorem TimingConstraints.WF.find_clock_domain_of_mem {tc : TimingConstraints} (hwf : tc.WF)
    (name : String) (hname : name ∈ tc.domain_names_) :
    ∃ d, tc.find_clock_domain name = some d ∧ d ∈ tc.domain_ids_ ∧
      tc.clock_domain_name d = some name := by
  have hall : ∀ d ∈ tc.clock_domains, ∃ s, tc.clock_domain_name d = some s := by
    intro d hd
    obtain ⟨_, s, hs, _⟩ := hwf.name_of_mem d hd
    exact ⟨s, hs⟩
  have hloop := TimingConstraints.find_clock_domain_loop_eq tc name tc.clock_domains hall
  obtain ⟨i, hi, hin⟩ := List.getElem_of_mem hname
  have hmem : (⟨i⟩ : DomainId) ∈ tc.clock_domains := by
    unfold TimingConstraints.clock_domains
    rw [hwf.1]
    simp only [List.mem_map, List.mem_range, DomainId.mk.injEq, exists_eq_right]
    rw [← hwf.2.1]
    exact hi
  have hsome : (tc.clock_domains.find?
      (fun d => tc.clock_domain_name d == some name)).isSome = true := by
    rw [List.find?_isSome]
    refine ⟨⟨i⟩, hmem, ?_⟩
    simp [TimingConstraints.clock_domain_name, List.getElem?_eq_getElem hi, hin]
  obtain ⟨d, hd⟩ := Option.isSome_iff_exists.mp hsome
  refine ⟨d, ?_, List.mem_of_find?_eq_some hd, ?_⟩
  · unfold TimingConstraints.find_clock_domain
    rw [hloop, hd]
    rfl
  · have := List.find?_some hd
    simpa using this


/-- The call `create_clock_domain(name)` on a consistent store with at most 255 domains, one of
them named `name`: the id found for the name is returned and the store is left as it is. -/
theorem TimingConstraints.create_clock_domain_existing (tc : TimingConstraints) (name : String)
    (hwf : tc.WF) (hlen : tc.domain_ids_.length ≤ 255) (hname : name ∈ tc.domain_names_) :
    ∃ d, tc.create_clock_domain name = .ok d tc ∧ tc.find_clock_domain name = some d ∧
      d ∈ tc.domain_ids_ ∧ tc.clock_domain_name d = some name := by
  obtain ⟨d, hfind, hmem, hn⟩ := hwf.find_clock_domain_of_mem name hname
  have hlt := (hwf.name_of_mem d hmem).1
  have hvalid : d.toBool = true := by
    cases d with
    | mk i =>
      simp only [DomainId.toBool, DomainId.INVALID, bne_iff_ne, ne_eq, DomainId.mk.injEq]
      simp only at hlt
      omega
  refine ⟨d, ?_, hfind, hmem, hn⟩
  unfold TimingConstraints.create_clock_domain
  rw [hfind]
  simp [hvalid]

/-- The store after `create_clock_domain(name)` with a new name: the new id has the name and is
found for it, and the names and sources of the earlier domains are as before. -/
theorem TimingConstraints.create_clock_domain_new_store (tc : TimingConstraints) (name : String)
    (hwf : tc.WF) (hname : name ∉ tc.domain_names_) :
    TimingConstraints.clock_domain_name
      { tc with
        domain_ids_ := tc.domain_ids_ ++ [⟨tc.domain_ids_.length⟩]
        domain_names_ := tc.domain_names_ ++ [name]
        domain_sources_ := tc.domain_sources_ ++ [NodeId.INVALID] }
      ⟨tc.domain_ids_.length⟩ = some name ∧
    TimingConstraints.find_clock_domain
      { tc with
        domain_ids_ := tc.domain_ids_ ++ [⟨tc.domain_ids_.length⟩]
        domain_names_ := tc.domain_names_ ++ [name]
        domain_sources_ := tc.domain_sources_ ++ [NodeId.INVALID] }
      name = some ⟨tc.domain_ids_.length⟩ ∧
    ∀ d ∈ tc.domain_ids_,
      TimingConstraints.clock_domain_name
        { tc with
          domain_ids_ := tc.domain_ids_ ++ [⟨tc.domain_ids_.length⟩]
          domain_names_ := tc.domain_names_ ++ [name]
          domain_sources_ := tc.domain_sources_ ++ [NodeId.INVALID] } d =
        tc.clock_domain_name d ∧
      TimingConstraints.clock_domain_source_node
        { tc with
          domain_ids_ := tc.domain_ids_ ++ [⟨tc.domain_ids_.length⟩]
          domain_names_ := tc.domain_names_ ++ [name]
          domain_sources_ := tc.domain_sources_ ++ [NodeId.INVALID] } d =
        tc.clock_domain_source_node d := by
  have hname1 : TimingConstraints.clock_domain_name
      { tc with
        domain_ids_ := tc.domain_ids_ ++ [⟨tc.domain_ids_.length⟩]
        domain_names_ := tc.domain_names_ ++ [name]
        domain_sources_ := tc.domain_sources_ ++ [NodeId.INVALID] }
      ⟨tc.domain_ids_.length⟩ = some name := by
    simp [TimingConstraints.clock_domain_name, ← hwf.2.1]
  have hold : ∀ d ∈ tc.domain_ids_,
      TimingConstraints.clock_domain_name
        { tc with
          domain_ids_ := tc.domain_ids_ ++ [⟨tc.domain_ids_.length⟩]
          domain_names_ := tc.domain_names_ ++ [name]
          domain_sources_ := tc.domain_sources_ ++ [NodeId.INVALID] } d =
        tc.clock_domain_name d ∧
      TimingConstraints.clock_domain_source_node
        { tc with
          domain_ids_ := tc.domain_ids_ ++ [⟨tc.domain_ids_.length⟩]
          domain_names_ := tc.domain_names_ ++ [name]
          domain_sources_ := tc.domain_sources_ ++ [NodeId.INVALID] } d =
        tc.clock_domain_source_node d := by
    intro d hd
    have hlt := (hwf.name_of_mem d hd).1
    have hlt1 : d.id < tc.domain_names_.length := by rw [hwf.2.1]; exact hlt
    have hlt2 : d.id < tc.domain_sources_.length := by rw [hwf.2.2]; exact hlt
    simp only [TimingConstraints.clock_domain_name, TimingConstraints.clock_domain_source_node,
      List.getElem?_append_left hlt1, List.getElem?_append_left hlt2, and_self]
  refine ⟨hname1, ?_, hold⟩
  apply TimingConstraints.find_clock_domain_loop_found_last _ name tc.domain_ids_ _ _ hname1
  intro id hid
  obtain ⟨_, n, hn, hmem⟩ := hwf.name_of_mem id hid
  refine ⟨n, ?_, fun h => hname (h ▸ hmem)⟩
  rw [(hold id hid).1]
  exact hn

/-- C32: `create_clock_domain` is get-or-create by name. On a consistent store with fewer than
255 domains `create_clock_domain(name)` returns (its two assertions pass) an id whose name is
`name` and which `find_clock_domain(name)` finds. If a domain with that name existed, the id is
the one `find_clock_domain(name)` found before, a domain of the old store with that name, and
the store is unchanged; otherwise the id is the previous number of domains, the store has one
more domain, with this id, the name and no source, the names and sources of the earlier domains
are unchanged and so is every other member of the store. -/
theorem TimingConstraints.create_clock_domain_get_or_create (tc : TimingConstraints)
    (name : String) (hwf : tc.WF) (hlen : tc.domain_ids_.length < 255) :
    ∃ id tc2, tc.create_clock_domain name = .ok id tc2 ∧
      tc2.clock_domain_name id = some name ∧
      tc2.find_clock_domain name = some id ∧
      (name ∈ tc.domain_names_ →
        tc2 = tc ∧ tc.find_clock_domain name = some id ∧ id ∈ tc.clock_domains ∧
        tc.clock_domain_name id = some name) ∧
      (name ∉ tc.domain_names_ →
        id = ⟨tc.domain_ids_.length⟩ ∧
        tc2 = { tc with
                domain_ids_ := tc.domain_ids_ ++ [id]
                domain_names_ := tc.domain_names_ ++ [name]
                domain_sources_ := tc.domain_sources_ ++ [NodeId.INVALID] } ∧
        ∀ d ∈ tc.clock_domains, tc2.clock_domain_name d = tc.clock_domain_name d ∧
          tc2.clock_domain_source_node d = tc.clock_domain_source_node d) := by
  by_cases hname : name ∈ tc.domain_names_
  · obtain ⟨d, hc, hfind, hmem, hn⟩ :=
      TimingConstraints.create_clock_domain_existing tc name hwf (by omega) hname
    exact ⟨d, tc, hc, hn, hfind, fun _ => ⟨rfl, hfind, hmem, hn⟩, fun h => absurd hname h⟩
  · obtain ⟨h1, h2, h3⟩ := TimingConstraints.create_clock_domain_new_store tc name hwf hname
    exact ⟨_, _, TimingConstraints.create_clock_domain_new tc name hwf (by omega) hname, h1, h2,
      fun h => absurd h hname, fun _ => ⟨rfl, rfl, h3⟩⟩


/-- Witness for C32 on the store with the two domains `c` and `cc`: asking for `cc` returns the
id 1 and leaves the store as it is; asking for `x` returns the id 2 of a new domain. -/
theorem TimingConstraints.create_clock_domain_get_or_create_witness :
    (tcDomains 2).WF ∧ (tcDomains 2).domain_ids_.length < 255 ∧
    (tcDomains 2).create_clock_domain "cc" = .ok ⟨1⟩ (tcDomains 2) ∧
    (tcDomains 2).create_clock_domain "x" =
      .ok ⟨2⟩ { tcDomains 2 with
                domain_ids_ := (tcDomains 2).domain_ids_ ++ [⟨2⟩]
                domain_names_ := (tcDomains 2).domain_names_ ++ ["x"]
                domain_sources_ := (tcDomains 2).domain_sources_ ++ [NodeId.INVALID] } := by
  refine ⟨tcDomains_WF 2, by decide, ?_, ?_⟩
  · obtain ⟨id, tc2, h, _, _, hex, _⟩ :=
      TimingConstraints.create_clock_domain_get_or_create (tcDomains 2) "cc" (tcDomains_WF 2)
        (by decide)
    obtain ⟨e1, e2, _⟩ := hex (by decide)
    have hid : id = ⟨1⟩ := Option.some.inj (e2.symm.trans (by decide))
    rw [h, e1, hid]
  · obtain ⟨id, tc2, h, _, _, _, hnew⟩ :=
      TimingConstraints.create_clock_domain_get_or_create (tcDomains 2) "x" (tcDomains_WF 2)
        (by decide)
    obtain ⟨e1, e2, _⟩ := hnew (by decide)
    have hid : id = ⟨2⟩ := e1.trans (by decide)
    rw [h, e2, hid]


/-! ## SetupHoldAnalysis is the product of its members -/

/-- One hook call on a `SetupHoldAnalysis` is the call on the setup visitor followed by the call
on the hold visitor. -/
theorem SetupHoldAnalysis.call_eq {TG TC DC S H Ω : Type} (sv : AnalysisVisitor TG TC DC S Ω)
    (hv : AnalysisVisitor TG TC DC H Ω) (c : HookCall TG TC DC) (self : SetupHoldAnalysis S H)
    (w : Ω) :
    SetupHoldAnalysis.call sv hv c self w =
      (⟨(sv.call c self.setup_visitor_ w).1,
        (hv.call c self.hold_visitor_ (sv.call c self.setup_visitor_ w).2).1⟩,
       (hv.call c self.hold_visitor_ (sv.call c self.setup_visitor_ w).2).2) := by
  cases c <;> rfl


/-- The members of a `SetupHoldAnalysis` after a sequence of hook calls are the stand-alone
visitors after the same sequence, when the state a hook leaves in its visitor does not depend on
the state outside the visitor. -/
theorem SetupHoldAnalysis.run_members {TG TC DC S H Ω : Type}
    (sv : AnalysisVisitor TG TC DC S Ω) (hv : AnalysisVisitor TG TC DC H Ω)
    (hsv : ∀ c s w w2, (sv.call c s w).1 = (sv.call c s w2).1)
    (hhv : ∀ c h w w2, (hv.call c h w).1 = (hv.call c h w2).1)
    (calls : List (HookCall TG TC DC)) (self : SetupHoldAnalysis S H) (w ws wh : Ω) :
    (SetupHoldAnalysis.run sv hv calls self w).1.setup_visitor_ =
      (sv.run calls self.setup_visitor_ ws).1 ∧
    (SetupHoldAnalysis.run sv hv calls self w).1.hold_visitor_ =
      (hv.run calls self.hold_visitor_ wh).1 := by
  unfold SetupHoldAnalysis.run AnalysisVisitor.run
  induction calls generalizing self w ws wh with
  | nil => exact ⟨rfl, rfl⟩
  | cons c cs ih =>
    simp only [List.foldl_cons]
    rw [SetupHoldAnalysis.call_eq]
    have h := ih ⟨(sv.call c self.setup_visitor_ w).1,
        (hv.call c self.hold_visitor_ (sv.call c self.setup_visitor_ w).2).1⟩
      (hv.call c self.hold_visitor_ (sv.call c self.setup_visitor_ w).2).2
      (sv.call c self.setup_visitor_ ws).2 (hv.call c self.hold_visitor_ wh).2
    simp only at h
    rw [hsv c self.setup_visitor_ w ws,
      hhv c self.hold_visitor_ (sv.call c self.setup_visitor_ w).2 wh] at h
    rw [hsv c self.setup_visitor_ w ws,
      hhv c self.hold_visitor_ (sv.call c self.setup_visitor_ w).2 wh]
    exact h

/-- C35: the combined visitor is the product of its two parts. When the state a hook leaves in
a member visitor does not depend on the state outside that visitor, then after every sequence of
hook calls made on a `SetupHoldAnalysis` the accessors `setup_tags` (both overloads) and
`setup_slacks` return what the stand-alone setup visitor returns after the same sequence, and
`hold_tags` (both overloads) and `hold_slacks` what the stand-alone hold visitor returns; the
other member, its initial state and the outside state the stand-alone visitor starts from do not
matter. -/
theorem SetupHoldAnalysis.accessors_are_product {TG TC DC S H Ω R : Type}
    (sv : AnalysisVisitor TG TC DC S Ω) (hv : AnalysisVisitor TG TC DC H Ω)
    (hsv : ∀ c s w w2, (sv.call c s w).1 = (sv.call c s w2).1)
    (hhv : ∀ c h w w2, (hv.call c h w).1 = (hv.call c h w2).1)
    (calls : List (HookCall TG TC DC)) (self : SetupHoldAnalysis S H) (w ws wh : Ω)
    (member_setup_tags : S → NodeId → R) (member_setup_tags_of_type : S → NodeId → Echo.TagType → R)
    (member_setup_slacks : S → EdgeId → R) (member_hold_tags : H → NodeId → R)
    (member_hold_tags_of_type : H → NodeId → Echo.TagType → R)
    (member_hold_slacks : H → EdgeId → R) :
    (∀ node_id, SetupHoldAnalysis.setup_tags member_setup_tags
        (SetupHoldAnalysis.run sv hv calls self w).1 node_id =
      member_setup_tags (sv.run calls self.setup_visitor_ ws).1 node_id) ∧
    (∀ node_id type, SetupHoldAnalysis.setup_tags_of_type member_setup_tags_of_type
        (SetupHoldAnalysis.run sv hv calls self w).1 node_id type =
      member_setup_tags_of_type (sv.run calls self.setup_visitor_ ws).1 node_id type) ∧
    (∀ edge_id, SetupHoldAnalysis.setup_slacks member_setup_slacks
        (SetupHoldAnalysis.run sv hv calls self w).1 edge_id =
      member_setup_slacks (sv.run calls self.setup_visitor_ ws).1 edge_id) ∧
    (∀ node_id, SetupHoldAnalysis.hold_tags member_hold_tags
        (SetupHoldAnalysis.run sv hv calls self w).1 node_id =
      member_hold_tags (hv.run calls self.hold_visitor_ wh).1 node_id) ∧
    (∀ node_id type, SetupHoldAnalysis.hold_tags_of_type member_hold_tags_of_type
        (SetupHoldAnalysis.run sv hv calls self w).1 node_id type =
      member_hold_tags_of_type (hv.run calls self.hold_visitor_ wh).1 node_id type) ∧
    (∀ edge_id, SetupHoldAnalysis.hold_slacks member_hold_slacks
        (SetupHoldAnalysis.run sv hv calls self w).1 edge_id =
      member_hold_slacks (hv.run calls self.hold_visitor_ wh).1 edge_id) := by
  obtain ⟨h1, h2⟩ := SetupHoldAnalysis.run_members sv hv hsv hhv calls self w ws wh
  unfold SetupHoldAnalysis.setup_tags SetupHoldAnalysis.setup_tags_of_type
    SetupHoldAnalysis.setup_slacks SetupHoldAnalysis.hold_tags
    SetupHoldAnalysis.hold_tags_of_type SetupHoldAnalysis.hold_slacks
  rw [h1, h2]
  exact ⟨fun _ => rfl, fun _ _ => rfl, fun _ => rfl, fun _ => rfl, fun _ _ => rfl, fun _ => rfl⟩


/-- Witness for C35 with two members that list the calls they received and share a counter
outside: after two calls the accessors of the combined visitor return what the stand-alone
members return, here the number of calls, 2. For members that copy the shared counter into their
state the hold member of the combined visitor differs from the stand-alone one. -/
theorem SetupHoldAnalysis.accessors_are_product_witness :
    (∀ (c : HookCall Unit Unit Unit) s w w2,
      ((listingVisitor : AnalysisVisitor Unit Unit Unit _ Nat).call c s w).1 =
        (listingVisitor.call c s w2).1) ∧
    SetupHoldAnalysis.setup_tags (fun (s : List (HookCall Unit Unit Unit)) _ => s.length)
      (SetupHoldAnalysis.run listingVisitor listingVisitor
        [.do_reset_node ⟨0⟩, .do_arrival_traverse_node () () () ⟨1⟩] ⟨[], []⟩ 0).1 ⟨1⟩ = 2 ∧
    SetupHoldAnalysis.hold_slacks (fun (s : List (HookCall Unit Unit Unit)) _ => s.length)
      (SetupHoldAnalysis.run listingVisitor listingVisitor
        [.do_reset_node ⟨0⟩, .do_arrival_traverse_node () () () ⟨1⟩] ⟨[], []⟩ 0).1 ⟨0⟩ = 2 ∧
    (SetupHoldAnalysis.run (leakingVisitor : AnalysisVisitor Unit Unit Unit Nat Nat)
        leakingVisitor [.do_reset_node ⟨0⟩] ⟨0, 0⟩ 0).1.hold_visitor_ ≠
      ((leakingVisitor : AnalysisVisitor Unit Unit Unit Nat Nat).run
        [.do_reset_node ⟨0⟩] 0 0).1 := by
  have hl : ∀ (c : HookCall Unit Unit Unit) s w w2,
      ((listingVisitor : AnalysisVisitor Unit Unit Unit _ Nat).call c s w).1 =
        (listingVisitor.call c s w2).1 := by
    intro c s w w2
    cases c <;> rfl
  have h := SetupHoldAnalysis.accessors_are_product listingVisitor listingVisitor hl hl
    [.do_reset_node ⟨0⟩, .do_arrival_traverse_node () () () ⟨1⟩] ⟨[], []⟩ 0 5 7
    (fun s _ => s.length) (fun s _ _ => s.length) (fun s _ => s.length)
    (fun s _ => s.length) (fun s _ _ => s.length) (fun s _ => s.length)
  exact ⟨hl, (h.1 ⟨1⟩).trans (by decide), (h.2.2.2.2.2 ⟨0⟩).trans (by decide), by decide⟩


/-! ## The invariant of the reachable stores -/

/-- The multimap insertion adds one entry and keeps the others. -/
theorem StdMultimap.insert_perm {K V : Type} (lt : K → K → Bool) (m : List (K × V)) (k : K)
    (v : V) : (StdMultimap.insert lt m k v).Perm ((k, v) :: m) := by
  unfold StdMultimap.insert
  refine List.perm_middle.trans ?_
  rw [List.takeWhile_append_dropWhile]

/-- Changing an entry in place by a function that keeps the keys keeps the list of keys. -/
theorem map_modify_of_key_eq {α β : Type} (key : α → β) (f : α → α)
    (hf : ∀ a, key (f a) = key a) (l : List α) (i : Nat) :
    (l.modify f i).map key = l.map key := by
  induction l generalizing i with
  | nil => cases i <;> rfl
  | cons a l ih =>
    cases i with
    | zero => simp [List.modify, hf]
    | succ i => rw [List.modify_succ_cons, List.map_cons, ih, List.map_cons]

/-- The body of `set_input_constraint` and `set_output_constraint` keeps the keys of a multimap
pairwise distinct. -/
theorem TimingConstraints.set_io_constraint_nodup (n : NodeId) (d : DomainId) (x : F32)
    (l : List (NodeId × IoConstraint)) (h : (l.map io_key).Nodup) :
    ((TimingConstraints.set_io_constraint n d x l).map io_key).Nodup := by
  unfold TimingConstraints.set_io_constraint
  cases hf : TimingConstraints.find_io_constraint n d l with
  | some i =>
    simp only
    rw [map_modify_of_key_eq io_key
      (fun p : NodeId × IoConstraint => (p.1, { p.2 with constraint := x })) (fun _ => rfl)]
    exact h
  | none =>
    simp only
    have hperm := (StdMultimap.insert_perm NodeId.lt l n (⟨d, x⟩ : IoConstraint)).map io_key
    rw [hperm.nodup_iff, List.map_cons, List.nodup_cons]
    refine ⟨?_, h⟩
    intro hmem
    obtain ⟨kv, hkv, hk⟩ := List.mem_map.mp hmem
    have hnone := (TimingConstraints.find_io_constraint_eq_none n d l).mp hf
    have := List.find?_eq_none.mp hnone kv hkv
    simp only [io_key, Prod.mk.injEq] at hk
    simp [hk.1, hk.2] at this


/-- A property that every returning step of a loop keeps holds of what the loop returns. -/
theorem foldlM_option_invariant {α β : Type} (P : β → Prop) (g : β → α → Option β)
    (hg : ∀ b a b2, P b → g b a = some b2 → P b2) (l : List α) (b r : β) (hb : P b)
    (h : l.foldlM g b = some r) : P r := by
  induction l generalizing b with
  | nil =>
    simp only [List.foldlM_nil, Option.pure_def, Option.some.injEq] at h
    exact h ▸ hb
  | cons a l ih =>
    rw [List.foldlM_cons] at h
    cases hga : g b a with
    | none => simp [hga] at h
    | some b2 =>
      simp only [hga, Option.bind_eq_bind, Option.some_bind] at h
      exact ih b2 (hg b a b2 hb hga) h

/-- The first loop of `remap_nodes` returns as many entries as there were. -/
theorem TimingConstraints.remap_domain_sources_length (src : List NodeId)
    (node_map : NodeId → Option NodeId) (r : List NodeId)
    (h : TimingConstraints.remap_domain_sources src node_map = some r) :
    r.length = src.length := by
  unfold TimingConstraints.remap_domain_sources at h
  refine foldlM_option_invariant (fun b : List NodeId => b.length = src.length) _ ?_ _ _ r
    (by simp) h
  intro b a b2 hb hstep
  simp only [Option.bind_eq_bind, Option.pure_def] at hstep
  cases h1 : src[(DomainId.ofSize a).id]? with
  | none => simp [h1] at hstep
  | some s =>
    simp only [h1, Option.some_bind] at hstep
    split_ifs at hstep with hs hlt
    · cases h2 : node_map s with
      | none => simp [h2] at hstep
      | some t =>
        simp only [h2, Option.some_bind, Option.some.injEq] at hstep
        rw [← hstep, List.length_set]
        exact hb
    · cases h2 : node_map s <;> simp [h2] at hstep
    · simp only [Option.some.injEq] at hstep
      exact hstep ▸ hb

/-- The third and fourth loop of `remap_nodes` keep the keys of a multimap pairwise distinct,
when the node map is injective. -/
theorem TimingConstraints.remap_io_constraints_nodup (l : List (NodeId × IoConstraint))
    (node_map : NodeId → Option NodeId)
    (hinj : ∀ a b c, node_map a = some c → node_map b = some c → a = b)
    (r : List (NodeId × IoConstraint)) (hl : (l.map io_key).Nodup)
    (h : TimingConstraints.remap_io_constraints l node_map = some r) :
    (r.map io_key).Nodup := by
  unfold TimingConstraints.remap_io_constraints at h
  have gen : ∀ (l : List (NodeId × IoConstraint)) (acc r : List (NodeId × IoConstraint)),
      l.foldlM (fun remapped_constraints kv => do
        let new_node_id ← node_map kv.1
        pure (StdMultimap.insert NodeId.lt remapped_constraints new_node_id kv.2)) acc =
        some r →
      (acc.map io_key).Nodup → (l.map io_key).Nodup →
      (∀ kv ∈ l, ∀ n2, node_map kv.1 = some n2 → (n2, kv.2.domain) ∉ acc.map io_key) →
      (r.map io_key).Nodup := by
    intro l
    induction l with
    | nil =>
      intro acc r h hacc _ _
      simp only [List.foldlM_nil, Option.pure_def, Option.some.injEq] at h
      exact h ▸ hacc
    | cons a l ih =>
      intro acc r h hacc hl hdisj
      rw [List.foldlM_cons] at h
      cases ht : node_map a.1 with
      | none => simp [ht] at h
      | some t =>
        simp only [ht, Option.bind_eq_bind, Option.some_bind, Option.pure_def] at h
        have hl1 : (io_key a :: l.map io_key).Nodup := hl
        obtain ⟨ha, hl2⟩ := List.nodup_cons.mp hl1
        have hperm := (StdMultimap.insert_perm NodeId.lt acc t a.2).map io_key
        refine ih _ r h ?_ hl2 ?_
        · rw [hperm.nodup_iff, List.map_cons, List.nodup_cons]
          exact ⟨hdisj a (List.mem_cons_self a l) t ht, hacc⟩
        · intro kv hkv n2 hn2 hmem
          rw [hperm.mem_iff, List.map_cons, List.mem_cons] at hmem
          rcases hmem with heq | hmem
          · simp only [io_key, Prod.mk.injEq] at heq
            have hk : kv.1 = a.1 := hinj kv.1 a.1 t (heq.1 ▸ hn2) ht
            apply ha
            rw [List.mem_map]
            exact ⟨kv, hkv, by simp [io_key, hk, heq.2]⟩
          · exact hdisj kv (List.mem_cons_of_mem a hkv) n2 hn2 hmem
  exact gen l [] r h (by simp) hl (by simp)

/-- What `remap_nodes` returns: the store with the results of its four loops. -/
theorem TimingConstraints.remap_nodes_eq_some (tc tc2 : TimingConstraints)
    (node_map : NodeId → Option NodeId) (layout : UnorderedSetOrder)
    (h : tc.remap_nodes node_map layout = some tc2) :
    ∃ rs rc ri ro,
      TimingConstraints.remap_domain_sources tc.domain_sources_ node_map = some rs ∧
      TimingConstraints.remap_constant_generators tc.constant_generators_ node_map layout =
        some rc ∧
      TimingConstraints.remap_io_constraints tc.input_constraints_ node_map = some ri ∧
      TimingConstraints.remap_io_constraints tc.output_constraints_ node_map = some ro ∧
      tc2 = { tc with
              domain_sources_ := rs
              constant_generators_ := rc
              input_constraints_ := ri
              output_constraints_ := ro } := by
  unfold TimingConstraints.remap_nodes at h
  simp only [Option.bind_eq_bind, Option.pure_def] at h
  cases h1 : TimingConstraints.remap_domain_sources tc.domain_sources_ node_map with
  | none => simp [h1] at h
  | some rs =>
    cases h2 :
      TimingConstraints.remap_constant_generators tc.constant_generators_ node_map layout with
    | none => simp [h1, h2] at h
    | some rc =>
      cases h3 : TimingConstraints.remap_io_constraints tc.input_constraints_ node_map with
      | none => simp [h1, h2, h3] at h
      | some ri =>
        cases h4 : TimingConstraints.remap_io_constraints tc.output_constraints_ node_map with
        | none => simp [h1, h2, h3, h4] at h
        | some ro =>
          simp only [h1, h2, h3, h4, Option.some_bind, Option.some.injEq] at h
          exact ⟨rs, rc, ri, ro, rfl, rfl, rfl, rfl, h.symm⟩


/-- A returning mutator call with an injective node map, on a store with fewer than 256 domains,
keeps the store consistent, the domain names pairwise distinct and the keys of the input and of
the output constraints pairwise distinct. -/
theorem TimingConstraints.apply_invariant (tc tc2 : TimingConstraints) (m : Mutator)
    (hwf : tc.WF) (hnames : tc.domain_names_.Nodup)
    (hin : (tc.input_constraints_.map io_key).Nodup)
    (hout : (tc.output_constraints_.map io_key).Nodup)
    (hlen : tc.domain_ids_.length < 256) (hm : m.injective) (happ : tc.apply m = some tc2) :
    tc2.WF ∧ tc2.domain_names_.Nodup ∧ (tc2.input_constraints_.map io_key).Nodup ∧
      (tc2.output_constraints_.map io_key).Nodup := by
  cases m with
  | create_clock_domain name =>
    simp only [TimingConstraints.apply] at happ
    by_cases hname : name ∈ tc.domain_names_
    · have hle : tc.domain_ids_.length ≤ 255 := by omega
      obtain ⟨d, hc, _⟩ := TimingConstraints.create_clock_domain_existing tc name hwf hle hname
      rw [hc] at happ
      simp only [Outcome.store?, Option.some.injEq] at happ
      subst happ
      exact ⟨hwf, hnames, hin, hout⟩
    · have hlt : tc.domain_ids_.length < 256 := hlen
      rw [TimingConstraints.create_clock_domain_new tc name hwf hlt hname] at happ
      simp only [Outcome.store?, Option.some.injEq] at happ
      subst happ
      refine ⟨⟨?_, ?_, ?_⟩, ?_, hin, hout⟩
      · simp only [List.length_append, List.length_singleton, List.range_succ, List.map_append,
          List.map_cons, List.map_nil]
        rw [← hwf.1]
      · simp [hwf.2.1]
      · simp [hwf.2.2]
      · rw [List.nodup_append]
        refine ⟨hnames, List.nodup_singleton _, ?_⟩
        intro a ha hb
        rw [List.mem_singleton] at hb
        exact hname (hb ▸ ha)
  | set_setup_constraint a b x =>
    simp only [TimingConstraints.apply, TimingConstraints.set_setup_constraint_eq] at happ
    split_ifs at happ
    · simp only [Outcome.store?, Option.some.injEq] at happ
      subst happ
      exact ⟨hwf, hnames, hin, hout⟩
    · simp [Outcome.store?] at happ
  | set_hold_constraint a b x =>
    simp only [TimingConstraints.apply, TimingConstraints.set_hold_constraint_eq] at happ
    split_ifs at happ
    · simp only [Outcome.store?, Option.some.injEq] at happ
      subst happ
      exact ⟨hwf, hnames, hin, hout⟩
    · simp [Outcome.store?] at happ
  | set_setup_clock_uncertainty a b x =>
    simp only [TimingConstraints.apply, TimingConstraints.set_setup_clock_uncertainty_eq] at happ
    split_ifs at happ
    · simp only [Outcome.store?, Option.some.injEq] at happ
      subst happ
      exact ⟨hwf, hnames, hin, hout⟩
    · simp [Outcome.store?] at happ
  | set_hold_clock_uncertainty a b x =>
    simp only [TimingConstraints.apply, TimingConstraints.set_hold_clock_uncertainty_eq] at happ
    split_ifs at happ
    · simp only [Outcome.store?, Option.some.injEq] at happ
      subst happ
      exact ⟨hwf, hnames, hin, hout⟩
    · simp [Outcome.store?] at happ
  | set_input_constraint n d x =>
    simp only [TimingConstraints.apply, Option.some.injEq] at happ
    subst happ
    exact ⟨hwf, hnames, TimingConstraints.set_io_constraint_nodup n d x _ hin, hout⟩
  | set_output_constraint n d x =>
    simp only [TimingConstraints.apply, Option.some.injEq] at happ
    subst happ
    exact ⟨hwf, hnames, hin, TimingConstraints.set_io_constraint_nodup n d x _ hout⟩
  | set_source_latency d x =>
    simp only [TimingConstraints.apply, Option.some.injEq] at happ
    subst happ
    exact ⟨hwf, hnames, hin, hout⟩
  | set_clock_domain_source n d =>
    simp only [TimingConstraints.apply, TimingConstraints.set_clock_domain_source] at happ
    split_ifs at happ
    · simp only [Outcome.store?, Option.some.injEq] at happ
      subst happ
      exact ⟨⟨hwf.1, hwf.2.1, by simp [hwf.2.2]⟩, hnames, hin, hout⟩
    · simp [Outcome.store?] at happ
  | set_constant_generator n b layout =>
    simp only [TimingConstraints.apply, Option.some.injEq] at happ
    subst happ
    unfold TimingConstraints.set_constant_generator
    split_ifs <;> exact ⟨hwf, hnames, hin, hout⟩
  | remap_nodes node_map layout =>
    simp only [TimingConstraints.apply] at happ
    obtain ⟨rs, rc, ri, ro, h1, _, h3, h4, rfl⟩ :=
      TimingConstraints.remap_nodes_eq_some tc tc2 node_map layout happ
    have hl := TimingConstraints.remap_domain_sources_length _ _ _ h1
    exact ⟨⟨hwf.1, hwf.2.1, hl.trans hwf.2.2⟩, hnames,
      TimingConstraints.remap_io_constraints_nodup _ node_map hm ri hin h3,
      TimingConstraints.remap_io_constraints_nodup _ node_map hm ro hout h4⟩


/-- The reachable stores are consistent, have fewer than 256 domains, pairwise distinct domain
names and pairwise distinct keys of the input and of the output constraints. -/
theorem TimingConstraints.Reachable.consistent {tc : TimingConstraints} (h : tc.Reachable) :
    tc.WF ∧ tc.domain_names_.Nodup ∧ (tc.input_constraints_.map io_key).Nodup ∧
      (tc.output_constraints_.map io_key).Nodup ∧ tc.domain_ids_.length < 256 := by
  induction h with
  | empty =>
    exact ⟨⟨rfl, rfl, rfl⟩, List.nodup_nil, List.nodup_nil, List.nodup_nil, by decide⟩
  | step tc tc2 m _ hm happ hlen ih =>
    obtain ⟨h1, h2, h3, h4, h5⟩ := ih
    obtain ⟨g1, g2, g3, g4⟩ := TimingConstraints.apply_invariant tc tc2 m h1 h2 h3 h4 h5 hm happ
    exact ⟨g1, g2, g3, g4, hlen⟩

/-- C31: every store reachable from the empty store through returning calls of the public
mutators, with fewer than 256 domains and with `remap_nodes` applied to injective maps only,
satisfies: the i-th clock domain of `clock_domains()` has id i; there is exactly one name and one
source-node entry per domain; the domain names are pairwise distinct; no two stored input
constraints share the same (node, domain), and no two stored output constraints do. -/
theorem TimingConstraints.reachable_invariant (tc : TimingConstraints) (h : tc.Reachable) :
    (∀ i, i < tc.clock_domains.length → tc.clock_domains[i]? = some ⟨i⟩) ∧
    tc.domain_names_.length = tc.clock_domains.length ∧
    tc.domain_sources_.length = tc.clock_domains.length ∧
    tc.domain_names_.Pairwise (fun a b => a ≠ b) ∧
    tc.input_constraints_.Pairwise (fun a b => ¬ (a.1 = b.1 ∧ a.2.domain = b.2.domain)) ∧
    tc.output_constraints_.Pairwise (fun a b => ¬ (a.1 = b.1 ∧ a.2.domain = b.2.domain)) := by
  obtain ⟨hwf, hnames, hin, hout, _⟩ := h.consistent
  have hkey : ∀ l : List (NodeId × IoConstraint), (l.map io_key).Nodup →
      l.Pairwise (fun a b => ¬ (a.1 = b.1 ∧ a.2.domain = b.2.domain)) := by
    intro l hl
    have := List.pairwise_map.mp hl
    refine this.imp ?_
    intro a b hab hc
    exact hab (by simp [io_key, hc.1, hc.2])
  refine ⟨?_, hwf.2.1, hwf.2.2, hnames, hkey _ hin, hkey _ hout⟩
  intro i hi
  unfold TimingConstraints.clock_domains at hi ⊢
  rw [hwf.1, List.getElem?_map, List.getElem?_range hi]
  rfl


/-- Witness for C31 on the store `tcReached`, reached from the empty store by
`create_clock_domain("c")`, `set_input_constraint(node 3, domain 0, 1.0)` and
`remap_nodes(nodeMapReverse)`. -/
theorem TimingConstraints.reachable_invariant_witness :
    tcReached.Reachable ∧
    (∀ i, i < tcReached.clock_domains.length → tcReached.clock_domains[i]? = some ⟨i⟩) ∧
    tcReached.domain_names_.length = tcReached.clock_domains.length ∧
    tcReached.domain_sources_.length = tcReached.clock_domains.length ∧
    tcReached.domain_names_.Pairwise (fun a b => a ≠ b) ∧
    tcReached.input_constraints_.Pairwise
      (fun a b => ¬ (a.1 = b.1 ∧ a.2.domain = b.2.domain)) ∧
    tcReached.output_constraints_.Pairwise
      (fun a b => ¬ (a.1 = b.1 ∧ a.2.domain = b.2.domain)) := by
  have hinj : ∀ a b c, nodeMapReverse a = some c → nodeMapReverse b = some c → a = b := by
    intro a b c ha hb
    unfold nodeMapReverse at ha hb
    split_ifs at ha hb
    cases a
    cases b
    cases c
    simp only [Option.some.injEq, NodeId.mk.injEq] at ha hb ⊢
    omega
  have r1 : (tcDomains 1).Reachable :=
    TimingConstraints.Reachable.step TimingConstraints.empty (tcDomains 1)
      (.create_clock_domain "c") TimingConstraints.Reachable.empty True.intro (by decide)
      (by decide)
  have r2 : ((tcDomains 1).set_input_constraint ⟨3⟩ ⟨0⟩ time1.value).Reachable :=
    TimingConstraints.Reachable.step (tcDomains 1) _
      (.set_input_constraint ⟨3⟩ ⟨0⟩ time1.value) r1 True.intro rfl (by decide)
  have r3 : tcReached.Reachable :=
    TimingConstraints.Reachable.step _ tcReached (.remap_nodes nodeMapReverse newestFirst) r2
      hinj (by decide) (by decide)
  exact ⟨r3, TimingConstraints.reachable_invariant tcReached r3⟩


/-! ## The legacy and the newer TimingConstraints agree -/

/-- The legacy `find_io_constraint` is the newer one. -/
theorem Legacy.TimingConstraints.find_io_constraint_eq (n : NodeId) (d : DomainId)
    (l : List (NodeId × IoConstraint)) :
    Legacy.TimingConstraints.find_io_constraint n d l =
      Tatum.TimingConstraints.find_io_constraint n d l := by
  induction l with
  | nil => rfl
  | cons p ps ih =>
    rw [Legacy.TimingConstraints.find_io_constraint, Tatum.TimingConstraints.find_io_constraint,
      ih]

/-- The search loops of `find_clock_domain` agree on stores with the same names. -/
theorem Legacy.TimingConstraints.find_clock_domain_loop_agree (l : Legacy.TimingConstraints)
    (n : Tatum.TimingConstraints) (h : l.domain_names_ = n.domain_names_) (name : String)
    (ids : List DomainId) :
    l.find_clock_domain_loop name ids = n.find_clock_domain_loop name ids := by
  induction ids with
  | nil => rfl
  | cons d ds ih =>
    rw [Legacy.TimingConstraints.find_clock_domain_loop,
      Tatum.TimingConstraints.find_clock_domain_loop, ih]
    unfold Legacy.TimingConstraints.clock_domain_name Tatum.TimingConstraints.clock_domain_name
    rw [h]

/-- The search loops of `find_node_source_clock_domain` agree on stores with the same
sources. -/
theorem Legacy.TimingConstraints.find_node_source_clock_domain_loop_agree
    (l : Legacy.TimingConstraints) (n : Tatum.TimingConstraints)
    (h : l.domain_sources_ = n.domain_sources_) (node : NodeId) (ids : List DomainId) :
    l.find_node_source_clock_domain_loop node ids =
      n.find_node_source_clock_domain_loop node ids := by
  induction ids with
  | nil => rfl
  | cons d ds ih =>
    rw [Legacy.TimingConstraints.find_node_source_clock_domain_loop,
      Tatum.TimingConstraints.find_node_source_clock_domain_loop, ih]
    unfold Legacy.TimingConstraints.clock_domain_source_node
      Tatum.TimingConstraints.clock_domain_source_node
    rw [h]


/-- Stores that agree answer every shared query alike. -/
theorem Legacy.TimingConstraints.Agree.queries {l : Legacy.TimingConstraints}
    {n : Tatum.TimingConstraints} (h : l.Agree n) :
    l.clock_domains = n.clock_domains ∧
    (∀ d, l.clock_domain_name d = n.clock_domain_name d) ∧
    (∀ d, l.clock_domain_source_node d = n.clock_domain_source_node d) ∧
    (∀ v, l.node_clock_domain v = n.node_clock_domain v) ∧
    (∀ v, l.node_is_clock_source v = n.node_is_clock_source v) ∧
    (∀ v, l.node_is_constant_generator v = n.node_is_constant_generator v) ∧
    (∀ name, l.find_clock_domain name = n.find_clock_domain name) ∧
    (∀ a b, l.should_analyze a b = n.should_analyze a b) ∧
    (∀ a b, l.setup_constraint a b = n.setup_constraint a b) ∧
    (∀ a b, l.hold_constraint a b = n.hold_constraint a b) ∧
    (∀ v d, l.input_constraint v d = n.input_constraint v d) ∧
    (∀ v d, l.output_constraint v d = n.output_constraint v d) := by
  obtain ⟨h1, h2, h3, h4, h5, h6, h7, h8⟩ := h
  have hsrc : ∀ v, l.find_node_source_clock_domain v = n.find_node_source_clock_domain v := by
    intro v
    unfold Legacy.TimingConstraints.find_node_source_clock_domain
      Tatum.TimingConstraints.find_node_source_clock_domain
      Legacy.TimingConstraints.clock_domains Tatum.TimingConstraints.clock_domains
    rw [Legacy.TimingConstraints.find_node_source_clock_domain_loop_agree l n h3, h1]
  refine ⟨h1, ?_, ?_, ?_, ?_, ?_, ?_, ?_, ?_, ?_, ?_, ?_⟩
  · intro d
    unfold Legacy.TimingConstraints.clock_domain_name Tatum.TimingConstraints.clock_domain_name
    rw [h2]
  · intro d
    unfold Legacy.TimingConstraints.clock_domain_source_node
      Tatum.TimingConstraints.clock_domain_source_node
    rw [h3]
  · intro v
    unfold Legacy.TimingConstraints.node_clock_domain Tatum.TimingConstraints.node_clock_domain
    rw [hsrc v, h7, h8]
  · intro v
    unfold Legacy.TimingConstraints.node_is_clock_source
      Tatum.TimingConstraints.node_is_clock_source
    rw [hsrc v]
  · intro v
    unfold Legacy.TimingConstraints.node_is_constant_generator
      Tatum.TimingConstraints.node_is_constant_generator
    rw [h4]
  · intro name
    unfold Legacy.TimingConstraints.find_clock_domain Tatum.TimingConstraints.find_clock_domain
      Legacy.TimingConstraints.clock_domains Tatum.TimingConstraints.clock_domains
    rw [Legacy.TimingConstraints.find_clock_domain_loop_agree l n h2, h1]
  · intro a b
    unfold Legacy.TimingConstraints.should_analyze Tatum.TimingConstraints.should_analyze
    rw [h5, h6]
  · intro a b
    unfold Legacy.TimingConstraints.setup_constraint Tatum.TimingConstraints.setup_constraint
    rw [h5]
    rfl
  · intro a b
    unfold Legacy.TimingConstraints.hold_constraint Tatum.TimingConstraints.hold_constraint
    rw [h6]
    rfl
  · intro v d
    unfold Legacy.TimingConstraints.input_constraint Tatum.TimingConstraints.input_constraint
    rw [Legacy.TimingConstraints.find_io_constraint_eq, h7]
    rfl
  · intro v d
    unfold Legacy.TimingConstraints.output_constraint Tatum.TimingConstraints.output_constraint
    rw [Legacy.TimingConstraints.find_io_constraint_eq, h8]
    rfl


/-- One shared mutator call on stores that agree: it returns in the legacy store exactly when it
returns in the newer one, and the stores it leaves agree. -/
theorem Legacy.TimingConstraints.Agree.apply {l : Legacy.TimingConstraints}
    {n : Tatum.TimingConstraints} (h : l.Agree n) (cout : List Legacy.CoutItem)
    (m : SharedMutator) :
    (∃ l2 cout2 n2, Legacy.TimingConstraints.apply (l, cout) m = some (l2, cout2) ∧
      n.apply m.toMutator = some n2 ∧ l2.Agree n2) ∨
    (Legacy.TimingConstraints.apply (l, cout) m = none ∧ n.apply m.toMutator = none) := by
  have hq := h.queries
  obtain ⟨h1, h2, h3, h4, h5, h6, h7, h8⟩ := h
  cases m with
  | create_clock_domain name =>
    simp only [Legacy.TimingConstraints.apply, SharedMutator.toMutator,
      Tatum.TimingConstraints.apply]
    unfold Legacy.TimingConstraints.create_clock_domain
      Tatum.TimingConstraints.create_clock_domain
    rw [hq.2.2.2.2.2.2.1 name]
    cases n.find_clock_domain name with
    | none => exact Or.inr ⟨rfl, rfl⟩
    | some found =>
      by_cases hb : found.toBool = true
      · simp only [hb, Bool.not_true, Bool.false_eq_true, if_false, Outcome.store?,
          Option.map_some']
        exact Or.inl ⟨l, cout, n, rfl, rfl, h1, h2, h3, h4, h5, h6, h7, h8⟩
      · simp only [hb, Bool.not_false, if_true]
        have hagree : Legacy.TimingConstraints.Agree
            { l with
              domain_ids_ := l.domain_ids_ ++ [DomainId.ofSize l.domain_ids_.length]
              domain_names_ := l.domain_names_ ++ [name]
              domain_sources_ := l.domain_sources_ ++ [NodeId.INVALID] }
            { n with
              domain_ids_ := n.domain_ids_ ++ [DomainId.ofSize n.domain_ids_.length]
              domain_names_ := n.domain_names_ ++ [name]
              domain_sources_ := n.domain_sources_ ++ [NodeId.INVALID] } :=
          ⟨by simp only [h1], by simp only [h2], by simp only [h3], h4, h5, h6, h7, h8⟩
        have hq2 := hagree.queries
        rw [hq2.2.1, hq2.2.2.2.2.2.2.1 name, h1]
        rw [h1] at hagree
        split
        · exact Or.inr ⟨rfl, rfl⟩
        · split_ifs
          · split
            · exact Or.inr ⟨rfl, rfl⟩
            · split_ifs
              · exact Or.inl ⟨_, _, _, rfl, rfl, hagree⟩
              · exact Or.inr ⟨rfl, rfl⟩
          · exact Or.inr ⟨rfl, rfl⟩
  | set_setup_constraint a b x =>
    simp only [Legacy.TimingConstraints.apply, SharedMutator.toMutator,
      Tatum.TimingConstraints.apply, Legacy.TimingConstraints.legacy_set_setup_constraint_eq,
      Tatum.TimingConstraints.set_setup_constraint_eq, h5]
    split_ifs
    · exact Or.inl ⟨_, _, _, rfl, rfl, h1, h2, h3, h4, by simp only [h5], h6, h7, h8⟩
    · exact Or.inr ⟨rfl, rfl⟩
  | set_hold_constraint a b x =>
    simp only [Legacy.TimingConstraints.apply, SharedMutator.toMutator,
      Tatum.TimingConstraints.apply, Legacy.TimingConstraints.legacy_set_hold_constraint_eq,
      Tatum.TimingConstraints.set_hold_constraint_eq, h6]
    split_ifs
    · exact Or.inl ⟨_, _, _, rfl, rfl, h1, h2, h3, h4, h5, by simp only [h6], h7, h8⟩
    · exact Or.inr ⟨rfl, rfl⟩
  | set_input_constraint v d x =>
    refine Or.inl ⟨_, _, _, rfl, rfl, h1, h2, h3, h4, h5, h6, ?_, h8⟩
    simp only [Legacy.TimingConstraints.set_input_constraint,
      Tatum.TimingConstraints.set_input_constraint, Legacy.TimingConstraints.set_io_constraint,
      Tatum.TimingConstraints.set_io_constraint, Legacy.TimingConstraints.find_io_constraint_eq,
      h7]
  | set_output_constraint v d x =>
    refine Or.inl ⟨_, _, _, rfl, rfl, h1, h2, h3, h4, h5, h6, h7, ?_⟩
    simp only [Legacy.TimingConstraints.set_output_constraint,
      Tatum.TimingConstraints.set_output_constraint, Legacy.TimingConstraints.set_io_constraint,
      Tatum.TimingConstraints.set_io_constraint, Legacy.TimingConstraints.find_io_constraint_eq,
      h8]
  | set_clock_domain_source v d =>
    simp only [Legacy.TimingConstraints.apply, SharedMutator.toMutator,
      Tatum.TimingConstraints.apply, Legacy.TimingConstraints.set_clock_domain_source,
      Tatum.TimingConstraints.set_clock_domain_source, h3]
    split_ifs
    · exact Or.inl ⟨_, _, _, rfl, rfl, h1, h2, by simp only [h3], h4, h5, h6, h7, h8⟩
    · exact Or.inr ⟨rfl, rfl⟩
  | set_constant_generator v b layout =>
    refine Or.inl ⟨_, _, _, rfl, rfl, ?_⟩
    simp only [Legacy.TimingConstraints.set_constant_generator,
      Tatum.TimingConstraints.set_constant_generator, h4]
    split_ifs
    · exact ⟨h1, h2, h3, rfl, h5, h6, h7, h8⟩
    · exact ⟨h1, h2, h3, rfl, h5, h6, h7, h8⟩


/-- A sequence of shared mutator calls on stores that agree: it returns in the legacy store
exactly when it returns in the newer one, and the stores it leaves agree. -/
theorem Legacy.TimingConstraints.Agree.run {l : Legacy.TimingConstraints}
    {n : Tatum.TimingConstraints} (h : l.Agree n) (cout : List Legacy.CoutItem)
    (calls : List SharedMutator) :
    (∃ l2 cout2 n2, Legacy.TimingConstraints.run (l, cout) calls = some (l2, cout2) ∧
      n.run_shared calls = some n2 ∧ l2.Agree n2) ∨
    (Legacy.TimingConstraints.run (l, cout) calls = none ∧ n.run_shared calls = none) := by
  unfold Legacy.TimingConstraints.run Tatum.TimingConstraints.run_shared
  induction calls generalizing l n cout with
  | nil => exact Or.inl ⟨l, cout, n, rfl, rfl, h⟩
  | cons m ms ih =>
    rw [List.foldlM_cons, List.foldlM_cons]
    rcases h.apply cout m with ⟨l2, cout2, n2, hl, hn, h2⟩ | ⟨hl, hn⟩
    · rw [hl, hn]
      exact ih h2 cout2
    · rw [hl, hn]
      exact Or.inr ⟨rfl, rfl⟩

/-- C37: the legacy and the newer `TimingConstraints` agree on their shared interface. Starting
from stores that hold the same data in their shared members (the two empty stores, for one),
every sequence of calls of the shared mutators `create_clock_domain`, `set_setup_constraint`,
`set_hold_constraint`, `set_input_constraint`, `set_output_constraint`,
`set_clock_domain_source` and `set_constant_generator` returns in the legacy store exactly when
it returns in the newer one (so a call fails in one iff it fails in the other), and afterwards
every shared query returns the same result in both: `clock_domains`, `clock_domain_name`,
`clock_domain_source_node`, `node_clock_domain`, `node_is_clock_source`,
`node_is_constant_generator`, `find_clock_domain`, `should_analyze`, `setup_constraint`,
`hold_constraint`, `input_constraint` and `output_constraint`. -/
theorem Legacy.TimingConstraints.legacy_newer_agree (l : Legacy.TimingConstraints)
    (n : Tatum.TimingConstraints) (cout : List Legacy.CoutItem) (calls : List SharedMutator)
    (h : l.Agree n) :
    ((Legacy.TimingConstraints.run (l, cout) calls).isSome = (n.run_shared calls).isSome) ∧
    ∀ l2 cout2 n2, Legacy.TimingConstraints.run (l, cout) calls = some (l2, cout2) →
      n.run_shared calls = some n2 →
      l2.clock_domains = n2.clock_domains ∧
      (∀ d, l2.clock_domain_name d = n2.clock_domain_name d) ∧
      (∀ d, l2.clock_domain_source_node d = n2.clock_domain_source_node d) ∧
      (∀ v, l2.node_clock_domain v = n2.node_clock_domain v) ∧
      (∀ v, l2.node_is_clock_source v = n2.node_is_clock_source v) ∧
      (∀ v, l2.node_is_constant_generator v = n2.node_is_constant_generator v) ∧
      (∀ name, l2.find_clock_domain name = n2.find_clock_domain name) ∧
      (∀ a b, l2.should_analyze a b = n2.should_analyze a b) ∧
      (∀ a b, l2.setup_constraint a b = n2.setup_constraint a b) ∧
      (∀ a b, l2.hold_constraint a b = n2.hold_constraint a b) ∧
      (∀ v d, l2.input_constraint v d = n2.input_constraint v d) ∧
      (∀ v d, l2.output_constraint v d = n2.output_constraint v d) := by
  rcases h.run cout calls with ⟨l3, cout3, n3, hl, hn, h3⟩ | ⟨hl, hn⟩
  · refine ⟨by rw [hl, hn]; rfl, ?_⟩
    intro l2 cout2 n2 hl2 hn2
    rw [hl] at hl2
    rw [hn] at hn2
    cases hl2
    cases hn2
    exact h3.queries
  · refine ⟨by rw [hl, hn]; rfl, ?_⟩
    intro l2 cout2 n2 hl2
    rw [hl] at hl2
    cases hl2


/-- Witness for C37 on the two empty stores and the calls `sharedCalls`: both runs return and
the queries agree; with a second setup constraint for the pair (0, 1) appended, both runs
fail. -/
theorem Legacy.TimingConstraints.legacy_newer_agree_witness :
    Legacy.TimingConstraints.empty.Agree Tatum.TimingConstraints.empty ∧
    (Legacy.TimingConstraints.run (Legacy.TimingConstraints.empty, []) sharedCalls).isSome
      = true ∧
    (Tatum.TimingConstraints.empty.run_shared sharedCalls).isSome = true ∧
    (∀ l2 cout2 n2,
      Legacy.TimingConstraints.run (Legacy.TimingConstraints.empty, []) sharedCalls =
        some (l2, cout2) →
      Tatum.TimingConstraints.empty.run_shared sharedCalls = some n2 →
      l2.input_constraint ⟨3⟩ ⟨0⟩ = n2.input_constraint ⟨3⟩ ⟨0⟩ ∧
      l2.node_clock_domain ⟨5⟩ = n2.node_clock_domain ⟨5⟩) ∧
    Legacy.TimingConstraints.run (Legacy.TimingConstraints.empty, [])
      (sharedCalls ++ [.set_setup_constraint ⟨0⟩ ⟨1⟩ time2.value]) = none ∧
    Tatum.TimingConstraints.empty.run_shared
      (sharedCalls ++ [.set_setup_constraint ⟨0⟩ ⟨1⟩ time2.value]) = none := by
  have hagree : Legacy.TimingConstraints.empty.Agree Tatum.TimingConstraints.empty :=
    ⟨rfl, rfl, rfl, rfl, rfl, rfl, rfl, rfl⟩
  have h := Legacy.TimingConstraints.legacy_newer_agree Legacy.TimingConstraints.empty
    Tatum.TimingConstraints.empty [] sharedCalls hagree
  have hl : (Legacy.TimingConstraints.run (Legacy.TimingConstraints.empty, [])
      sharedCalls).isSome = true := by decide
  refine ⟨hagree, hl, h.1.symm.trans hl, ?_, by decide, by decide⟩
  intro l2 cout2 n2 h1 h2
  have hq := h.2 l2 cout2 n2 h1 h2
  exact ⟨hq.2.2.2.2.2.2.2.2.2.2.1 ⟨3⟩ ⟨0⟩, hq.2.2.2.1 ⟨5⟩⟩


/-! ## The order of the constant generators -/

/-- The constant generators are stored, and echoed, in the order of iteration the library gives
the set: after `set_constant_generator(node 1, true)` and `set_constant_generator(node 2, true)`
on an empty store, node 2 is written before node 1 when the library puts a new element first,
and after it when the library puts a new element last. -/
theorem Echo.constant_generators_in_library_order :
    Echo.write_timing_constraints showBits ""
        ((TimingConstraints.empty.set_constant_generator ⟨1⟩ true
          newestFirst).set_constant_generator ⟨2⟩ true newestFirst) =
      some ("timing_constraints:\n" ++
        " type: CONSTANT_GENERATOR node: 2\n" ++
        " type: CONSTANT_GENERATOR node: 1\n" ++
        "\n") ∧
    Echo.write_timing_constraints showBits ""
        ((TimingConstraints.empty.set_constant_generator ⟨1⟩ true
          insertionOrder).set_constant_generator ⟨2⟩ true insertionOrder) =
      some ("timing_constraints:\n" ++
        " type: CONSTANT_GENERATOR node: 1\n" ++
        " type: CONSTANT_GENERATOR node: 2\n" ++
        "\n") :=
  ⟨by rfl, by rfl⟩

end Tatum
